import Mathlib

/-!
# The `fs` facade of wasmedge-quickjs (`modules/internal/fs.js`)

A shallow embedding of the parts of `modules/internal/fs.js` that the
specification makes claims about, and the theorems that settle those claims.

Conventions of the embedding

* JavaScript values are the type `JSVal`; `num` carries the integer-valued
  numbers (fractional numbers, NaN and the infinities are outside the model).
* Plain records (option objects) are association lists `Obj`; the object store
  is a `Heap` of such records addressed by position.
* A primitive of the native binding is a state transformer `Prim σ α` over an
  arbitrary host state `σ` that returns a value or raises a `JSError`.
* A JavaScript function that can throw returns `Except JSError _`.
* Everything `fs.js` imports (validators, `path.join`, constants, the binding)
  is a field of a `Host σ`; `memHost` is one host, over in-memory files.
* An argument that can have several JavaScript types is a sum type with one
  constructor for each branch of the `typeof` tests of the source.
* A callback-style function returns `Except JSError (Scheduled σ α)`: the
  exception it throws at call time, or the function it hands to `setTimeout`,
  which runs on the host state of a later turn and yields the arguments of the
  callback (`CallbackArgs`). A promise is given by how it settles (`Settled`);
  `promisesOpen` is the function `open` of `modules/fs/promises.js`.
* `FsHost σ` extends `Host σ` with `path.normalize` and further primitives of
  the binding; `memFsHost` is the in-memory host with these.
-/

namespace NodeFs

/-! ## Values, records and the object store -/

/-- The JavaScript values of the model. -/
inductive JSVal
  | undefined
  | null
  | bool (b : Bool)
  | num (n : Int)
  | str (s : String)
  deriving DecidableEq, Repr, Inhabited

/-- A plain record: its own enumerable properties in insertion order. -/
abbrev Obj := List (String × JSVal)

/-- The property keys of a record, as `Object.keys` lists them. -/
def Obj.keys (o : Obj) : List String := o.map Prod.fst

/-- Property read `o[key]`: the stored value, `undefined` when the key is absent. -/
def Obj.lookup : Obj → String → JSVal
  | [], _ => .undefined
  | (k, v) :: rest, key => if k = key then v else Obj.lookup rest key

/-- Property write `o[key] = v`: overwrite in place, or append a new property. -/
def Obj.assign : Obj → String → JSVal → Obj
  | [], key, v => [(key, v)]
  | (k, w) :: rest, key, v =>
    if k = key then (k, v) :: rest else (k, w) :: Obj.assign rest key v

/-- A record is well formed when no key occurs twice. -/
def Obj.WF (o : Obj) : Prop := (Obj.keys o).Nodup

instance (o : Obj) : Decidable (Obj.WF o) := by
  unfold Obj.WF; infer_instance

/-- The object store: every record lives at a position of the list. -/
abbrev Heap := List Obj

/-- The record stored at reference `r`. -/
def Heap.read (h : Heap) (r : Nat) : Obj := h.getD r []

/-- The store after `h[r][key] = v`. -/
def Heap.write (h : Heap) (r : Nat) (key : String) (v : JSVal) : Heap :=
  h.set r (Obj.assign (Heap.read h r) key v)

/-- Allocation of the empty record `{}`: the new reference and the new store. -/
def Heap.alloc (h : Heap) : Nat × Heap := (h.length, h ++ [[]])

/-- One turn of the loop of `applyDefaultValue`:
`res[key] = dest[key] === undefined ? val : dest[key]`. -/
def applyDefaultValueStep (dest res : Nat) (h : Heap) (e : String × JSVal) : Heap :=
  Heap.write h res e.1
    (if Obj.lookup (Heap.read h dest) e.1 = .undefined then e.2
     else Obj.lookup (Heap.read h dest) e.1)

/-- The function `applyDefaultValue(dest, def)` of `fs.js`, on the object store:
`let res = {}`, then one write into `res` for every entry of
`Object.entries(def)`, then `return res`. -/
def applyDefaultValue (h : Heap) (dest deflt : Nat) : Nat × Heap :=
  let a := Heap.alloc h
  (a.1, (Heap.read a.2 deflt).foldl (applyDefaultValueStep dest a.1) a.2)

/-- The record `applyDefaultValue(dest, def)` returns when it is called on two
record values: the call is run on a store that holds just these two. -/
def applyDefaults (dest deflt : Obj) : Obj :=
  let r := applyDefaultValue [dest, deflt] 0 1
  Heap.read r.2 r.1

/-! ## Errors and native primitives -/

/-- A thrown value: an `Error` object with the properties the facade reads or
sets. The native binding raises values of the same shape (`message`, `code`). -/
structure JSError where
  name : String := "Error"
  message : String
  code : JSVal := .undefined
  path : JSVal := .undefined
  syscall : JSVal := .undefined
  errno : JSVal := .undefined
  deriving DecidableEq, Repr

/-- The value of `new Error(message)`. -/
def mkError (message : String) : JSError := { message := message }

/-- The `TypeError` the engine raises when `*` gets a BigInt and a non-BigInt
operand (the message text is the engine's). -/
def typeErrorMixBigInt : JSError :=
  { name := "TypeError", message := "cannot mix BigInt and other types" }

/-- The `TypeError` the engine raises when a property of `undefined` is read
(the message text is the engine's). -/
def typeErrorReadUndefined : JSError :=
  { name := "TypeError", message := "cannot read property of undefined" }

/-- A primitive of the native binding (module `_node:fs`): it runs on the host
state and returns a value or raises. -/
abbrev Prim (σ : Type) (α : Type) := σ → Except JSError α × σ

/-- The text `ToString(v)` used by `"E" + v` (decimal digits for a number). -/
def JSVal.toText : JSVal → String
  | .undefined => "undefined"
  | .null => "null"
  | .bool b => if b then "true" else "false"
  | .num n => toString n
  | .str s => s

/-- The number `ToNumber(v)`, `none` for NaN. A string is read as a decimal
integer; the other numeric literal forms are outside the integer model. -/
def JSVal.toNumber : JSVal → Option Int
  | .undefined => none
  | .null => some 0
  | .bool b => some (if b then 1 else 0)
  | .num n => some n
  | .str s => if s.trim.isEmpty then some 0 else s.trim.toInt?

/-- The comparison `i < v` for a loop counter `i`. -/
def jsLt (i : Int) (v : JSVal) : Bool :=
  match v.toNumber with
  | some n => decide (i < n)
  | none => false

/-- The comparison `i === v - 1` for a loop counter `i`. -/
def jsIsPred (i : Int) (v : JSVal) : Bool :=
  match v.toNumber with
  | some n => decide (i = n - 1)
  | none => false

/-! ## Metadata snapshots: `Stats` and `BigIntStats` -/

/-- A numeric field of a raw stat result: `number | null` by the typedef
`RawStat`, or absent (a read of it gives `undefined`). -/
inductive RawNum
  | undefined
  | null
  | num (n : Int)
  deriving DecidableEq, Repr, Inhabited

/-- A value of type `BigInt | null`. -/
inductive BigVal
  | null
  | big (n : Int)
  deriving DecidableEq, Repr, Inhabited

/-- A `Date` object: its time value in milliseconds, `none` for an invalid date. -/
structure JSDate where
  time : Option Int
  deriving DecidableEq, Repr

/-- The raw stat object the binding returns (`origin`). -/
structure RawStat where
  dev : RawNum
  ino : RawNum
  mode : RawNum
  nlink : RawNum
  uid : RawNum
  gid : RawNum
  rdev : RawNum
  size : RawNum
  blksize : RawNum
  blocks : RawNum
  atime : RawNum
  mtime : RawNum
  birthtime : RawNum
  is_file : JSVal
  is_directory : JSVal
  is_symlink : JSVal
  is_block_device : JSVal
  is_char_device : JSVal
  is_socket : JSVal
  deriving DecidableEq, Repr

/-- The value of `new Date(v)` for a raw field: `undefined` gives an invalid
date, `null` the epoch, a number its time clip (at most 8.64e15 in magnitude). -/
def newDate : RawNum → JSDate
  | .undefined => ⟨none⟩
  | .null => ⟨some 0⟩
  | .num n => if n.natAbs ≤ 8640000000000000 then ⟨some n⟩ else ⟨none⟩

/-- The expression `v || 0` on a raw field. -/
def orZero : RawNum → RawNum
  | .undefined => .num 0
  | .null => .num 0
  | .num n => if n = 0 then .num 0 else .num n

/-- The class `Stats`: the fields its constructor sets, and `#origin`. -/
structure Stats where
  dev : RawNum
  ino : RawNum
  mode : RawNum
  nlink : RawNum
  uid : RawNum
  gid : RawNum
  rdev : RawNum
  size : RawNum
  blksize : RawNum
  blocks : RawNum
  mtime : JSDate
  atime : JSDate
  birthtime : JSDate
  mtimeMs : RawNum
  atimeMs : RawNum
  birthtimeMs : RawNum
  ctime : JSDate
  ctimeMs : RawNum
  origin : RawStat
  deriving DecidableEq, Repr

/-- The constructor `new Stats(origin)`; no statement of it can throw. -/
def Stats.new (origin : RawStat) : Stats :=
  { dev := origin.dev
    ino := origin.ino
    mode := origin.mode
    nlink := origin.nlink
    uid := origin.uid
    gid := origin.gid
    rdev := origin.rdev
    size := orZero origin.size
    blksize := origin.blksize
    blocks := origin.blocks
    mtime := newDate origin.mtime
    atime := newDate origin.atime
    birthtime := newDate origin.birthtime
    mtimeMs := origin.mtime
    atimeMs := origin.atime
    birthtimeMs := origin.birthtime
    ctime := newDate origin.mtime
    ctimeMs := origin.mtime
    origin := origin }

def Stats.isFile (s : Stats) : JSVal := s.origin.is_file
def Stats.isDirectory (s : Stats) : JSVal := s.origin.is_directory
def Stats.isSymbolicLink (s : Stats) : JSVal := s.origin.is_symlink
def Stats.isBlockDevice (s : Stats) : JSVal := s.origin.is_block_device
def Stats.isFIFO (_s : Stats) : JSVal := .bool false
def Stats.isCharacterDevice (s : Stats) : JSVal := s.origin.is_char_device
def Stats.isSocket (s : Stats) : JSVal := s.origin.is_socket

/-- The function `toBigInt(number)`: `null` for `null` and `undefined`,
`BigInt(number)` otherwise. -/
def toBigInt : RawNum → BigVal
  | .undefined => .null
  | .null => .null
  | .num n => .big n

/-- The product `x * 1000000n`: exact on a BigInt, a `TypeError` on `null`. -/
def mulMillion : BigVal → Except JSError BigVal
  | .big n => .ok (.big (n * 1000000))
  | .null => .error typeErrorMixBigInt

/-- The expression `x || 0n` on a `BigInt | null`. -/
def orZeroBig : BigVal → BigVal
  | .null => .big 0
  | .big n => if n = 0 then .big 0 else .big n

/-- The class `BigIntStats`: the fields its constructor sets, and `#origin`. -/
structure BigIntStats where
  dev : BigVal
  ino : BigVal
  mode : BigVal
  nlink : BigVal
  uid : BigVal
  gid : BigVal
  rdev : BigVal
  size : BigVal
  blksize : BigVal
  blocks : BigVal
  mtime : JSDate
  atime : JSDate
  birthtime : JSDate
  mtimeMs : BigVal
  atimeMs : BigVal
  birthtimeMs : BigVal
  mtimeNs : BigVal
  atimeNs : BigVal
  birthtimeNs : BigVal
  ctime : JSDate
  ctimeMs : BigVal
  ctimeNs : BigVal
  origin : RawStat
  deriving DecidableEq, Repr

/-- The constructor `new BigIntStats(origin)`, statement by statement: the
three products for `mtimeNs`, `atimeNs`, `birthtimeNs` and the one for
`ctimeNs` are the statements that can throw. -/
def BigIntStats.new (origin : RawStat) : Except JSError BigIntStats := do
  let mtimeNs ← mulMillion (toBigInt origin.mtime)
  let atimeNs ← mulMillion (toBigInt origin.atime)
  let birthtimeNs ← mulMillion (toBigInt origin.birthtime)
  let ctimeNs ← mulMillion (toBigInt origin.mtime)
  pure
    { dev := toBigInt origin.dev
      ino := toBigInt origin.ino
      mode := toBigInt origin.mode
      nlink := toBigInt origin.nlink
      uid := toBigInt origin.uid
      gid := toBigInt origin.gid
      rdev := toBigInt origin.rdev
      size := orZeroBig (toBigInt origin.size)
      blksize := toBigInt origin.blksize
      blocks := toBigInt origin.blocks
      mtime := newDate origin.mtime
      atime := newDate origin.atime
      birthtime := newDate origin.birthtime
      mtimeMs := toBigInt origin.mtime
      atimeMs := toBigInt origin.atime
      birthtimeMs := toBigInt origin.birthtime
      mtimeNs := mtimeNs
      atimeNs := atimeNs
      birthtimeNs := birthtimeNs
      ctime := newDate origin.mtime
      ctimeMs := toBigInt origin.mtime
      ctimeNs := ctimeNs
      origin := origin }

def BigIntStats.isFile (s : BigIntStats) : JSVal := s.origin.is_file
def BigIntStats.isDirectory (s : BigIntStats) : JSVal := s.origin.is_directory
def BigIntStats.isSymbolicLink (s : BigIntStats) : JSVal := s.origin.is_symlink
def BigIntStats.isBlockDevice (s : BigIntStats) : JSVal := s.origin.is_block_device
def BigIntStats.isFIFO (_s : BigIntStats) : JSVal := .bool false
def BigIntStats.isCharacterDevice (s : BigIntStats) : JSVal := s.origin.is_char_device
def BigIntStats.isSocket (s : BigIntStats) : JSVal := s.origin.is_socket

/-! ## `statSync`, `lstatSync`, `fstatSync` -/

/-- What a stat call returns: `undefined`, a `Stats` or a `BigIntStats`. -/
inductive StatResult
  | undefined
  | stats (s : Stats)
  | bigStats (b : BigIntStats)
  deriving DecidableEq, Repr

/-- The default option record of the three stat calls:
`{ bigint: false, throwIfNoEntry: true }`. -/
def statDefaults : Obj := [("bigint", .bool false), ("throwIfNoEntry", .bool true)]

/-- The body of the `try` block shared by the three stat calls, after the
binding returned `stat`: `new BigIntStats(stat)` when `options.bigint === true`,
`new Stats(stat)` otherwise. -/
def makeStats (options : Obj) (stat : RawStat) : Except JSError StatResult :=
  if Obj.lookup options "bigint" = .bool true then
    match BigIntStats.new stat with
    | .ok b => .ok (.bigStats b)
    | .error e => .error e
  else .ok (.stats (Stats.new stat))

/-- The `try` block of a stat call as a whole: the binding call, then the
construction of the snapshot; `err` is whatever either of them throws. -/
def tryStat {σ : Type} (call : Prim σ RawStat) (options : Obj) (s : σ) :
    Except JSError StatResult × σ :=
  match call s with
  | (.ok stat, s1) => (makeStats options stat, s1)
  | (.error err, s1) => (.error err, s1)

/-- The function `statSync(path, options)`. `getValidatedPath` is the path
validator of `internal/fs/utils`, `bStatSync` is `binding.statSync`. A caller
that omits `options` passes `statDefaults`. -/
def statSync {σ : Type} (getValidatedPath : String → Except JSError String)
    (bStatSync : String → Prim σ RawStat) (path : String) (options : Obj) (s : σ) :
    Except JSError StatResult × σ :=
  match getValidatedPath path with
  | .error e => (.error e, s)
  | .ok path =>
    let options := applyDefaults options statDefaults
    match tryStat (bStatSync path) options s with
    | (.ok r, s1) => (.ok r, s1)
    | (.error err, s1) =>
      if err.code = .str "NOENT" ∧ Obj.lookup options "throwIfNoEntry" = .bool false then
        (.ok .undefined, s1)
      else
        (.error { message := "no such file or directory", code := .str "ENOENT" }, s1)

/-- The function `lstatSync(path, options)`; `bLstatSync` is `binding.lstatSync`. -/
def lstatSync {σ : Type} (getValidatedPath : String → Except JSError String)
    (bLstatSync : String → Prim σ RawStat) (path : String) (options : Obj) (s : σ) :
    Except JSError StatResult × σ :=
  match getValidatedPath path with
  | .error e => (.error e, s)
  | .ok path =>
    let options := applyDefaults options statDefaults
    match tryStat (bLstatSync path) options s with
    | (.ok r, s1) => (.ok r, s1)
    | (.error err, s1) =>
      if err.code = .str "NOENT" ∧ Obj.lookup options "throwIfNoEntry" = .bool false then
        (.ok .undefined, s1)
      else
        (.error { message := err.message, code := .str ("E" ++ err.code.toText) }, s1)

/-- The function `fstatSync(fd, options)`; `validateInteger` is the validator
of `internal/validators`, `bFstatSync` is `binding.fstatSync`. -/
def fstatSync {σ : Type} (validateInteger : Int → Except JSError Unit)
    (bFstatSync : Int → Prim σ RawStat) (fd : Int) (options : Obj) (s : σ) :
    Except JSError StatResult × σ :=
  match validateInteger fd with
  | .error e => (.error e, s)
  | .ok _ =>
    let options := applyDefaults options statDefaults
    match tryStat (bFstatSync fd) options s with
    | (.ok r, s1) => (.ok r, s1)
    | (.error err, s1) =>
      if err.code = .str "NOENT" ∧ Obj.lookup options "throwIfNoEntry" = .bool false then
        (.ok .undefined, s1)
      else
        (.error { message := err.message, code := .str ("E" ++ err.code.toText) }, s1)

/-! ## `rmSync` and `unlinkSync` -/

/-- The default option record of `rmSync`:
`{ force: false, maxRetries: 0, recursive: false, retryDelay: 100 }`. -/
def rmDefaults : Obj :=
  [("force", .bool false), ("maxRetries", .num 0), ("recursive", .bool false),
   ("retryDelay", .num 100)]

/-- The loop `for (let i = 0; i < options.maxRetries; i++) { ... }` of `rmSync`
from counter value `i` on. The first argument bounds the number of turns; the
caller passes the number of turns that are left, so the bound is reached only
when the loop condition is false. -/
def rmSyncLoop {σ : Type} (bRmSync : String → JSVal → JSVal → Prim σ Unit)
    (path : String) (options : Obj) : Nat → Int → σ → Except JSError Unit × σ
  | 0, _, s => (.ok (), s)
  | fuel + 1, i, s =>
    if jsLt i (Obj.lookup options "maxRetries") then
      match bRmSync path (Obj.lookup options "recursive") (Obj.lookup options "force") s with
      | (.error err, s1) =>
        if jsIsPred i (Obj.lookup options "maxRetries") then
          (.error (mkError err.message), s1)
        else rmSyncLoop bRmSync path options fuel (i + 1) s1
      | (.ok _, s1) => (.ok (), s1)
    else (.ok (), s)

/-- The number of values of `i` from 0 for which `i < v` holds. -/
def turnsBelow (v : JSVal) : Nat :=
  match v.toNumber with
  | some n => n.toNat
  | none => 0

/-- The function `rmSync(path, options)`; `bRmSync` is `binding.rmSync`. A
caller that omits `options` passes `rmDefaults`. -/
def rmSync {σ : Type} (getValidatedPath : String → Except JSError String)
    (bRmSync : String → JSVal → JSVal → Prim σ Unit) (path : String) (options : Obj)
    (s : σ) : Except JSError Unit × σ :=
  match getValidatedPath path with
  | .error e => (.error e, s)
  | .ok path =>
    let options := applyDefaults options rmDefaults
    rmSyncLoop bRmSync path options (turnsBelow (Obj.lookup options "maxRetries")) 0 s

/-- The function `unlinkSync(path)`: `getValidatedPath`, then `rmSync(path)`. -/
def unlinkSync {σ : Type} (getValidatedPath : String → Except JSError String)
    (bRmSync : String → JSVal → JSVal → Prim σ Unit) (path : String) (s : σ) :
    Except JSError Unit × σ :=
  match getValidatedPath path with
  | .error e => (.error e, s)
  | .ok path => rmSync getValidatedPath bRmSync path rmDefaults s

/-- A scripted `binding.rmSync`: the host state is the list of outcomes of the
calls still to come (`some m` fails with message `m`, `none` succeeds) and the
log of the calls made so far; a call past the end of the script succeeds. -/
structure RmHost where
  script : List (Option String)
  calls : List String
  deriving DecidableEq, Repr

/-- The scripted `binding.rmSync`: log the path, consume one outcome. -/
def scriptedRm : String → JSVal → JSVal → Prim RmHost Unit :=
  fun path _ _ s =>
    match s.script with
    | [] => (.ok (), { script := [], calls := s.calls ++ [path] })
    | none :: rest => (.ok (), { script := rest, calls := s.calls ++ [path] })
    | some m :: rest =>
      (.error { message := m, code := .str "IO" }, { script := rest, calls := s.calls ++ [path] })

/-- A path validator that accepts every path unchanged. -/
def acceptPath : String → Except JSError String := fun p => .ok p

/-! ## Directory cursor: `Dirent` and `Dir` -/

/-- An entry as the binding delivers it (`innerData`). -/
structure RawEntry where
  name : String
  filetype : Nat
  deriving DecidableEq, Repr

/-- One answer of `binding.freaddirSync`: `{ res, fin, cookie }`. -/
structure Page where
  res : List RawEntry
  fin : Bool
  cookie : Nat
  deriving DecidableEq, Repr

/-- The class `Dirent`: the two fields its constructor sets. -/
structure Dirent where
  filetype : Nat
  name : String
  deriving DecidableEq, Repr

/-- The constructor `new Dirent(innerData)` on an entry. -/
def Dirent.new (innerData : RawEntry) : Dirent :=
  { filetype := innerData.filetype, name := innerData.name }

/-- The class `Dir`: `#fd`, `path`, `#dataBuf`, `#idx`, `#fin`, `#cookie`. -/
structure Dir where
  fd : Int
  path : String
  dataBuf : List RawEntry
  idx : Nat
  fin : Bool
  cookie : Nat
  deriving DecidableEq, Repr

/-- The constructor `new Dir(fd, path)` with the field initialisers of the class. -/
def Dir.new (fd : Int) (path : String) : Dir :=
  { fd := fd, path := path, dataBuf := [], idx := 0, fin := false, cookie := 0 }

/-- The filter of `#fetch`: `d.name !== "." && d.name !== ".."`. -/
def notDot (d : RawEntry) : Bool := d.name != "." && d.name != ".."

/-- The value `!(this.#idx === this.#dataBuf.length && this.#fin)` that
`#fetch` returns. -/
def Dir.hasNext (d : Dir) : Bool := !(d.idx == d.dataBuf.length && d.fin)

/-- The method `Dir.#fetch()`; `freaddirSync` is `binding.freaddirSync`. -/
def Dir.fetch {σ : Type} (freaddirSync : Int → Nat → Prim σ Page) (d : Dir) (s : σ) :
    Except JSError Bool × Dir × σ :=
  if d.idx = d.dataBuf.length ∧ d.fin = false then
    match freaddirSync d.fd d.cookie s with
    | (.ok data, s1) =>
      let d1 : Dir :=
        { d with dataBuf := d.dataBuf ++ data.res.filter notDot
                 fin := data.fin
                 cookie := data.cookie }
      (.ok d1.hasNext, d1, s1)
    | (.error err, s1) => (.error { message := err.message, code := err.code }, d, s1)
  else (.ok d.hasNext, d, s)

/-- The method `Dir.readSync()`: `null` is `none`. In
`new Dirent(this.#dataBuf[this.#idx++])` the index is advanced before the
constructor runs, and the constructor reads `innerData.filetype`, which throws
a `TypeError` when the element is `undefined` (index past the buffer). -/
def Dir.readSync {σ : Type} (freaddirSync : Int → Nat → Prim σ Page) (d : Dir) (s : σ) :
    Except JSError (Option Dirent) × Dir × σ :=
  match Dir.fetch freaddirSync d s with
  | (.error e, d1, s1) => (.error e, d1, s1)
  | (.ok false, d1, s1) => (.ok none, d1, s1)
  | (.ok true, d1, s1) =>
    match d1.dataBuf.get? d1.idx with
    | some innerData => (.ok (some (Dirent.new innerData)), { d1 with idx := d1.idx + 1 }, s1)
    | none => (.error typeErrorReadUndefined, { d1 with idx := d1.idx + 1 }, s1)

/-- The outcomes of `n` successive calls of `readSync` on one cursor, with the
cursor and the host state after the last of them. -/
def Dir.readSyncTimes {σ : Type} (freaddirSync : Int → Nat → Prim σ Page) :
    Nat → Dir → σ → List (Except JSError (Option Dirent)) × Dir × σ
  | 0, d, s => ([], d, s)
  | n + 1, d, s =>
    match Dir.readSync freaddirSync d s with
    | (r, d1, s1) =>
      match Dir.readSyncTimes freaddirSync n d1 s1 with
      | (rs, d2, s2) => (r :: rs, d2, s2)

/-- The values returned or errors thrown by `n` successive calls of `readSync`. -/
def Dir.outcomes {σ : Type} (freaddirSync : Int → Nat → Prim σ Page) (n : Nat) (d : Dir)
    (s : σ) : List (Except JSError (Option Dirent)) :=
  (Dir.readSyncTimes freaddirSync n d s).1

/-- A scripted `binding.freaddirSync`: the host state is the list of pages
still to be returned and the log of `(fd, cookie)` arguments received. -/
structure DirHost where
  pages : List Page
  calls : List (Int × Nat)
  deriving DecidableEq, Repr

/-- The scripted `binding.freaddirSync`: log the arguments and return the next
page; a call after the last page raises. -/
def scriptedReaddir : Int → Nat → Prim DirHost Page :=
  fun fd cookie s =>
    match s.pages with
    | p :: rest => (.ok p, { pages := rest, calls := s.calls ++ [(fd, cookie)] })
    | [] =>
      (.error { message := "read past the last page", code := .str "INVAL" },
        { pages := [], calls := s.calls ++ [(fd, cookie)] })

/-! ## Properties of raw stats used in the statements -/

/-- The field is a number (an integer in the model). -/
def RawNum.isInt : RawNum → Bool
  | .num _ => true
  | _ => false

/-- Every one of the thirteen numeric fields of the raw stat is an integer. -/
def RawStat.integerFields (r : RawStat) : Prop :=
  r.dev.isInt = true ∧ r.ino.isInt = true ∧ r.mode.isInt = true ∧ r.nlink.isInt = true ∧
  r.uid.isInt = true ∧ r.gid.isInt = true ∧ r.rdev.isInt = true ∧ r.size.isInt = true ∧
  r.blksize.isInt = true ∧ r.blocks.isInt = true ∧ r.atime.isInt = true ∧
  r.mtime.isInt = true ∧ r.birthtime.isInt = true

instance (r : RawStat) : Decidable r.integerFields := by
  unfold RawStat.integerFields; infer_instance

/-- The raw stat is flagged as a regular file and as nothing else. -/
def RawStat.regularFileOnly (r : RawStat) : Prop :=
  r.is_file = .bool true ∧ r.is_directory = .bool false ∧ r.is_symlink = .bool false ∧
  r.is_block_device = .bool false ∧ r.is_char_device = .bool false ∧
  r.is_socket = .bool false

instance (r : RawStat) : Decidable r.regularFileOnly := by
  unfold RawStat.regularFileOnly; infer_instance

/-- A number field and a BigInt field hold the same integer. -/
def sameInteger (x : RawNum) (y : BigVal) : Prop := ∃ n : Int, x = .num n ∧ y = .big n

/-- A sequence of pages as a binding delivers a listing: every page but the
last has `fin = false` and holds an entry other than `"."` and `".."`, and the
last page has `fin = true`. -/
def wellPaged : List Page → Prop
  | [] => False
  | [p] => p.fin = true
  | p :: q :: rest => p.fin = false ∧ p.res.filter notDot ≠ [] ∧ wellPaged (q :: rest)

/-- The entries of a sequence of pages, in order, without `"."` and `".."`,
each as a `Dirent`. -/
def listing : List Page → List Dirent
  | [] => []
  | p :: rest => (p.res.filter notDot).map Dirent.new ++ listing rest

/-! ## Concrete inputs -/

/-- A store of two records: a caller object that sets `null`, `false`, `0`,
`""` and an unrecognised key `z`, and a default record of five keys. -/
def demoStore : Heap :=
  [[("a", .null), ("b", .bool false), ("c", .num 0), ("d", .str ""), ("z", .num 9)],
   [("a", .num 1), ("b", .bool true), ("c", .num 7), ("d", .str "x"), ("e", .num 5)]]

/-- A `binding.statSync` that fails on every path with the given error. -/
def failingStat (err : JSError) : String → Prim Unit RawStat :=
  fun _ s => (.error err, s)

/-- A `binding.fstatSync` that fails on every descriptor with the given error. -/
def failingFstat (err : JSError) : Int → Prim Unit RawStat :=
  fun _ s => (.error err, s)

/-- An integer validator that accepts every integer. -/
def acceptInteger : Int → Except JSError Unit := fun _ => .ok ()

/-- The native error of a missing path. -/
def nativeNoEnt : JSError := { message := "No such file or directory", code := .str "NOENT" }

/-- A native error other than the missing-path one. -/
def nativeAcces : JSError := { message := "Permission denied", code := .str "ACCES" }

/-- The raw stat of a regular file, every field an integer. -/
def rawRegular : RawStat :=
  { dev := .num 1, ino := .num 42, mode := .num 33188, nlink := .num 1, uid := .num 0,
    gid := .num 0, rdev := .num 0, size := .num 0, blksize := .num 4096, blocks := .num 8,
    atime := .num 1700000000123, mtime := .num 1700000000456, birthtime := .num 1600000000789,
    is_file := .bool true, is_directory := .bool false, is_symlink := .bool false,
    is_block_device := .bool false, is_char_device := .bool false, is_socket := .bool false }

/-- The raw stat of a regular file in which the binding left `mtime` out. -/
def rawNoMtime : RawStat := { rawRegular with mtime := .undefined }

/-- The cursor `new Dir(3, "d")` before its first read. -/
def demoDir : Dir := Dir.new 3 "d"

/-- A directory listing delivered in two pages: the first holds only `"."`
and `".."` and is not the last one, the second holds the file `"a"`. -/
def dotPageFirst : DirHost :=
  { pages := [{ res := [⟨".", 3⟩, ⟨"..", 3⟩], fin := false, cookie := 1 },
              { res := [⟨"a", 4⟩], fin := true, cookie := 2 }]
    calls := [] }

/-- A directory listing delivered in two pages that both hold a file. -/
def twoFullPages : DirHost :=
  { pages := [{ res := [⟨".", 3⟩, ⟨"..", 3⟩, ⟨"a", 4⟩], fin := false, cookie := 1 },
              { res := [⟨"b", 3⟩], fin := true, cookie := 2 }]
    calls := [] }

/-! ## Byte buffers -/

/-- Modelled from the spec: the class `Buffer` of the module `buffer` (a
byte-array primitive that is a collaborator of `fs.js`, not part of it). A
`Buffer` is a view of `byteLength` bytes that starts at `byteOffset` in its
backing `ArrayBuffer`, which the property `buffer.buffer` gives. -/
structure Buffer where
  buffer : List Nat
  byteOffset : Nat
  byteLength : Nat
  deriving DecidableEq, Repr

/-- The bytes a `Buffer` shows: `byteLength` bytes of the backing store from
`byteOffset` on. -/
def Buffer.bytes (b : Buffer) : List Nat := (b.buffer.drop b.byteOffset).take b.byteLength

/-- A `Buffer` that shows the whole of a fresh backing store with the given bytes. -/
def Buffer.ofBytes (bs : List Nat) : Buffer :=
  { buffer := bs, byteOffset := 0, byteLength := bs.length }

/-- The `RangeError` of the buffer module for a size or an index out of range
(the message text is the module's). -/
def rangeErrorBuffer : JSError :=
  { name := "RangeError", message := "out of range", code := .str "ERR_OUT_OF_RANGE" }

/-- The `TypeError` of the buffer module for an empty fill value (the message
text is the module's). -/
def typeErrorEmptyFill : JSError :=
  { name := "TypeError", message := "invalid fill value", code := .str "ERR_INVALID_ARG_VALUE" }

/-- The call `Buffer.alloc(size)` on the `size` of a `Stats`: a zero-filled
buffer at offset 0 of its own backing store; a size that is not a
non-negative number is rejected. -/
def Buffer.alloc : RawNum → Except JSError Buffer
  | .num n => if 0 ≤ n then .ok (Buffer.ofBytes (List.replicate n.toNat 0)) else .error rangeErrorBuffer
  | _ => .error rangeErrorBuffer

/-- A relative index of `ArrayBuffer.prototype.slice` and `Buffer.prototype.slice`:
a negative index counts from the end, and the result is clamped to `0 .. len`. -/
def relIndex (i : Int) (len : Nat) : Nat :=
  if i < 0 then (len + i).toNat else min i.toNat len

/-- The call `arrayBuffer.slice(begin, end)`: a copy of the bytes from `begin`
up to `end`. -/
def sliceBytes (bs : List Nat) (start stop : Int) : List Nat :=
  (bs.drop (relIndex start bs.length)).take (relIndex stop bs.length - relIndex start bs.length)

/-- The call `buf.slice(start, end)`: a view of the same backing store. -/
def Buffer.slice (b : Buffer) (start stop : Int) : Buffer :=
  { buffer := b.buffer
    byteOffset := b.byteOffset + relIndex start b.byteLength
    byteLength := relIndex stop b.byteLength - relIndex start b.byteLength }

/-- The first `n` bytes of the endless repetition of a non-empty pattern. -/
def repeatPattern (pattern : List Nat) (n : Nat) : List Nat :=
  (List.range n).map (fun i => pattern.getD (i % pattern.length) 0)

/-- The call `buf.fill(value, offset, end)` with a byte sequence as value: the
bytes of the view from `offset` up to `end` become the repetition of `value`;
an `end` past the view or a negative `offset` is rejected, an empty range
changes nothing, and an empty value for a non-empty range is rejected. -/
def Buffer.fill (b : Buffer) (value : List Nat) (offset stop : Int) : Except JSError Buffer :=
  if offset < 0 ∨ stop < 0 ∨ (b.byteLength : Int) < stop then .error rangeErrorBuffer
  else if stop ≤ offset then .ok b
  else if value = [] then .error typeErrorEmptyFill
  else
    .ok { b with
      buffer := b.buffer.take (b.byteOffset + offset.toNat) ++
        repeatPattern value (stop.toNat - offset.toNat) ++
        b.buffer.drop (b.byteOffset + stop.toNat) }

/-! ## Collaborators of `fs.js` -/

/-- The first argument of `readFileSync`, `writeFileSync`, `appendFileSync`:
a path or an open descriptor (a number). -/
inductive FileArg
  | path (p : String)
  | fd (n : Int)
  deriving DecidableEq, Repr

/-- An `options` argument: left out, a record, a number or a string. -/
inductive OptionsArg
  | undefined
  | obj (o : Obj)
  | num (n : Int)
  | str (s : String)
  deriving DecidableEq, Repr

/-- Everything `fs.js` imports and calls that is not defined in `fs.js`: the
validators of `internal/validators` and `internal/fs/utils`, `path.join`,
`parseInt`, the string conversions of `Buffer`, the constants of
`internal_binding/constants` and `internal_binding/uv`, and the primitives of
the native binding `_node:fs` on the host state `σ`. -/
structure Host (σ : Type) where
  getValidatedPath : String → Except JSError String
  getValidatedPathOfNumber : Int → Except JSError String
  getValidMode : JSVal → Except JSError Int
  validateBoolean : JSVal → Except JSError Unit
  validateInteger : RawNum → Except JSError Unit
  validateIntegerIn : JSVal → Int → Int → Except JSError Unit
  validateEncoding : JSVal → Except JSError Unit
  stringToFlags : JSVal → Except JSError Int
  pathJoin : String → String → String
  parseInt : String → JSVal
  bufferFrom : String → JSVal → Buffer
  bufferToString : Buffer → JSVal → String
  F_OK : Int
  COPYFILE_EXCL : Int
  UV_ENOENT : Int
  UV_EEXIST : Int
  statSync : String → Prim σ RawStat
  fstatSync : Int → Prim σ RawStat
  mkdirSync : String → JSVal → JSVal → Prim σ Unit
  copyFileSync : String → String → Prim σ Unit
  openSync : String → Int → JSVal → Prim σ Int
  fcloseSync : Int → Prim σ Unit
  freadSync : Int → Int → Int → Prim σ (List Nat)
  fwriteSync : Int → Int → List Nat → Prim σ Int

/-! ## Bitwise `&` and loose `==` -/

/-- The conversion `ToInt32` of an integer: the residue modulo 2^32, read as
a signed 32-bit integer. -/
def toInt32 (n : Int) : Int :=
  if (n % 4294967296).toNat < 2147483648 then ((n % 4294967296).toNat : Int)
  else ((n % 4294967296).toNat : Int) - 4294967296

/-- The bitwise and of the lowest `k` bits of two naturals. -/
def bitAndNat : Nat → Nat → Nat → Nat
  | 0, _, _ => 0
  | k + 1, a, b => (a % 2) * (b % 2) + 2 * bitAndNat k (a / 2) (b / 2)

/-- The operator `a & b` on two integers: both are taken to 32 bits, and the
result is a signed 32-bit integer. -/
def jsBitAnd (a b : Int) : Int :=
  toInt32 (bitAndNat 32 (a % 4294967296).toNat (b % 4294967296).toNat)

/-- The number a raw field contributes to `&`: `ToNumber`, with NaN read as 0. -/
def RawNum.toInt : RawNum → Int
  | .num n => n
  | _ => 0

/-- The number a value contributes to `&`: `ToNumber`, with NaN read as 0. -/
def JSVal.toInt (v : JSVal) : Int := (v.toNumber).getD 0

/-- The loose comparison `v == n` with a number `n`. -/
def jsLooseEqNum (v : JSVal) (n : Int) : Bool :=
  match v with
  | .undefined => false
  | .null => false
  | _ => decide (v.toNumber = some n)

/-! ## `accessSync` and `existsSync` -/

/-- The error `accessSync` builds in its `catch` block (the `stack` is not
part of the model). -/
def accessError {σ : Type} (h : Host σ) (path : String) : JSError :=
  { message := "ENOENT: no such file or directory, access '" ++ path ++ "'"
    code := .str "ENOENT"
    path := .str path
    syscall := .str "access"
    errno := .num h.UV_ENOENT }

/-- The comparison `(a & mode) === mode`. -/
def bitsPresent (a mode : Int) : Bool := decide (jsBitAnd a mode = mode)

/-- The test `(stat.mode & mode) === mode` of `accessSync` on what `statSync`
returned; reading `mode` of `undefined` throws, and so does `&` on a BigInt
and a number. -/
def modeAllows (stat : StatResult) (mode : Int) : Except JSError Bool :=
  match stat with
  | .undefined => .error typeErrorReadUndefined
  | .stats st => .ok (bitsPresent st.mode.toInt mode)
  | .bigStats b =>
    match b.mode with
    | .big _ => .error typeErrorMixBigInt
    | .null => .ok (bitsPresent 0 mode)

/-- The `try` and `catch` blocks of `accessSync` on the outcome of `statSync`:
the call returns when the test holds; when it fails the `try` block throws
the `EACCES` error, and the `catch` block replaces whatever was thrown. -/
def accessCheck {σ : Type} (h : Host σ) (path : String) (mode : Int) :
    Except JSError StatResult → Except JSError Unit
  | .error _ => .error (accessError h path)
  | .ok stat =>
    match modeAllows stat mode with
    | .ok true => .ok ()
    | .ok false => .error (accessError h path)
    | .error _ => .error (accessError h path)

/-- The function `accessSync(path, mode)`; a caller that omits `mode` passes
`undefined` and gets `constants.F_OK`. -/
def accessSync {σ : Type} (h : Host σ) (path : String) (mode : JSVal) (s : σ) :
    Except JSError Unit × σ :=
  match h.getValidatedPath path with
  | .error e => (.error e, s)
  | .ok path =>
    match h.getValidMode (if mode = .undefined then .num h.F_OK else mode) with
    | .error e => (.error e, s)
    | .ok mode =>
      (accessCheck h path mode
          (statSync h.getValidatedPath h.statSync path [("throwIfNoEntry", .bool true)] s).1,
        (statSync h.getValidatedPath h.statSync path [("throwIfNoEntry", .bool true)] s).2)

/-- The function `existsSync(path)`. -/
def existsSync {σ : Type} (h : Host σ) (path : String) (s : σ) : Bool × σ :=
  match h.getValidatedPath path with
  | .error _ => (false, s)
  | .ok path =>
    match accessSync h path .undefined s with
    | (.ok _, s1) => (true, s1)
    | (.error _, s1) => (false, s1)

/-! ## `mkdirSync` -/

/-- The call `path.split("/")` on the characters of a path. -/
def splitSlashAux : List Char → List Char → List String
  | [], acc => [String.mk acc.reverse]
  | c :: cs, acc =>
    if c = '/' then String.mk acc.reverse :: splitSlashAux cs [] else splitSlashAux cs (c :: acc)

/-- The call `path.split("/")`. -/
def splitSlash (path : String) : List String := splitSlashAux path.data []

/-- The default option record of `mkdirSync`: `{ recursive: false, mode: 0o777 }`. -/
def mkdirDefaults : Obj := [("recursive", .bool false), ("mode", .num 511)]

/-- The loop of `mkdirSync` over `dirs`, from the current value of `dir`: the
final `dir`, the final `allExist` and the host state. -/
def mkdirProbe {σ : Type} (h : Host σ) : List String → String → σ → String × Bool × σ
  | [], dir, s => (dir, true, s)
  | d :: rest, dir, s =>
    match existsSync h (h.pathJoin dir d) s with
    | (true, s1) => mkdirProbe h rest (h.pathJoin dir d) s1
    | (false, s1) => (h.pathJoin dir d, false, s1)

/-- The error `mkdirSync` throws from its `catch` block for the caught `err`. -/
def mkdirError (path : String) (err : JSError) : JSError :=
  if err.code = .num 20 then
    { message := "EEXIST: file already exists, mkdir", code := .str "EEXIST",
      path := .str path, syscall := .str "mkdir" }
  else if jsLooseEqNum err.code 54 then
    { message := "ENOTDIR: not a directory, mkdir", code := .str "ENOTDIR",
      path := .str path, syscall := .str "mkdir" }
  else { message := err.message, code := err.code }

/-- The record `mkdirSync` starts from for each kind of `options` argument. -/
def mkdirOptions {σ : Type} (h : Host σ) : OptionsArg → Obj
  | .undefined => mkdirDefaults
  | .num n => [("mode", .num n)]
  | .str t => [("mode", h.parseInt t)]
  | .obj o => o

/-- The function `mkdirSync(path, options)`: the returned value is `undefined`
or the path `dir`. -/
def mkdirSync {σ : Type} (h : Host σ) (path : String) (options : OptionsArg) (s : σ) :
    Except JSError JSVal × σ :=
  match h.getValidatedPath path with
  | .error e => (.error e, s)
  | .ok path =>
    let options := applyDefaults (mkdirOptions h options) mkdirDefaults
    match h.validateBoolean (Obj.lookup options "recursive") with
    | .error e => (.error e, s)
    | .ok _ =>
      let probe := mkdirProbe h (splitSlash path) "" s
      match h.mkdirSync path (Obj.lookup options "recursive") (Obj.lookup options "mode")
          probe.2.2 with
      | (.ok _, s2) => (.ok (if probe.2.1 then .undefined else .str probe.1), s2)
      | (.error err, s2) => (.error (mkdirError path err), s2)

/-! ## `copyFileSync` -/

/-- The error `copyFileSync` throws when the destination exists. -/
def copyExistsError {σ : Type} (h : Host σ) (src dest : String) : JSError :=
  { message := "EEXIST: file already exists, copyfile '" ++ src ++ "' -> '" ++ dest ++ "'"
    code := .str "EEXIST"
    syscall := .str "copyfile"
    errno := .num h.UV_EEXIST }

/-- The call of `binding.copyFileSync` at the end of `copyFileSync`, with its
`catch` block. -/
def copyFileCall {σ : Type} (h : Host σ) (src dest : String) (s : σ) : Except JSError Unit × σ :=
  match h.copyFileSync src dest s with
  | (.ok _, s1) => (.ok (), s1)
  | (.error err, s1) => (.error (mkError err.message), s1)

/-- The function `copyFileSync(src, dest, mode)`; a caller that omits `mode`
passes 0. The condition `mode & constants.COPYFILE_EXCL === constants.COPYFILE_EXCL`
parses as `mode & (COPYFILE_EXCL === COPYFILE_EXCL)`, and the comparison, a
boolean, enters `&` as 1 or 0. -/
def copyFileSync {σ : Type} (h : Host σ) (src dest : String) (mode : Int) (s : σ) :
    Except JSError Unit × σ :=
  match h.getValidatedPath src with
  | .error e => (.error e, s)
  | .ok src =>
    match h.getValidatedPath dest with
    | .error e => (.error e, s)
    | .ok dest =>
      match h.validateIntegerIn (.num mode) 0 7 with
      | .error e => (.error e, s)
      | .ok _ =>
        if jsBitAnd mode (if h.COPYFILE_EXCL = h.COPYFILE_EXCL then 1 else 0) ≠ 0 then
          match existsSync h dest s with
          | (true, s1) => (.error (copyExistsError h src dest), s1)
          | (false, s1) => copyFileCall h src dest s1
        else copyFileCall h src dest s

/-! ## Descriptors: `openSync`, `closeSync` -/

/-- The function `openSync(path, flag, mode)`; a caller that omits `flag` or
`mode` passes `undefined` and gets `"r"` and `0o666`. -/
def openSync {σ : Type} (h : Host σ) (path : String) (flag mode : JSVal) (s : σ) :
      Except JSError Int × σ :=
  match h.getValidatedPath path with
  | .error e => (.error e, s)
  | .ok path =>
    match h.stringToFlags (if flag = .undefined then .str "r" else flag) with
    | .error e => (.error e, s)
    | .ok flag =>
      match h.validateIntegerIn (if mode = .null ∨ mode = .undefined then .num 438 else mode)
          0 511 with
      | .error err =>
        (.error (match mode with
          | .str _ => { err with code := .str "ERR_INVALID_ARG_VALUE" }
          | _ => err), s)
      | .ok _ =>
        match h.openSync path flag
            (if mode = .null ∨ mode = .undefined then .num 438 else mode) s with
        | (.ok fd, s1) => (.ok fd, s1)
        | (.error err, s1) => (.error { message := err.message, code := .str "ENOENT" }, s1)

/-- The function `closeSync(fd)`. -/
def closeSync {σ : Type} (h : Host σ) (fd : Int) (s : σ) : Except JSError Unit × σ :=
  match h.validateInteger (.num fd) with
  | .error e => (.error e, s)
  | .ok _ =>
    match h.fcloseSync fd s with
    | (.ok _, s1) => (.ok (), s1)
    | (.error err, s1) => (.error (mkError err.message), s1)

/-! ## `readSync`, `writeSync`, `readvSync`, `writevSync` -/

/-- The options object of `readSync` and `writeSync`:
`{ offset, length, position }`, each a number, `null` or absent. -/
structure RWOptions where
  offset : RawNum
  length : RawNum
  position : RawNum
  deriving DecidableEq, Repr

/-- The expression `x || y` for a number argument `x` and a number `y`. -/
def RawNum.orElse (x : RawNum) (y : Int) : Int :=
  match x with
  | .num n => if n = 0 then y else n
  | _ => y

/-- The arguments of `readSync` after `fd` and `buffer`, by call shape: an
options object, or `offset, length, position`. -/
inductive ReadArgs
  | options (o : RWOptions)
  | positional (offset length position : RawNum)
  deriving DecidableEq, Repr

/-- The values of `offset`, `length` and `position` that `readSync` has
computed when it reaches its validators. -/
def readSyncResolve (buffer : Buffer) : ReadArgs → Int × Int × Int
  | .options o =>
    (o.offset.orElse 0,
     if o.length.orElse ((buffer.byteLength : Int) - o.offset.orElse 0) = 0 then
       (buffer.byteLength : Int) - o.offset.orElse 0
     else o.length.orElse ((buffer.byteLength : Int) - o.offset.orElse 0),
     match o.position with
     | .num p => p
     | _ => -1)
  | .positional (.num n) length position =>
    (n, length.orElse ((buffer.byteLength : Int) - n),
     match position with
     | .num p => p
     | _ => -1)
  | .positional _ _ _ => (0, buffer.byteLength, -1)

/-- The error `readSync` throws from its `catch` block for the caught `err`. -/
def readError (err : JSError) : JSError :=
  { message := err.message
    code := if err.code = .str "INVAL" then .str "EOVERFLOW" else .undefined }

/-- The function `readSync(fd, buffer, ...)`: the byte count, the buffer after
the call, and the host state; `freadSync` receives `fd`, `position`, `length`. -/
def readSync {σ : Type} (h : Host σ) (fd : Int) (buffer : Buffer) (args : ReadArgs) (s : σ) :
    Except JSError Int × Buffer × σ :=
  match h.validateInteger (.num (readSyncResolve buffer args).1) with
  | .error e => (.error e, buffer, s)
  | .ok _ =>
    match h.validateInteger (.num (readSyncResolve buffer args).2.2) with
    | .error e => (.error e, buffer, s)
    | .ok _ =>
      match h.freadSync fd (readSyncResolve buffer args).2.2 (readSyncResolve buffer args).2.1 s with
      | (.error err, s1) => (.error (readError err), buffer, s1)
      | (.ok data, s1) =>
        match buffer.fill data (readSyncResolve buffer args).1
            ((readSyncResolve buffer args).1 + data.length) with
        | .ok filled => (.ok data.length, filled, s1)
        | .error err => (.error (readError err), buffer, s1)

/-- The arguments of `writeSync` after `fd`, by call shape: a string with
`position` and `encoding`; a buffer with an options object; a buffer with
`offset, length, position`. -/
inductive WriteArgs
  | string (text : String) (position : RawNum) (encoding : JSVal)
  | options (buffer : Buffer) (o : RWOptions)
  | positional (buffer : Buffer) (offset length position : RawNum)
  deriving DecidableEq, Repr

/-- The `TypeError` the engine raises when a property of `null` is read (the
message text is the engine's). -/
def typeErrorReadNull : JSError :=
  { name := "TypeError", message := "cannot read property of null" }

/-- The `ReferenceError` the engine raises for the name `callback`, which is
not declared in `writeSync` nor in the module (the message text is the engine's). -/
def referenceErrorCallback : JSError :=
  { name := "ReferenceError", message := "callback is not defined" }

/-- The expression `v || "utf8"` for the encoding argument. -/
def encodingOrUtf8 (v : JSVal) : JSVal :=
  if v = .undefined ∨ v = .null ∨ v = .bool false ∨ v = .num 0 ∨ v = .str "" then .str "utf8"
  else v

/-- The values of `buffer`, `offset`, `length` and `position` that `writeSync`
has computed when it reaches its validators. With a buffer and the number
`offset`, `length` and `position` are overwritten; with a buffer and `null`,
`typeof offset` is `"object"` and the read of `option.offset` throws. -/
def writeSyncResolve {σ : Type} (h : Host σ) : WriteArgs → Except JSError (Buffer × Int × Int × Int)
  | .string text position encoding =>
    .ok (h.bufferFrom text (encodingOrUtf8 encoding), 0,
      (h.bufferFrom text (encodingOrUtf8 encoding)).byteLength, position.orElse 0)
  | .options buffer o =>
    .ok (buffer, o.offset.orElse 0,
      o.length.orElse ((buffer.byteLength : Int) - o.offset.orElse 0), o.position.orElse 0)
  | .positional _ .null _ _ => .error typeErrorReadNull
  | .positional buffer (.num n) _ _ => .ok (buffer, n, (buffer.byteLength : Int) - n, 0)
  | .positional buffer .undefined length position =>
    .ok (buffer, 0, length.orElse (buffer.byteLength : Int), position.orElse 0)

/-- The function `writeSync(fd, ...)`: `fwriteSync` receives `fd`, `position`
and `buffer.buffer.slice(offset, offset + length)`. The `catch` block calls
`callback`, a name that is not declared. -/
def writeSync {σ : Type} (h : Host σ) (fd : Int) (args : WriteArgs) (s : σ) :
    Except JSError Int × σ :=
  match writeSyncResolve h args with
  | .error e => (.error e, s)
  | .ok (buffer, offset, length, position) =>
    match h.validateInteger (.num offset) with
    | .error e => (.error e, s)
    | .ok _ =>
      match h.validateInteger (.num position) with
      | .error e => (.error e, s)
      | .ok _ =>
        match h.validateInteger (.num length) with
        | .error e => (.error e, s)
        | .ok _ =>
          match h.fwriteSync fd position (sliceBytes buffer.buffer offset (offset + length)) s with
          | (.ok len, s1) => (.ok len, s1)
          | (.error _, s1) => (.error referenceErrorCallback, s1)

/-- The loop of `readvSync` that fills the buffers from `data`, from offset
`off` on. -/
def fillBuffers (data : List Nat) : List Buffer → Nat → Except JSError (List Buffer)
  | [], _ => .ok []
  | buf :: rest, off =>
    if buf.byteLength ≠ 0 then
      match buf.fill (sliceBytes data off (off + buf.byteLength)) 0 buf.byteLength with
      | .error e => .error e
      | .ok filled =>
        match fillBuffers data rest (off + buf.byteLength) with
        | .error e => .error e
        | .ok more => .ok (filled :: more)
    else
      match fillBuffers data rest off with
      | .error e => .error e
      | .ok more => .ok (buf :: more)

/-- The total `byteLength` of a list of buffers. -/
def totalLength (buffers : List Buffer) : Nat := (buffers.map (fun b => b.byteLength)).sum

/-- The function `readvSync(fd, buffer, position)`; a caller that omits
`position` passes `undefined` and gets 0. A `position` that is not a number
and that `validateInteger` lets through is read as 0. -/
def readvSync {σ : Type} (h : Host σ) (fd : Int) (buffers : List Buffer) (position : RawNum)
    (s : σ) : Except JSError Int × List Buffer × σ :=
  match h.validateInteger (.num fd) with
  | .error e => (.error e, buffers, s)
  | .ok _ =>
    match h.validateInteger (if position = .undefined then .num 0 else position) with
    | .error e => (.error e, buffers, s)
    | .ok _ =>
      match h.freadSync fd position.toInt (totalLength buffers) s with
      | (.error err, s1) => (.error err, buffers, s1)
      | (.ok data, s1) =>
        match fillBuffers data buffers 0 with
        | .error e => (.error e, buffers, s1)
        | .ok filled => (.ok data.length, filled, s1)

/-- A `Blob` object, as `new Blob([...buffer])` makes it from the buffers: its
parts. -/
structure Blob where
  parts : List Buffer
  deriving DecidableEq, Repr

/-- The value of `buf.arrayBuffer()` on a `Blob`: a promise, which is to
resolve with these bytes. It is not an `ArrayBuffer`. -/
structure PendingBytes where
  bytes : List Nat
  deriving DecidableEq, Repr

/-- What `writevSync` uses that is neither defined in `fs.js` nor imported by
it: the global `Blob`, given by what `new Blob([...buffer])` does (it throws
where no such global exists) and by what the method `arrayBuffer()` returns;
and `binding.fwriteSync` called with that promise in the place of an
`ArrayBuffer`. -/
structure BlobHost (σ : Type) where
  newBlob : List Buffer → Except JSError Blob
  arrayBuffer : Blob → Except JSError PendingBytes
  fwriteSyncPending : Int → Int → PendingBytes → Prim σ Int

/-- The function `writevSync(fd, buffer, position)`; a caller that omits
`position` passes `undefined` and gets 0. The statement
`let buf = new Blob([...buffer])` stands before the `try` block, and the third
argument of `binding.fwriteSync` is `buf.arrayBuffer()`, the promise, which is
evaluated inside the `try` block. The sum `length` of the byte lengths is
computed and not used. -/
def writevSync {σ : Type} (h : Host σ) (g : BlobHost σ) (fd : Int) (buffers : List Buffer)
    (position : RawNum) (s : σ) : Except JSError Int × σ :=
  match h.validateInteger (if position = .undefined then .num 0 else position) with
  | .error e => (.error e, s)
  | .ok _ =>
    match g.newBlob buffers with
    | .error e => (.error e, s)
    | .ok buf =>
      match g.arrayBuffer buf with
      | .error err => (.error (mkError err.message), s)
      | .ok pending =>
        match g.fwriteSyncPending fd position.toInt pending s with
        | (.ok len, s1) => (.ok len, s1)
        | (.error err, s1) => (.error (mkError err.message), s1)

/-! ## `readFileSync`, `writeFileSync`, `appendFileSync` -/

/-- The data a file call takes or returns: a string or a `Buffer`. -/
inductive FileData
  | text (t : String)
  | bytes (b : Buffer)
  deriving DecidableEq, Repr

/-- The `TypeError` of `validateObject` (`ERR_INVALID_ARG_TYPE`). -/
def invalidArgType : JSError :=
  { name := "TypeError", message := "The argument must be of type Object",
    code := .str "ERR_INVALID_ARG_TYPE" }

/-- The expression `encoding || ""` of `readFileSync`, where `encoding` is
the string `option` or `undefined`. -/
def readEncoding : OptionsArg → JSVal
  | .str e => .str e
  | _ => .str ""

/-- The record `option` of `readFileSync` before defaulting: `{}` for a
string, `option || {}` otherwise (a number has no property of its own). -/
def readOptionRecord : OptionsArg → Obj
  | .obj o => o
  | _ => []

/-- The default option record of `readFileSync`:
`{ encoding: encoding || "", flag: "r", signal: undefined }`. -/
def readFileDefaults (option : OptionsArg) : Obj :=
  [("encoding", readEncoding option), ("flag", .str "r"), ("signal", .undefined)]

/-- The default option record of `writeFileSync`:
`{ encoding: "utf8", mode: 0o666, flag: "w", signal: null }`. -/
def writeFileDefaults : Obj :=
  [("encoding", .str "utf8"), ("mode", .num 438), ("flag", .str "w"), ("signal", .null)]

/-- The default option record of `appendFileSync`:
`{ encoding: "utf8", mode: 0o666, flag: "a", signal: null }`. -/
def appendFileDefaults : Obj :=
  [("encoding", .str "utf8"), ("mode", .num 438), ("flag", .str "a"), ("signal", .null)]

/-- The read `stat.size` on what `fstatSync` returned. -/
def statSize : StatResult → Except JSError RawNum
  | .stats st => .ok st.size
  | .bigStats _ => .error typeErrorMixBigInt
  | .undefined => .error typeErrorReadUndefined

/-- The `catch` block around `openSync` in `readFileSync`: the error gets the
code `"EEXIST"` when its message is `"File exists."`. -/
def readOpenError (err : JSError) : JSError :=
  if err.message = "File exists." then { err with code := .str "EEXIST" } else err

/-- The value `readFileSync` returns from the buffer and the byte count. -/
def readFileResult {σ : Type} (h : Host σ) (encoding : JSVal) (buf : Buffer) (rlen : Int) :
    FileData :=
  if encoding ≠ .str "" then .text (h.bufferToString (buf.slice 0 rlen) encoding)
  else .bytes (buf.slice 0 rlen)

/-- The statements of `readFileSync` from `fstatSync(fd)` to `readSync(fd, buf)`:
the buffer and the byte count. -/
def readWhole {σ : Type} (h : Host σ) (fd : Int) (s : σ) : Except JSError (Buffer × Int) × σ :=
  match fstatSync (fun n => h.validateInteger (.num n)) h.fstatSync fd statDefaults s with
  | (.error e, s1) => (.error e, s1)
  | (.ok stat, s1) =>
    match statSize stat with
    | .error e => (.error e, s1)
    | .ok len =>
      match Buffer.alloc len with
      | .error e => (.error e, s1)
      | .ok buf =>
        match readSync h fd buf (.positional .undefined .undefined .undefined) s1 with
        | (.error e, _, s2) => (.error e, s2)
        | (.ok rlen, filled, s2) => (.ok (filled, rlen), s2)

/-- The function `readFileSync(path, option)`. -/
def readFileSync {σ : Type} (h : Host σ) (path : FileArg) (option : OptionsArg) (s : σ) :
    Except JSError FileData × σ :=
  let opts := applyDefaults (readOptionRecord option) (readFileDefaults option)
  match h.validateEncoding (Obj.lookup opts "encoding") with
  | .error e => (.error e, s)
  | .ok _ =>
    match path with
    | .fd fd =>
      match readWhole h fd s with
      | (.error e, s1) => (.error e, s1)
      | (.ok (buf, rlen), s1) => (.ok (readFileResult h (Obj.lookup opts "encoding") buf rlen), s1)
    | .path p =>
      match openSync h p (Obj.lookup opts "flag") .undefined s with
      | (.error err, s1) => (.error (readOpenError err), s1)
      | (.ok fd, s1) =>
        match readWhole h fd s1 with
        | (.error e, s2) => (.error e, s2)
        | (.ok (buf, rlen), s2) =>
          match closeSync h fd s2 with
          | (.error e, s3) => (.error e, s3)
          | (.ok _, s3) =>
            (.ok (readFileResult h (Obj.lookup opts "encoding") buf rlen), s3)

/-- The record `options` of `writeFileSync` before defaulting, after
`options = options || {}` and the validation of its type. -/
def writeOptionRecord {σ : Type} (h : Host σ) : OptionsArg → Except JSError Obj
  | .undefined => .ok []
  | .obj o => .ok o
  | .str e =>
    if e = "" then .ok []
    else
      match h.validateEncoding (.str e) with
      | .error err => .error err
      | .ok _ => .ok [("encoding", .str e)]
  | .num n => if n = 0 then .ok [] else .error invalidArgType

/-- The expression `typeof data === "string" ? Buffer.from(data, encoding) : data`. -/
def dataBuffer {σ : Type} (h : Host σ) (data : FileData) (encoding : JSVal) : Buffer :=
  match data with
  | .text t => h.bufferFrom t encoding
  | .bytes b => b

/-- The call `getValidatedPath(file)` on the first argument of `writeFileSync`. -/
def validateFileArg {σ : Type} (h : Host σ) : FileArg → Except JSError String
  | .path p => h.getValidatedPath p
  | .fd n => h.getValidatedPathOfNumber n

/-- The function `writeFileSync(file, data, options)`. -/
def writeFileSync {σ : Type} (h : Host σ) (file : FileArg) (data : FileData)
    (options : OptionsArg) (s : σ) : Except JSError Unit × σ :=
  match writeOptionRecord h options with
  | .error e => (.error e, s)
  | .ok record =>
    let opts := applyDefaults record writeFileDefaults
    match validateFileArg h file with
    | .error e => (.error e, s)
    | .ok file =>
      match openSync h file (Obj.lookup opts "flag") (Obj.lookup opts "mode") s with
      | (.error e, s1) => (.error e, s1)
      | (.ok fd, s1) =>
        match writeSync h fd
            (.positional (dataBuffer h data (Obj.lookup opts "encoding")) .undefined .undefined
              .undefined) s1 with
        | (.error e, s2) => (.error e, s2)
        | (.ok _, s2) => closeSync h fd s2

/-- The record `options` of `appendFileSync` before defaulting. -/
def appendOptionRecord : OptionsArg → Obj
  | .obj o => o
  | .str e => [("encoding", .str e)]
  | _ => []

/-- The function `appendFileSync(file, data, options)`. -/
def appendFileSync {σ : Type} (h : Host σ) (file : FileArg) (data : FileData)
    (options : OptionsArg) (s : σ) : Except JSError Unit × σ :=
  let opts := applyDefaults (appendOptionRecord options) appendFileDefaults
  match h.validateEncoding (Obj.lookup opts "encoding") with
  | .error e => (.error e, s)
  | .ok _ =>
    match file with
    | .fd fd =>
      match writeSync h fd
          (.positional (dataBuffer h data (Obj.lookup opts "encoding")) .undefined .undefined
            .undefined) s with
      | (.error e, s1) => (.error e, s1)
      | (.ok _, s1) => (.ok (), s1)
    | .path p =>
      match h.getValidatedPath p with
      | .error e => (.error e, s)
      | .ok valid =>
        match openSync h valid (Obj.lookup opts "flag") (Obj.lookup opts "mode") s with
        | (.error e, s1) => (.error e, s1)
        | (.ok fd, s1) =>
          match writeSync h fd
              (.positional (dataBuffer h data (Obj.lookup opts "encoding")) .undefined
                .undefined .undefined) s1 with
          | (.error e, s2) => (.error e, s2)
          | (.ok _, s2) => closeSync h fd s2

/-! ## The protocol between `Dir` and `binding.freaddirSync` -/

/-- One invocation of `binding.freaddirSync` as it is traced: the descriptor
and the cookie it received, and the page it returned (`none` when it raised). -/
abbrev DirCall := Int × Nat × Option Page

/-- A binding whose invocations are traced: every call of `freaddirSync` is
appended to a trace kept beside the host state. -/
def traced {σ : Type} (f : Int → Nat → Prim σ Page) :
    Int → Nat → Prim (σ × List DirCall) Page :=
  fun fd cookie st =>
    match f fd cookie st.1 with
    | (.ok p, s1) => (.ok p, (s1, st.2 ++ [(fd, cookie, some p)]))
    | (.error e, s1) => (.error e, (s1, st.2 ++ [(fd, cookie, none)]))

/-- The trace follows the cookie protocol for the descriptor `fd` from the
cookie `c` on: every invocation is for `fd`; the first one passes `c`; an
invocation that returned a page with `fin = false` is followed by invocations
that pass the cookie of that page; an invocation that raised is followed by
invocations that pass the same cookie again; and an invocation that returned
a page with `fin = true` is the last one. -/
def followsProtocol (fd : Int) : Nat → List DirCall → Prop
  | _, [] => True
  | c, (fd1, c1, none) :: rest => fd1 = fd ∧ c1 = c ∧ followsProtocol fd c rest
  | c, (fd1, c1, some p) :: rest =>
    fd1 = fd ∧ c1 = c ∧ (if p.fin = true then rest = [] else followsProtocol fd p.cookie rest)

/-- The cookie and the finished flag a cursor holds after the traced
invocations, when it held the cookie `c` and no finished flag before them. -/
def cursorAfter : Nat → List DirCall → Nat × Bool
  | c, [] => (c, false)
  | c, (_, _, none) :: rest => cursorAfter c rest
  | _, (_, _, some p) :: rest => if p.fin = true then (p.cookie, true) else cursorAfter p.cookie rest

/-- The cursor and the trace agree: the trace follows the protocol from
cookie 0, the cursor holds the cookie and the finished flag the trace leaves,
and a finished cursor has its read index inside its buffer. -/
def Dir.Consistent (d : Dir) (trace : List DirCall) : Prop :=
  followsProtocol d.fd 0 trace ∧ cursorAfter 0 trace = (d.cookie, d.fin) ∧
    (d.fin = true → d.idx ≤ d.dataBuf.length)

/-! ## An in-memory host -/

/-- The segments of a path after `.` and empty segments are dropped and `..`
is resolved against the segments before it; the second argument is the stack
of segments kept so far, innermost first. -/
def normalizeSegments : List String → List String → List String
  | [], kept => kept.reverse
  | seg :: rest, kept =>
    if seg = "" ∨ seg = "." then normalizeSegments rest kept
    else if seg = ".." then
      match kept with
      | [] => normalizeSegments rest [".."]
      | top :: more =>
        if top = ".." then normalizeSegments rest (".." :: kept)
        else normalizeSegments rest more
    else normalizeSegments rest (seg :: kept)

/-- Modelled from the spec: the function `normalize` of the module `path`
(not under `src/`), in its POSIX form and without trailing slashes: a relative
path with no segment left is `"."`. -/
def posixNormalize (p : String) : String :=
  if p.data.head? = some '/' then
    "/" ++ "/".intercalate ((normalizeSegments (splitSlash p) []).filter (fun x => x ≠ ".."))
  else if normalizeSegments (splitSlash p) [] = [] then "."
  else "/".intercalate (normalizeSegments (splitSlash p) [])

/-- Modelled from the spec: the function `join` of the module `path` (not
under `src/`), in its POSIX form for two arguments: the non-empty arguments
are joined with `/` and normalized, and the result for no non-empty argument
is `"."`. -/
def posixJoin (a b : String) : String :=
  if a = "" then (if b = "" then "." else posixNormalize b)
  else if b = "" then posixNormalize a
  else posixNormalize (a ++ "/" ++ b)

/-- A call of a primitive of the binding, as the in-memory host logs it. -/
inductive Call
  | stat (path : String)
  | fstat (fd : Int)
  | mkdir (path : String)
  | copyFile (src dest : String)
  | openFile (path : String) (flag : Int)
  | close (fd : Int)
  | read (fd : Int) (position length : Int)
  | write (fd : Int) (position : Int) (bytes : List Nat)
  deriving DecidableEq, Repr

/-- Modelled from the spec: the state behind the native binding `_node:fs`
(not under `src/`) as in-memory files: the regular files with their bytes, the
directories, the open descriptors with their path and position, the next
descriptor to hand out, and the log of the calls made. -/
structure MemFs where
  files : List (String × List Nat)
  dirs : List String
  opened : List (Int × String × Nat)
  nextFd : Int
  log : List Call
  deriving DecidableEq, Repr

/-- The bytes of the file at a path. -/
def fileAt : List (String × List Nat) → String → Option (List Nat)
  | [], _ => none
  | (p, bytes) :: rest, path => if p = path then some bytes else fileAt rest path

/-- The files after the file at a path got new bytes. -/
def putFile : List (String × List Nat) → String → List Nat → List (String × List Nat)
  | [], path, bytes => [(path, bytes)]
  | (p, old) :: rest, path, bytes =>
    if p = path then (p, bytes) :: rest else (p, old) :: putFile rest path bytes

/-- The path and position of an open descriptor. -/
def descriptorAt : List (Int × String × Nat) → Int → Option (String × Nat)
  | [], _ => none
  | (fd, p, pos) :: rest, want => if fd = want then some (p, pos) else descriptorAt rest want

/-- The open descriptors after one of them got a new position. -/
def seekDescriptor : List (Int × String × Nat) → Int → Nat → List (Int × String × Nat)
  | [], _, _ => []
  | (fd, p, pos) :: rest, want, newPos =>
    if fd = want then (fd, p, newPos) :: rest else (fd, p, pos) :: seekDescriptor rest want newPos

/-- The native error for a missing path. -/
def memNoEnt : JSError := { message := "No such file or directory", code := .str "NOENT" }

/-- The native error for an existing path (native code 20). -/
def memExists : JSError := { message := "File exists.", code := .num 20 }

/-- The native error for a descriptor that is not open. -/
def memBadFd : JSError := { message := "Bad file descriptor", code := .str "BADF" }

/-- The raw stat of a regular file of the given size. -/
def rawOfFile (size : Nat) : RawStat :=
  { dev := .num 1, ino := .num 1, mode := .num 33188, nlink := .num 1, uid := .num 0,
    gid := .num 0, rdev := .num 0, size := .num size, blksize := .num 4096, blocks := .num 8,
    atime := .num 0, mtime := .num 0, birthtime := .num 0,
    is_file := .bool true, is_directory := .bool false, is_symlink := .bool false,
    is_block_device := .bool false, is_char_device := .bool false, is_socket := .bool false }

/-- The raw stat of a directory. -/
def rawOfDir : RawStat :=
  { dev := .num 1, ino := .num 2, mode := .num 16877, nlink := .num 2, uid := .num 0,
    gid := .num 0, rdev := .num 0, size := .num 0, blksize := .num 4096, blocks := .num 0,
    atime := .num 0, mtime := .num 0, birthtime := .num 0,
    is_file := .bool false, is_directory := .bool true, is_symlink := .bool false,
    is_block_device := .bool false, is_char_device := .bool false, is_socket := .bool false }

/-- The raw stat of a path of the in-memory file system. -/
def memLookup (m : MemFs) (path : String) : Except JSError RawStat :=
  match fileAt m.files path with
  | some bytes => .ok (rawOfFile bytes.length)
  | none => if path ∈ m.dirs then .ok rawOfDir else .error memNoEnt

/-- The in-memory `binding.statSync`. -/
def memStat : String → Prim MemFs RawStat :=
  fun path m => (memLookup m path, { m with log := m.log ++ [.stat path] })

/-- The in-memory `binding.fstatSync`. -/
def memFstat : Int → Prim MemFs RawStat :=
  fun fd m =>
    (match descriptorAt m.opened fd with
      | some (path, _) => memLookup m path
      | none => .error memBadFd,
     { m with log := m.log ++ [.fstat fd] })

/-- The in-memory `binding.mkdirSync`: the directory is added unless the path
exists. -/
def memMkdir : String → JSVal → JSVal → Prim MemFs Unit :=
  fun path _ _ m =>
    match memLookup m path with
    | .ok _ => (.error memExists, { m with log := m.log ++ [.mkdir path] })
    | .error _ => (.ok (), { m with dirs := m.dirs ++ [path], log := m.log ++ [.mkdir path] })

/-- The in-memory `binding.copyFileSync`. -/
def memCopyFile : String → String → Prim MemFs Unit :=
  fun src dest m =>
    match fileAt m.files src with
    | some bytes =>
      (.ok (), { m with files := putFile m.files dest bytes,
                        log := m.log ++ [.copyFile src dest] })
    | none => (.error memNoEnt, { m with log := m.log ++ [.copyFile src dest] })

/-- The in-memory `binding.openSync`; flag 0 opens an existing file at
position 0, flag 1 creates or truncates the file, flag 2 creates the file if
needed and opens it at its end. -/
def memOpen : String → Int → JSVal → Prim MemFs Int :=
  fun path flag _ m =>
    if flag = 0 then
      match fileAt m.files path with
      | some _ =>
        (.ok m.nextFd, { m with opened := m.opened ++ [(m.nextFd, path, 0)],
                                nextFd := m.nextFd + 1, log := m.log ++ [.openFile path flag] })
      | none => (.error memNoEnt, { m with log := m.log ++ [.openFile path flag] })
    else if flag = 1 then
      (.ok m.nextFd, { m with files := putFile m.files path [],
                              opened := m.opened ++ [(m.nextFd, path, 0)],
                              nextFd := m.nextFd + 1, log := m.log ++ [.openFile path flag] })
    else
      (.ok m.nextFd,
        { m with files := putFile m.files path ((fileAt m.files path).getD []),
                 opened := m.opened ++ [(m.nextFd, path, ((fileAt m.files path).getD []).length)],
                 nextFd := m.nextFd + 1, log := m.log ++ [.openFile path flag] })

/-- The in-memory `binding.fcloseSync`. -/
def memClose : Int → Prim MemFs Unit :=
  fun fd m =>
    match descriptorAt m.opened fd with
    | some _ =>
      (.ok (), { m with opened := m.opened.filter (fun d => d.1 ≠ fd),
                        log := m.log ++ [.close fd] })
    | none => (.error memBadFd, { m with log := m.log ++ [.close fd] })

/-- The in-memory `binding.freadSync`: a negative position reads at the
position of the descriptor and advances it. -/
def memRead : Int → Int → Int → Prim MemFs (List Nat) :=
  fun fd position length m =>
    match descriptorAt m.opened fd with
    | none => (.error memBadFd, { m with log := m.log ++ [.read fd position length] })
    | some (path, pos) =>
      let start := if position < 0 then pos else position.toNat
      let data := (((fileAt m.files path).getD []).drop start).take length.toNat
      (.ok data,
        { m with opened := if position < 0 then seekDescriptor m.opened fd (pos + data.length)
                           else m.opened,
                 log := m.log ++ [.read fd position length] })

/-- The in-memory `binding.fwriteSync`: the bytes replace those of the file
from the position on (a negative position is that of the descriptor). -/
def memWrite : Int → Int → List Nat → Prim MemFs Int :=
  fun fd position bytes m =>
    match descriptorAt m.opened fd with
    | none => (.error memBadFd, { m with log := m.log ++ [.write fd position bytes] })
    | some (path, pos) =>
      let start := if position < 0 then pos else position.toNat
      let old := (fileAt m.files path).getD []
      (.ok bytes.length,
        { m with files := putFile m.files path
                   (old.take start ++ List.replicate (start - old.length) 0 ++ bytes ++
                     old.drop (start + bytes.length)),
                 opened := if position < 0 then seekDescriptor m.opened fd (pos + bytes.length)
                           else m.opened,
                 log := m.log ++ [.write fd position bytes] })

/-- The `TypeError` of the validators (`ERR_INVALID_ARG_TYPE`). -/
def memInvalidArg : JSError :=
  { name := "TypeError", message := "invalid argument", code := .str "ERR_INVALID_ARG_TYPE" }

/-- The `RangeError` of the validators (`ERR_OUT_OF_RANGE`). -/
def memOutOfRange : JSError :=
  { name := "RangeError", message := "out of range", code := .str "ERR_OUT_OF_RANGE" }

/-- Modelled from the spec: the collaborators of `fs.js` over the in-memory
file system. The validators accept what their names say (a path is any
string and never a number, an access mode is an integer in `0 .. 7`, an
integer is a number), `stringToFlags` knows `"r"`, `"w"` and `"a"`, strings
are encoded one byte per character, and the constants have the values of
Node.js. -/
def memHost : Host MemFs :=
  { getValidatedPath := fun p => .ok p
    getValidatedPathOfNumber := fun _ => .error memInvalidArg
    getValidMode := fun v =>
      match v with
      | .num n => if 0 ≤ n ∧ n ≤ 7 then .ok n else .error memOutOfRange
      | _ => .error memInvalidArg
    validateBoolean := fun v =>
      match v with
      | .bool _ => .ok ()
      | _ => .error memInvalidArg
    validateInteger := fun v =>
      match v with
      | .num _ => .ok ()
      | _ => .error memInvalidArg
    validateIntegerIn := fun v lo hi =>
      match v with
      | .num n => if lo ≤ n ∧ n ≤ hi then .ok () else .error memOutOfRange
      | _ => .error memInvalidArg
    validateEncoding := fun _ => .ok ()
    stringToFlags := fun v =>
      if v = .str "r" then .ok 0
      else if v = .str "w" then .ok 1
      else if v = .str "a" then .ok 2
      else .error memInvalidArg
    pathJoin := posixJoin
    parseInt := fun t =>
      match t.toInt? with
      | some n => .num n
      | none => .undefined
    bufferFrom := fun t _ => Buffer.ofBytes (t.data.map Char.toNat)
    bufferToString := fun b _ => String.mk (b.bytes.map Char.ofNat)
    F_OK := 0
    COPYFILE_EXCL := 1
    UV_ENOENT := -2
    UV_EEXIST := -17
    statSync := memStat
    fstatSync := memFstat
    mkdirSync := memMkdir
    copyFileSync := memCopyFile
    openSync := memOpen
    fcloseSync := memClose
    freadSync := memRead
    fwriteSync := memWrite }

/-- An in-memory file system that holds the current directory `"."`, the
directory `"tmp"` and the file `"README.md"` with three bytes. -/
def memStart : MemFs :=
  { files := [("README.md", [104, 105, 10])], dirs := [".", "tmp"], opened := [], nextFd := 3,
    log := [] }

/-- The in-memory file system of `memStart` in which the relative
directories `"a"` and `"a/b"` exist. -/
def memWithRelative : MemFs := { memStart with dirs := [".", "tmp", "a", "a/b"] }

/-- The in-memory file system of `memStart` with the descriptor 3 open on
`"README.md"` at position 0. -/
def memOpened : MemFs := { memStart with opened := [(3, "README.md", 0)], nextFd := 4 }

/-- A native input/output error. -/
def memIoError : JSError := { message := "I/O error", code := .str "IO" }

/-- The in-memory host with a `binding.fstatSync` that fails on every call. -/
def hostFailingFstat : Host MemFs :=
  { memHost with
    fstatSync := fun fd m => (.error memIoError, { m with log := m.log ++ [.fstat fd] }) }

/-- The in-memory host with a `binding.freadSync` that fails on every call. -/
def hostFailingRead : Host MemFs :=
  { memHost with
    freadSync := fun fd position length m =>
      (.error memIoError, { m with log := m.log ++ [.read fd position length] }) }

/-- The in-memory host with a `binding.fwriteSync` that fails on every call. -/
def hostFailingWrite : Host MemFs :=
  { memHost with
    fwriteSync := fun fd position bytes m =>
      (.error memIoError, { m with log := m.log ++ [.write fd position bytes] }) }

/-- A `Buffer` that shows the bytes `[1, 2]` at offset 1 of the backing store
`[9, 1, 2]`. -/
def viewAtOne : Buffer := { buffer := [9, 1, 2], byteOffset := 1, byteLength := 2 }

/-! ## The type predicates of `Dirent` -/

/-- The constant `FILETYPE_UNKNOWN`. -/
def FILETYPE_UNKNOWN : Nat := 0
/-- The constant `FILETYPE_BLOCK_DEVICE`. -/
def FILETYPE_BLOCK_DEVICE : Nat := 1
/-- The constant `FILETYPE_CHARACTER_DEVICE`. -/
def FILETYPE_CHARACTER_DEVICE : Nat := 2
/-- The constant `FILETYPE_DIRECTORY`. -/
def FILETYPE_DIRECTORY : Nat := 3
/-- The constant `FILETYPE_REGULAR_FILE`. -/
def FILETYPE_REGULAR_FILE : Nat := 4
/-- The constant `FILETYPE_SOCKET_DGRAM`. -/
def FILETYPE_SOCKET_DGRAM : Nat := 5
/-- The constant `FILETYPE_SOCKET_STREAM`. -/
def FILETYPE_SOCKET_STREAM : Nat := 6
/-- The constant `FILETYPE_SYMBOLIC_LINK`. -/
def FILETYPE_SYMBOLIC_LINK : Nat := 7

def Dirent.isFile (d : Dirent) : Bool := d.filetype == FILETYPE_REGULAR_FILE
def Dirent.isDirectory (d : Dirent) : Bool := d.filetype == FILETYPE_DIRECTORY
def Dirent.isSymbolicLink (d : Dirent) : Bool := d.filetype == FILETYPE_SYMBOLIC_LINK
def Dirent.isBlockDevice (d : Dirent) : Bool := d.filetype == FILETYPE_BLOCK_DEVICE
def Dirent.isFIFO (_d : Dirent) : Bool := false
def Dirent.isCharacterDevice (d : Dirent) : Bool := d.filetype == FILETYPE_CHARACTER_DEVICE
def Dirent.isSocket (d : Dirent) : Bool :=
  d.filetype == FILETYPE_SOCKET_DGRAM || d.filetype == FILETYPE_SOCKET_STREAM

/-- The answers of the six predicates `isFile`, `isDirectory`,
`isSymbolicLink`, `isBlockDevice`, `isCharacterDevice`, `isSocket` of an entry. -/
def Dirent.kinds (d : Dirent) : List Bool :=
  [d.isFile, d.isDirectory, d.isSymbolicLink, d.isBlockDevice, d.isCharacterDevice, d.isSocket]

/-! ## Callbacks, scheduled work and promises -/

/-- The truth value of a value in a condition (`!v`, `v || w`, `while (v)`). -/
def JSVal.truthy : JSVal → Bool
  | .undefined => false
  | .null => false
  | .bool b => b
  | .num n => n != 0
  | .str s => s != ""

/-- The arguments a completion callback is invoked with: `callback(null, v)`
(`callback(null)` delivers the value `undefined`) or `callback(err)`. -/
inductive CallbackArgs (α : Type)
  | value (v : α)
  | error (e : JSError)
  deriving DecidableEq, Repr

/-- The function handed to `setTimeout` by a callback-style entry point: it
runs on the host state of the later turn and invokes the callback once, with
the given arguments. -/
abbrev Scheduled (σ : Type) (α : Type) := σ → CallbackArgs α × σ

/-- The body `try { let res = f(); callback(null, res); } catch (err) { callback(err); }`
of a scheduled function, for a callback that returns normally. -/
def deliver {σ α : Type} (r : Except JSError α × σ) : CallbackArgs α × σ :=
  match r with
  | (.ok v, s) => (.value v, s)
  | (.error e, s) => (.error e, s)

/-- How a promise settles: `resolve(v)`, or `reject(reason)` where the reason
is an error object or (`none`) the value `null`. -/
inductive Settled (α : Type)
  | resolved (v : α)
  | rejected (reason : Option JSError)
  deriving DecidableEq, Repr

/-- The collaborators of `fs.js` of `Host`, with `path.normalize` and the
further primitives of the native binding `_node:fs` that the functions below
call; `fread` is the asynchronous read of the binding, given by how its
promise settles. -/
structure FsHost (σ : Type) extends Host σ where
  normalize : String → String
  lstatSync : String → Prim σ RawStat
  realpathSync : String → Prim σ String
  readlinkSync : String → Prim σ String
  renameSync : String → String → Prim σ Unit
  symlinkSync : String → String → Prim σ Unit
  rmSync : String → JSVal → JSVal → Prim σ Unit
  freaddirSync : Int → Nat → Prim σ Page
  fread : Int → Int → Int → Prim σ (List Nat)

/-! ## The callback-style calls `stat`, `lstat`, `fstat` -/

/-- The `options` argument of a callback-style call: the callback itself (the
caller gave no options), `undefined`, or a record. -/
inductive OptionsOrCallback
  | callback
  | undefined
  | obj (o : Obj)
  deriving DecidableEq, Repr

/-- The option record of the synchronous call with the same arguments, that
is, the argument list without the callback: the default record of the stat
calls when no options are given. -/
def OptionsOrCallback.statRecord : OptionsOrCallback → Obj
  | .callback => statDefaults
  | .undefined => statDefaults
  | .obj o => o

/-- The function `stat(path, options, callback)`: with the callback in the
place of `options`, `options` becomes `{}`; the path is validated at call
time; the scheduled function calls `statSync(path, options)`, where
`undefined` gives the default parameter. -/
def stat {σ : Type} (h : Host σ) (path : String) (options : OptionsOrCallback) :
    Except JSError (Scheduled σ StatResult) :=
  match h.getValidatedPath path with
  | .error e => .error e
  | .ok path =>
    .ok (fun s => deliver (statSync h.getValidatedPath h.statSync path
      (match options with
        | .callback => []
        | .undefined => statDefaults
        | .obj o => o) s))

/-- The function `lstat(path, options, callback)`: with the callback in the
place of `options`, `options` stays the callback, a function, whose
properties `bigint` and `throwIfNoEntry` read as `undefined`, as those of `{}`. -/
def lstat {σ : Type} (h : FsHost σ) (path : String) (options : OptionsOrCallback) :
    Except JSError (Scheduled σ StatResult) :=
  match h.getValidatedPath path with
  | .error e => .error e
  | .ok path =>
    .ok (fun s => deliver (lstatSync h.getValidatedPath h.lstatSync path
      (match options with
        | .callback => []
        | .undefined => statDefaults
        | .obj o => o) s))

/-- The function `fstat(fd, options, callback)`: nothing is validated at call
time; the scheduled function is
`try { fstatSync(fd, options); callback(null); } catch (err) { callback(err); }`. -/
def fstat {σ : Type} (h : Host σ) (fd : Int) (options : OptionsOrCallback) :
    Except JSError (Scheduled σ StatResult) :=
  .ok (fun s =>
    match fstatSync (fun n => h.validateInteger (.num n)) h.fstatSync fd
      (match options with
        | .callback => []
        | .undefined => statDefaults
        | .obj o => o) s with
    | (.ok _, s1) => (.value .undefined, s1)
    | (.error err, s1) => (.error err, s1))

/-! ## The callback-style calls `rename`, `symlink`, `rm` -/

/-- The function `renameSync(oldPath, newPath)`. -/
def renameSync {σ : Type} (h : FsHost σ) (oldPath newPath : String) (s : σ) :
    Except JSError Unit × σ :=
  match h.getValidatedPath oldPath with
  | .error e => (.error e, s)
  | .ok oldPath =>
    match h.getValidatedPath newPath with
    | .error e => (.error e, s)
    | .ok newPath =>
      match h.renameSync oldPath newPath s with
      | (.ok _, s1) => (.ok (), s1)
      | (.error err, s1) => (.error (mkError err.message), s1)

/-- The function `rename(oldPath, newPath, callback)`: the scheduled function
is `try { renameSync(oldPath, newPath); callback(null); } catch (err) { callback(err); }`. -/
def rename {σ : Type} (h : FsHost σ) (oldPath newPath : String) :
    Except JSError (Scheduled σ Unit) :=
  .ok (fun s => deliver (renameSync h oldPath newPath s))

/-- The function `symlinkSync(target, path)`. -/
def symlinkSync {σ : Type} (h : FsHost σ) (target path : String) (s : σ) :
    Except JSError Unit × σ :=
  match h.getValidatedPath target with
  | .error e => (.error e, s)
  | .ok target =>
    match h.getValidatedPath path with
    | .error e => (.error e, s)
    | .ok path =>
      match h.symlinkSync target path s with
      | (.ok _, s1) => (.ok (), s1)
      | (.error err, s1) => (.error (mkError err.message), s1)

/-- The function `symlink(target, path, callback)`. -/
def symlink {σ : Type} (h : FsHost σ) (target path : String) :
    Except JSError (Scheduled σ Unit) :=
  .ok (fun s => deliver (symlinkSync h target path s))

/-- The function `rm(path, options, callback)`: with the callback in the place
of `options`, `options` becomes `{}`; the scheduled function calls
`rmSync(path, options)`, where `undefined` gives the default parameter. -/
def rm {σ : Type} (h : FsHost σ) (path : String) (options : OptionsOrCallback) :
    Except JSError (Scheduled σ Unit) :=
  .ok (fun s => deliver (rmSync h.getValidatedPath h.rmSync path
    (match options with
      | .callback => []
      | .undefined => rmDefaults
      | .obj o => o) s))

/-! ## `open` and `promises.open` -/

/-- The function `open(path, flag, mode, callback)` of `fs.js` called with
four arguments (`open` is a reserved word here); a caller that passes
`undefined` for `flag` or `mode` gets `"r"` and `0o666`. -/
def fsOpen {σ : Type} (h : Host σ) (path : String) (flag mode : JSVal) :
    Except JSError (Scheduled σ Int) :=
  match h.getValidatedPath path with
  | .error e => .error e
  | .ok path =>
    match h.validateIntegerIn (if mode = .null ∨ mode = .undefined then .num 438 else mode)
        0 511 with
    | .error err =>
      .error (match mode with
        | .str _ => { err with code := .str "ERR_INVALID_ARG_VALUE" }
        | _ => err)
    | .ok _ =>
      .ok (fun s => deliver (openSync h path (if flag = .undefined then .str "r" else flag)
        (if mode = .null ∨ mode = .undefined then .num 438 else mode) s))

/-- The class `FileHandle`: the fields `#fd` and `#path` its constructor sets
from its two arguments. -/
structure FileHandle where
  fd : RawNum
  path : String
  deriving DecidableEq, Repr

/-- The function `open(path, flag, mode)` of `fs/promises.js`: the promise
executor calls `fs.open` (an exception of which rejects the promise) with the
callback `(err, fd) => { if (!err) { return rej(err); } res(new fs.FileHandle(fd, path)); }`,
which runs when the scheduled function of `fs.open` runs. After
`callback(null, fd)` the test `!err` holds and the promise is rejected with
`err`, which is `null`; after `callback(err)` the parameter `fd` is
`undefined`. -/
def promisesOpen {σ : Type} (h : Host σ) (path : String) (flag mode : JSVal) (s : σ) :
    Settled FileHandle × σ :=
  match fsOpen h path flag mode with
  | .error e => (.rejected (some e), s)
  | .ok scheduled =>
    match scheduled s with
    | (.value _, s1) => (.rejected none, s1)
    | (.error _, s1) => (.resolved { fd := .undefined, path := path }, s1)

/-! ## `realpathSync` and `readlinkSync` -/

/-- The call `stat.isSymbolicLink()` on what `lstatSync` returned. -/
def StatResult.isSymbolicLink : StatResult → JSVal
  | .stats st => st.isSymbolicLink
  | .bigStats b => b.isSymbolicLink
  | .undefined => .undefined

/-- The record `options` of `realpathSync` before defaulting: the default
parameter `{ encoding: "utf8" }` for `undefined`, `{ encoding: options }` for a
string (a number has no property of its own). -/
def realpathOptionRecord : OptionsArg → Obj
  | .undefined => [("encoding", .str "utf8")]
  | .str e => [("encoding", .str e)]
  | .obj o => o
  | .num _ => []

/-- The value `options.encoding` that `realpathSync` validates and tests. -/
def realpathEncoding (options : OptionsArg) : JSVal :=
  Obj.lookup (applyDefaults (realpathOptionRecord options) [("encoding", .str "utf8")]) "encoding"

/-- The test `options.encoding === "buffer" || options.encoding === "Buffer"`. -/
def useBuffer (encoding : JSVal) : Bool :=
  encoding == .str "buffer" || encoding == .str "Buffer"

/-- The value `realpathSync` returns for the normalized path `res`: `res`, or
`Buffer.from(res, "utf8")` when a buffer is asked for. -/
def realpathResult {σ : Type} (h : FsHost σ) (encoding : JSVal) (res : String) : FileData :=
  if useBuffer encoding then .bytes (h.bufferFrom res (.str "utf8")) else .text res

/-- The function `realpathSync(path, options)`. -/
def realpathSync {σ : Type} (h : FsHost σ) (path : String) (options : OptionsArg) (s : σ) :
    Except JSError FileData × σ :=
  match h.getValidatedPath path with
  | .error e => (.error e, s)
  | .ok path =>
    match h.validateEncoding (realpathEncoding options) with
    | .error e => (.error e, s)
    | .ok _ =>
      match lstatSync h.getValidatedPath h.lstatSync path [("throwIfNoEntry", .bool false)] s with
      | (.error e, s1) => (.error e, s1)
      | (.ok stat, s1) =>
        if stat ≠ .undefined ∧ stat.isSymbolicLink.truthy = false then
          (.ok (realpathResult h (realpathEncoding options) (h.normalize path)), s1)
        else
          match h.realpathSync path s1 with
          | (.ok res, s2) =>
            (.ok (realpathResult h (realpathEncoding options) (h.normalize res)), s2)
          | (.error err, s2) => (.error (mkError err.message), s2)

/-- The record `option` of `readlinkSync` before defaulting:
`{ encoding: option }` for a string, `option || {}` otherwise. -/
def readlinkOptionRecord : OptionsArg → Obj
  | .str e => [("encoding", .str e)]
  | .obj o => o
  | _ => []

/-- The function `readlinkSync(path, option)`. Its `catch` block builds the
error `err` from the caught one and then calls `callback(err)`, a name that is
not declared in `readlinkSync` nor in the module. The call `print(path)`
writes to the console, which is not part of the host state. -/
def readlinkSync {σ : Type} (h : FsHost σ) (path : String) (option : OptionsArg) (s : σ) :
    Except JSError FileData × σ :=
  match h.getValidatedPath path with
  | .error e => (.error e, s)
  | .ok path =>
    match h.validateEncoding
        (Obj.lookup (applyDefaults (readlinkOptionRecord option) [("encoding", .str "utf8")])
          "encoding") with
    | .error e => (.error e, s)
    | .ok _ =>
      match h.readlinkSync path s with
      | (.ok res, s1) =>
        (.ok (if useBuffer
            (Obj.lookup (applyDefaults (readlinkOptionRecord option) [("encoding", .str "utf8")])
              "encoding")
          then .bytes (h.bufferFrom res .undefined) else .text res), s1)
      | (.error _, s1) => (.error referenceErrorCallback, s1)

/-! ## `Dir.read`, `opendirSync`, `readdirSync` -/

/-- The method `Dir.read(callback)` with a callback: the invocations of the
callback in order, for a callback that returns normally. After
`callback(null, null)` the `try` block goes on with
`callback(null, new Dirent(this.#dataBuf[this.#idx++]))`. -/
def Dir.read {σ : Type} (freaddirSync : Int → Nat → Prim σ Page) (d : Dir) (s : σ) :
    List (CallbackArgs (Option Dirent)) × Dir × σ :=
  match Dir.fetch freaddirSync d s with
  | (.error e, d1, s1) => ([.error e], d1, s1)
  | (.ok more, d1, s1) =>
    match d1.dataBuf.get? d1.idx with
    | some innerData =>
      ((if more then [] else [.value none]) ++ [.value (some (Dirent.new innerData))],
        { d1 with idx := d1.idx + 1 }, s1)
    | none =>
      ((if more then [] else [.value none]) ++ [.error typeErrorReadUndefined],
        { d1 with idx := d1.idx + 1 }, s1)

/-- The method `Dir.read()` without a callback: how the promise settles. -/
def Dir.readPromise {σ : Type} (freaddirSync : Int → Nat → Prim σ Page) (d : Dir) (s : σ) :
    Settled (Option Dirent) × Dir × σ :=
  match Dir.fetch freaddirSync d s with
  | (.error e, d1, s1) => (.rejected (some e), d1, s1)
  | (.ok false, d1, s1) => (.resolved none, d1, s1)
  | (.ok true, d1, s1) =>
    match d1.dataBuf.get? d1.idx with
    | some innerData =>
      (.resolved (some (Dirent.new innerData)), { d1 with idx := d1.idx + 1 }, s1)
    | none => (.rejected (some typeErrorReadUndefined), { d1 with idx := d1.idx + 1 }, s1)

/-- The function `opendirSync(path, options)`. -/
def opendirSync {σ : Type} (h : FsHost σ) (path : String) (s : σ) : Except JSError Dir × σ :=
  match h.getValidatedPath path with
  | .error e => (.error e, s)
  | .ok path =>
    match openSync h.toHost path .undefined .undefined s with
    | (.error e, s1) => (.error e, s1)
    | (.ok fd, s1) => (.ok (Dir.new fd path), s1)

/-- The record `options` of `readdirSync` before defaulting:
`{ encoding: options }` for a string; with no options, `applyDefaultValue`
reads a property of `undefined`, which throws. -/
def readdirOptionRecord : OptionsArg → Except JSError Obj
  | .undefined => .error typeErrorReadUndefined
  | .str e => .ok [("encoding", .str e)]
  | .obj o => .ok o
  | .num _ => .ok []

/-- An element of the array `readdirSync` returns: a name, or a `Dirent` with
`withFileTypes`. -/
inductive DirItem
  | name (n : String)
  | entry (d : Dirent)
  deriving DecidableEq, Repr

/-- The loop `while (p) { data.push(...); p = dir.readSync(); }` of
`readdirSync`, entered after a call of `readSync` returned `p`. The first
argument bounds the number of calls of `readSync`; `none` is returned when the
bound is reached with the loop still running. -/
def readdirLoop {σ : Type} (freaddirSync : Int → Nat → Prim σ Page) (withFileTypes : Bool) :
    Nat → Dir → σ → List DirItem → Option (Except JSError (List DirItem) × σ)
  | 0, _, _, _ => none
  | fuel + 1, d, s, data =>
    match Dir.readSync freaddirSync d s with
    | (.error e, _, s1) => some (.error e, s1)
    | (.ok none, _, s1) => some (.ok data, s1)
    | (.ok (some p), d1, s1) =>
      readdirLoop freaddirSync withFileTypes fuel d1 s1
        (data ++ [if withFileTypes then .entry p else .name p.name])

/-- The function `readdirSync(path, options)`; `fuel` bounds the number of
calls of `readSync`. -/
def readdirSync {σ : Type} (h : FsHost σ) (path : String) (options : OptionsArg) (fuel : Nat)
    (s : σ) : Option (Except JSError (List DirItem) × σ) :=
  match h.getValidatedPath path with
  | .error e => some (.error e, s)
  | .ok path =>
    match readdirOptionRecord options with
    | .error e => some (.error e, s)
    | .ok record =>
      match h.validateEncoding (Obj.lookup
          (applyDefaults record [("encoding", .str "utf8"), ("withFileTypes", .bool false)])
          "encoding") with
      | .error e => some (.error e, s)
      | .ok _ =>
        match opendirSync h path s with
        | (.error e, s1) => some (.error e, s1)
        | (.ok dir, s1) =>
          readdirLoop h.freaddirSync
            (Obj.lookup
              (applyDefaults record [("encoding", .str "utf8"), ("withFileTypes", .bool false)])
              "withFileTypes").truthy fuel dir s1 []

/-! ## The callback-style calls `read` and `readFile` -/

/-- The arguments of `read` after `fd`, by call shape: `read(fd, callback)`,
`read(fd, options, callback)`, `read(fd, buffer, options, callback)`,
`read(fd, buffer, callback)` and
`read(fd, buffer, offset, length, position, callback)`. -/
inductive ReadCallArgs
  | callbackOnly
  | optionsOnly (o : RWOptions)
  | bufferOptions (buffer : Buffer) (o : RWOptions)
  | bufferOnly (buffer : Buffer)
  | positional (buffer : Buffer) (offset length position : RawNum)
  deriving DecidableEq, Repr

/-- The values of `buffer`, `offset`, `length` and `position` that `read` has
computed when it reaches its validators, after `position = position || -1`.
With a buffer and `null` for `offset`, `typeof offset` is `"object"` and the
read of `option.offset` throws. `Buffer.alloc(16384)` is a buffer of 16384
zero bytes. -/
def readResolve : ReadCallArgs → Except JSError (Buffer × RawNum × RawNum × Int)
  | .callbackOnly => .ok (Buffer.ofBytes (List.replicate 16384 0), .num 0, .num 16384, -1)
  | .optionsOnly o =>
    .ok (Buffer.ofBytes (List.replicate 16384 0), .num (o.offset.orElse 0),
      .num (o.length.orElse (16384 - o.offset.orElse 0)), o.position.orElse (-1))
  | .bufferOptions buffer o =>
    .ok (buffer, .num (o.offset.orElse 0),
      .num (o.length.orElse ((buffer.byteLength : Int) - o.offset.orElse 0)),
      o.position.orElse (-1))
  | .bufferOnly buffer => .ok (buffer, .num 0, .num buffer.byteLength, -1)
  | .positional _ .null _ _ => .error typeErrorReadNull
  | .positional buffer offset length position =>
    .ok (buffer, offset, length, position.orElse (-1))

/-- The call `stat.isFile()` on what `fstatSync` returned. -/
def StatResult.isFile : StatResult → Except JSError JSVal
  | .stats st => .ok st.isFile
  | .bigStats b => .ok b.isFile
  | .undefined => .error typeErrorReadUndefined

/-- The function `fread(fd, position, length)`: `fstatSync(fd)` runs and can
throw at call time; for a regular file the promise settles as
`binding.freadSync` returns or throws, otherwise it is that of `binding.fread`. -/
def fread {σ : Type} (h : FsHost σ) (fd : Int) (position length : Int) (s : σ) :
    Except JSError (Except JSError (List Nat)) × σ :=
  match fstatSync (fun n => h.validateInteger (.num n)) h.fstatSync fd statDefaults s with
  | (.error e, s1) => (.error e, s1)
  | (.ok stat, s1) =>
    match stat.isFile with
    | .error e => (.error e, s1)
    | .ok isFile =>
      if isFile.truthy then
        match h.freadSync fd position length s1 with
        | (r, s2) => (.ok r, s2)
      else
        match h.fread fd position length s1 with
        | (r, s2) => (.ok r, s2)

/-- The function `read(fd, buffer, offset, length, position, callback)`: an
exception at call time, or the arguments the callback is invoked with (the
byte count and the buffer after the call), for a callback that returns
normally. The handler of `then` runs `buffer.fill(data, offset, data.byteLength)`
and the handler of `catch` builds `new Error(e.message)` with the code of `e`. -/
def read {σ : Type} (h : FsHost σ) (fd : Int) (args : ReadCallArgs) (s : σ) :
    Except JSError (CallbackArgs (Int × Buffer)) × σ :=
  match readResolve args with
  | .error e => (.error e, s)
  | .ok (buffer, offset, length, position) =>
    match h.validateInteger offset with
    | .error e => (.error e, s)
    | .ok _ =>
      match h.validateInteger (.num position) with
      | .error e => (.error e, s)
      | .ok _ =>
        match h.validateInteger length with
        | .error e => (.error e, s)
        | .ok _ =>
          match fread h fd position length.toInt s with
          | (.error e, s1) => (.error e, s1)
          | (.ok (.error e), s1) => (.ok (.error { message := e.message, code := e.code }), s1)
          | (.ok (.ok data), s1) =>
            match buffer.fill data offset.toInt data.length with
            | .ok filled => (.ok (.value (data.length, filled)), s1)
            | .error e => (.ok (.error { message := e.message, code := e.code }), s1)

/-- The statement `if (typeof (path) !== "number") { closeSync(fd); }`. -/
def closeUnlessNumber {σ : Type} (h : FsHost σ) (path : FileArg) (fd : Int) (s : σ) :
    Except JSError Unit × σ :=
  match path with
  | .fd _ => (.ok (), s)
  | .path _ => closeSync h.toHost fd s

/-- The callback `(err, rlen, obuf) => { ... }` that `readFile` hands to
`read`: it closes the descriptor unless `path` is a number, which can throw,
and then invokes the callback of `readFile`. -/
def readFileCompletion {σ : Type} (h : FsHost σ) (path : FileArg) (fd : Int) (encoding : JSVal)
    (args : CallbackArgs (Int × Buffer)) (s : σ) : Except JSError (CallbackArgs FileData) × σ :=
  match closeUnlessNumber h path fd s with
  | (.error e, s1) => (.error e, s1)
  | (.ok _, s1) =>
    match args with
    | .error err => (.ok (.error err), s1)
    | .value (rlen, obuf) => (.ok (.value (readFileResult h.toHost encoding obuf rlen)), s1)

/-- The statements of `readFile` from `fstatSync(fd)` on: an exception at call
time, or the arguments the callback of `readFile` is invoked with, `none` when
it is never invoked. An exception of the completion in the handler of `then`
reaches the handler of `catch`, which runs the completion with the error; an
exception in the handler of `catch` is not handled. -/
def readFileFrom {σ : Type} (h : FsHost σ) (path : FileArg) (fd : Int) (encoding : JSVal)
    (s : σ) : Except JSError (Option (CallbackArgs FileData)) × σ :=
  match fstatSync (fun n => h.validateInteger (.num n)) h.fstatSync fd statDefaults s with
  | (.error e, s1) => (.error e, s1)
  | (.ok stat, s1) =>
    match statSize stat with
    | .error e => (.error e, s1)
    | .ok len =>
      match Buffer.alloc len with
      | .error e => (.error e, s1)
      | .ok buf =>
        match read h fd (.bufferOnly buf) s1 with
        | (.error e, s2) => (.error e, s2)
        | (.ok (.value v), s2) =>
          match readFileCompletion h path fd encoding (.value v) s2 with
          | (.ok delivered, s3) => (.ok (some delivered), s3)
          | (.error e, s3) =>
            match readFileCompletion h path fd encoding
                (.error { message := e.message, code := e.code }) s3 with
            | (.ok delivered, s4) => (.ok (some delivered), s4)
            | (.error _, s4) => (.ok none, s4)
        | (.ok (.error err), s2) =>
          match readFileCompletion h path fd encoding (.error err) s2 with
          | (.ok delivered, s3) => (.ok (some delivered), s3)
          | (.error _, s3) => (.ok none, s3)

/-- The function `readFile(path, option, callback)` with an `option` that is
not the callback: a path is opened with `openSync(path, option.flag)`, whose
failure is handed to the callback at call time; a number is used as the
descriptor. -/
def readFile {σ : Type} (h : FsHost σ) (path : FileArg) (option : OptionsArg) (s : σ) :
    Except JSError (Option (CallbackArgs FileData)) × σ :=
  let opts := applyDefaults (readOptionRecord option) (readFileDefaults option)
  match h.validateEncoding (Obj.lookup opts "encoding") with
  | .error e => (.error e, s)
  | .ok _ =>
    match path with
    | .fd fd => readFileFrom h path fd (Obj.lookup opts "encoding") s
    | .path p =>
      match openSync h.toHost p (Obj.lookup opts "flag") .undefined s with
      | (.error err, s1) => (.ok (some (.error (readOpenError err))), s1)
      | (.ok fd, s1) => readFileFrom h path fd (Obj.lookup opts "encoding") s1

/-! ## The methods of `FileHandle` -/

/-- Modelled from the spec: the function `promisify` of `internal/util` (not
under `src/`), as in Node.js, on what a callback-style call does: the promise
is rejected with an exception of the call or with the error the callback
gets, is resolved with the value the callback gets, and stays pending (`none`)
when the callback is never invoked. -/
def promisified {σ α : Type} (r : Except JSError (Option (CallbackArgs α)) × σ) :
    Option (Settled α) × σ :=
  match r with
  | (.error e, s) => (some (.rejected (some e)), s)
  | (.ok none, s) => (none, s)
  | (.ok (some (.error e)), s) => (some (.rejected (some e)), s)
  | (.ok (some (.value v)), s) => (some (.resolved v), s)

/-- The methods of `FileHandle` that call a function of `fs.js`. -/
inductive HandleMethod
  | appendFile
  | close
  | createReadStream
  | createWriteStream
  | dataSync
  | read
  | readFile
  | readv
  | stat
  | sync
  | truncate
  | utimes
  | write
  | writeFile
  | writev
  deriving DecidableEq, Repr

/-- The first argument of the call a method of `FileHandle` makes: the
descriptor `this.fd` or the path `this.#path`. -/
inductive HandleTarget
  | descriptor (fd : RawNum)
  | path (p : String)
  deriving DecidableEq, Repr

/-- The function of `fs.js` that the method passes to `promisify` (the two
stream constructors are called directly). -/
def HandleMethod.callee : HandleMethod → String
  | .appendFile => "write"
  | .close => "close"
  | .createReadStream => "createReadStream"
  | .createWriteStream => "createWriteStream"
  | .dataSync => "fdatasync"
  | .read => "read"
  | .readFile => "readFile"
  | .readv => "readv"
  | .stat => "fstat"
  | .sync => "fsync"
  | .truncate => "ftruncate"
  | .utimes => "futimes"
  | .write => "write"
  | .writeFile => "writeFile"
  | .writev => "writev"

/-- The first argument of the call each method of `FileHandle` makes. -/
def FileHandle.firstArgument (fh : FileHandle) : HandleMethod → HandleTarget
  | .appendFile => .descriptor fh.fd
  | .close => .descriptor fh.fd
  | .createReadStream => .path fh.path
  | .createWriteStream => .path fh.path
  | .dataSync => .descriptor fh.fd
  | .read => .descriptor fh.fd
  | .readFile => .path fh.path
  | .readv => .descriptor fh.fd
  | .stat => .descriptor fh.fd
  | .sync => .descriptor fh.fd
  | .truncate => .descriptor fh.fd
  | .utimes => .descriptor fh.fd
  | .write => .descriptor fh.fd
  | .writeFile => .path fh.path
  | .writev => .descriptor fh.fd

/-- The method `FileHandle.readFile(options)`:
`promisify(readFile)(this.#path, options)`. -/
def FileHandle.readFile {σ : Type} (h : FsHost σ) (fh : FileHandle) (options : OptionsArg)
    (s : σ) : Option (Settled FileData) × σ :=
  promisified (NodeFs.readFile h (.path fh.path) options s)

/-- The arguments `FileHandle.appendFile(data, options)` passes to
`promisify(write)`: the descriptor and the text of `data`. The read
`options.encoding` throws when `options` is left out (a string or a number has
no property `encoding`). -/
def FileHandle.appendFileArguments {σ : Type} (h : Host σ) (fh : FileHandle) (data : FileData)
    (options : OptionsArg) : Except JSError (RawNum × String) :=
  match options with
  | .undefined => .error typeErrorReadUndefined
  | .obj o =>
    .ok (fh.fd,
      match data with
      | .text t => t
      | .bytes b => h.bufferToString b (encodingOrUtf8 (Obj.lookup o "encoding")))
  | _ =>
    .ok (fh.fd,
      match data with
      | .text t => t
      | .bytes b => h.bufferToString b (.str "utf8"))

/-! ## The in-memory host with the further primitives -/

/-- The native error for an argument that is not valid for the call. -/
def memInvalid : JSError := { message := "Invalid argument", code := .str "INVAL" }

/-- The native error for a call that is not supported. -/
def memNotSupported : JSError := { message := "Not supported", code := .str "NOTSUP" }

/-- The native error for a descriptor that is not a directory. -/
def memNotDir : JSError := { message := "Not a directory", code := .str "NOTDIR" }

/-- The symbolic links of the in-memory file system: `"latest"` points to
`"README.md"`. -/
def memLinks : List (String × String) := [("latest", "README.md")]

/-- The target of the symbolic link at a path. -/
def linkTarget : List (String × String) → String → Option String
  | [], _ => none
  | (p, target) :: rest, path => if p = path then some target else linkTarget rest path

/-- The raw stat of a symbolic link. -/
def rawOfLink : RawStat :=
  { dev := .num 1, ino := .num 3, mode := .num 41471, nlink := .num 1, uid := .num 0,
    gid := .num 0, rdev := .num 0, size := .num 9, blksize := .num 4096, blocks := .num 0,
    atime := .num 0, mtime := .num 0, birthtime := .num 0,
    is_file := .bool false, is_directory := .bool false, is_symlink := .bool true,
    is_block_device := .bool false, is_char_device := .bool false, is_socket := .bool false }

/-- The in-memory `binding.lstatSync`; the call is logged as a `stat`. -/
def memLstat : String → Prim MemFs RawStat :=
  fun path m =>
    (match linkTarget memLinks path with
      | some _ => .ok rawOfLink
      | none => memLookup m path,
     { m with log := m.log ++ [.stat path] })

/-- The in-memory `binding.realpathSync`: the target of a link, the path
itself when it exists. -/
def memRealpath : String → Prim MemFs String :=
  fun path m =>
    (match linkTarget memLinks path with
      | some target => .ok target
      | none =>
        match memLookup m path with
        | .ok _ => .ok path
        | .error e => .error e,
     m)

/-- The in-memory `binding.readlinkSync`. -/
def memReadlink : String → Prim MemFs String :=
  fun path m =>
    (match linkTarget memLinks path with
      | some target => .ok target
      | none => .error memInvalid,
     m)

/-- The files without the file at a path. -/
def dropFile (files : List (String × List Nat)) (path : String) : List (String × List Nat) :=
  files.filter (fun f => f.1 ≠ path)

/-- The in-memory `binding.renameSync`, for regular files. -/
def memRename : String → String → Prim MemFs Unit :=
  fun oldPath newPath m =>
    match fileAt m.files oldPath with
    | some bytes => (.ok (), { m with files := putFile (dropFile m.files oldPath) newPath bytes })
    | none => (.error memNoEnt, m)

/-- The in-memory `binding.rmSync`, for regular files. -/
def memRm : String → JSVal → JSVal → Prim MemFs Unit :=
  fun path _ _ m =>
    match fileAt m.files path with
    | some _ => (.ok (), { m with files := dropFile m.files path })
    | none => (.error memNoEnt, m)

/-- The name of a path under a directory: the path is the directory, `/` and
a name without `/`; under `"."` it is a path without `/` other than `"."`. -/
def childName (dir path : String) : Option String :=
  if dir = "." then
    (if path = "." ∨ '/' ∈ path.data then none else some path)
  else if (dir.data ++ ['/']).isPrefixOf path.data ∧
      '/' ∉ path.data.drop (dir.data.length + 1) then
    some (String.mk (path.data.drop (dir.data.length + 1)))
  else none

/-- The entries of a directory of the in-memory file system: `.` and `..`,
then its directories, then its regular files. -/
def memEntries (m : MemFs) (dir : String) : List RawEntry :=
  [{ name := ".", filetype := FILETYPE_DIRECTORY },
   { name := "..", filetype := FILETYPE_DIRECTORY }] ++
  (m.dirs.filterMap (childName dir)).map
    (fun n => { name := n, filetype := FILETYPE_DIRECTORY }) ++
  ((m.files.map Prod.fst).filterMap (childName dir)).map
    (fun n => { name := n, filetype := FILETYPE_REGULAR_FILE })

/-- The in-memory `binding.freaddirSync`: the entries of the directory from
the cookie on, in one page that is the last one. -/
def memReaddir : Int → Nat → Prim MemFs Page :=
  fun fd cookie m =>
    match descriptorAt m.opened fd with
    | none => (.error memBadFd, m)
    | some (dir, _) =>
      if dir ∈ m.dirs then
        (.ok { res := (memEntries m dir).drop cookie, fin := true,
               cookie := (memEntries m dir).length }, m)
      else (.error memNotDir, m)

/-- The in-memory `binding.openSync` that also opens a directory for reading. -/
def memOpenAny : String → Int → JSVal → Prim MemFs Int :=
  fun path flag mode m =>
    if flag = 0 ∧ path ∈ m.dirs then
      (.ok m.nextFd, { m with opened := m.opened ++ [(m.nextFd, path, 0)],
                              nextFd := m.nextFd + 1, log := m.log ++ [.openFile path flag] })
    else memOpen path flag mode m

/-- Modelled from the spec: the collaborators of `fs.js` over the in-memory
file system, with the further primitives: `path.normalize` in its POSIX form,
the symbolic links of `memLinks`, directories that can be opened and listed,
and an asynchronous read that settles as the synchronous one returns. The log
keeps the calls of the primitives of `Call`. -/
def memFsHost : FsHost MemFs :=
  { toHost := { memHost with openSync := memOpenAny }
    normalize := posixNormalize
    lstatSync := memLstat
    realpathSync := memRealpath
    readlinkSync := memReadlink
    renameSync := memRename
    symlinkSync := fun _ _ m => (.error memNotSupported, m)
    rmSync := memRm
    freaddirSync := memReaddir
    fread := memRead }

/-- The `TypeError` of the path validator for a path that holds a null byte
(`ERR_INVALID_ARG_VALUE`). -/
def memInvalidValue : JSError :=
  { name := "TypeError", message := "invalid argument value", code := .str "ERR_INVALID_ARG_VALUE" }

/-- The in-memory host with a path validator that rejects a path that holds
a null byte. -/
def strictHost : FsHost MemFs :=
  { memFsHost with
    getValidatedPath := fun p => if Char.ofNat 0 ∈ p.data then .error memInvalidValue else .ok p }

/-- A path that holds a null byte. -/
def pathWithNull : String := String.mk ['a', Char.ofNat 0, 'b']

/-- The in-memory file system of `memStart` with the descriptor 3 open on
`"README.md"` at position 1. -/
def memSeeked : MemFs := { memStart with opened := [(3, "README.md", 1)], nextFd := 4 }

/-- The in-memory file system of `memStart` in which the directory `"tmp"`
holds the files `"tmp/a"` and `"tmp/b"`. -/
def memWithEntries : MemFs :=
  { memStart with files := [("README.md", [104, 105, 10]), ("tmp/a", [1]), ("tmp/b", [2])] }

/-- A cursor on descriptor 3 that has handed out its only entry, of a
listing that is finished. -/
def drainedDir : Dir :=
  { fd := 3, path := "tmp", dataBuf := [{ name := "a", filetype := 4 }], idx := 1, fin := true,
    cookie := 3 }

/-- A handle made from the descriptor 3 and the path `"README.md"`. -/
def readmeHandle : FileHandle := { fd := .num 3, path := "README.md" }

/-! # Theorems -/

/-! ### Facts about records and the store -/

theorem Obj.lookup_assign_same (o : Obj) (k : String) (v : JSVal) :
    Obj.lookup (Obj.assign o k v) k = v := by
  induction o with
  | nil => simp [Obj.assign, Obj.lookup]
  | cons e rest ih =>
    obtain ⟨k0, w⟩ := e
    by_cases hk : k0 = k
    · simp [Obj.assign, Obj.lookup, hk]
    · simp [Obj.assign, Obj.lookup, hk, ih]

theorem Obj.lookup_assign_other (o : Obj) (k k2 : String) (v : JSVal) (hne : k ≠ k2) :
    Obj.lookup (Obj.assign o k v) k2 = Obj.lookup o k2 := by
  induction o with
  | nil => simp [Obj.assign, Obj.lookup, hne]
  | cons e rest ih =>
    obtain ⟨k0, w⟩ := e
    by_cases hk : k0 = k
    · subst hk
      simp [Obj.assign, Obj.lookup, hne]
    · by_cases hk2 : k0 = k2
      · subst hk2
        simp [Obj.assign, Obj.lookup, hk]
      · simp [Obj.assign, Obj.lookup, hk, hk2, ih]

theorem Heap.length_write (h : Heap) (r : Nat) (k : String) (v : JSVal) :
    (Heap.write h r k v).length = h.length := by
  simp [Heap.write]

theorem Heap.read_write_same (h : Heap) (r : Nat) (k : String) (v : JSVal)
    (hr : r < h.length) :
    Heap.read (Heap.write h r k v) r = Obj.assign (Heap.read h r) k v := by
  simp [Heap.write, Heap.read, List.getD_eq_getElem?_getD, List.getElem?_set, hr]

theorem Heap.read_write_other (h : Heap) (r a : Nat) (k : String) (v : JSVal)
    (hne : r ≠ a) :
    Heap.read (Heap.write h r k v) a = Heap.read h a := by
  simp [Heap.write, Heap.read, List.getD_eq_getElem?_getD, List.getElem?_set, hne]

theorem Heap.read_append_lt (h : Heap) (o : Obj) (a : Nat) (ha : a < h.length) :
    Heap.read (h ++ [o]) a = Heap.read h a := by
  simp [Heap.read, List.getD_eq_getElem?_getD, List.getElem?_append_left ha]

theorem Heap.read_append_length (h : Heap) (o : Obj) :
    Heap.read (h ++ [o]) h.length = o := by
  simp [Heap.read, List.getD_eq_getElem?_getD]

theorem Obj.lookup_of_not_mem_keys (o : Obj) (k : String) (hk : k ∉ Obj.keys o) :
    Obj.lookup o k = .undefined := by
  induction o with
  | nil => rfl
  | cons e rest ih =>
    obtain ⟨k0, w⟩ := e
    simp only [Obj.keys, List.map_cons, List.mem_cons, not_or] at hk
    have hne : k0 ≠ k := fun h => hk.1 h.symm
    have := ih (by simpa [Obj.keys] using hk.2)
    simp [Obj.lookup, hne, this]

/-- The loop of `applyDefaultValue` over a list of entries without repeated
keys: the store keeps its size, only the record `res` changes, and `res`
receives one value for every key of the list and keeps its other properties. -/
theorem applyDefaultValue_loop (dest res : Nat) (hne : dest ≠ res) (l : Obj) (hl : Obj.WF l)
    (hp : Heap) (hres : res < hp.length) :
    (l.foldl (applyDefaultValueStep dest res) hp).length = hp.length ∧
    (∀ a, a ≠ res →
      Heap.read (l.foldl (applyDefaultValueStep dest res) hp) a = Heap.read hp a) ∧
    (∀ k, k ∈ Obj.keys l →
      Obj.lookup (Heap.read (l.foldl (applyDefaultValueStep dest res) hp) res) k =
        if Obj.lookup (Heap.read hp dest) k = .undefined then Obj.lookup l k
        else Obj.lookup (Heap.read hp dest) k) ∧
    (∀ k, k ∉ Obj.keys l →
      Obj.lookup (Heap.read (l.foldl (applyDefaultValueStep dest res) hp) res) k =
        Obj.lookup (Heap.read hp res) k) := by
  induction l generalizing hp with
  | nil => simp [Obj.keys]
  | cons e rest ih =>
    obtain ⟨k0, w⟩ := e
    have hwf : Obj.WF rest := by
      have := hl
      simp only [Obj.WF, Obj.keys, List.map_cons, List.nodup_cons] at this
      exact this.2
    have hk0 : k0 ∉ Obj.keys rest := by
      have := hl
      simp only [Obj.WF, Obj.keys, List.map_cons, List.nodup_cons] at this
      exact this.1
    have hlen : (applyDefaultValueStep dest res hp (k0, w)).length = hp.length := by
      simp [applyDefaultValueStep, Heap.length_write]
    have hdest : Heap.read (applyDefaultValueStep dest res hp (k0, w)) dest =
        Heap.read hp dest := by
      simp only [applyDefaultValueStep]
      exact Heap.read_write_other _ _ _ _ _ (Ne.symm hne)
    have hresrd : Heap.read (applyDefaultValueStep dest res hp (k0, w)) res =
        Obj.assign (Heap.read hp res) k0
          (if Obj.lookup (Heap.read hp dest) k0 = .undefined then w
           else Obj.lookup (Heap.read hp dest) k0) := by
      simp only [applyDefaultValueStep]
      exact Heap.read_write_same _ _ _ _ hres
    obtain ⟨i1, i2, i3, i4⟩ := ih hwf (applyDefaultValueStep dest res hp (k0, w))
      (by rw [hlen]; exact hres)
    simp only [List.foldl_cons]
    refine ⟨by rw [i1, hlen], ?_, ?_, ?_⟩
    · intro a ha
      rw [i2 a ha]
      simp only [applyDefaultValueStep]
      exact Heap.read_write_other _ _ _ _ _ (Ne.symm ha)
    · intro k hk
      simp only [Obj.keys, List.map_cons, List.mem_cons] at hk
      by_cases hkk : k = k0
      · subst hkk
        rw [i4 k hk0, hresrd, Obj.lookup_assign_same]
        simp [Obj.lookup]
      · have hmem : k ∈ Obj.keys rest := by
          rcases hk with h | h
          · exact absurd h hkk
          · simpa [Obj.keys] using h
        rw [i3 k hmem, hdest]
        have : k0 ≠ k := fun h => hkk h.symm
        simp [Obj.lookup, this]
    · intro k hk
      simp only [Obj.keys, List.map_cons, List.mem_cons, not_or] at hk
      have hmem : k ∉ Obj.keys rest := by simpa [Obj.keys] using hk.2
      rw [i4 k hmem, hresrd]
      exact Obj.lookup_assign_other _ _ _ _ (fun h => hk.1 h.symm)

/-- C10. `applyDefaultValue(o, d)` returns a reference to a new record (one
that was not in the store before the call); every record that was in the store
before the call, `o` and `d` among them, is unchanged; and for every key `k` of
`d` the new record holds `o[k]` when `o[k]` is not `undefined` (so `null`,
`false`, `0` and `""` are kept) and `d[k]` otherwise. -/
theorem applyDefaultValue_spec (h : Heap) (o d : Nat) (ho : o < h.length)
    (hd : d < h.length) (hwf : Obj.WF (Heap.read h d)) :
    ¬ (applyDefaultValue h o d).1 < h.length ∧
    (applyDefaultValue h o d).1 < (applyDefaultValue h o d).2.length ∧
    (∀ a, a < h.length → Heap.read (applyDefaultValue h o d).2 a = Heap.read h a) ∧
    (∀ k, k ∈ Obj.keys (Heap.read h d) →
      Obj.lookup (Heap.read (applyDefaultValue h o d).2 (applyDefaultValue h o d).1) k =
        if Obj.lookup (Heap.read h o) k = .undefined then Obj.lookup (Heap.read h d) k
        else Obj.lookup (Heap.read h o) k) := by
  have hdr : Heap.read (h ++ [[]]) d = Heap.read h d := Heap.read_append_lt h [] d hd
  have hor : Heap.read (h ++ [[]]) o = Heap.read h o := Heap.read_append_lt h [] o ho
  obtain ⟨i1, i2, i3, _⟩ := applyDefaultValue_loop o h.length (Nat.ne_of_lt ho)
    (Heap.read h d) hwf (h ++ [[]]) (by simp)
  simp only [applyDefaultValue, Heap.alloc, hdr]
  refine ⟨Nat.lt_irrefl _, by rw [i1]; simp, ?_, ?_⟩
  · intro a ha
    rw [i2 a (Nat.ne_of_lt ha)]
    exact Heap.read_append_lt h [] a ha
  · intro k hk
    rw [i3 k hk, hor]

/-- C10 at `demoStore`: the hypotheses hold there, `null`, `false`, `0` and
`""` override the defaults, the key the caller left out gets its default, and
the caller object is unchanged. -/
theorem applyDefaultValue_spec_witness :
    Obj.WF (Heap.read demoStore 1) ∧
    Obj.lookup (Heap.read (applyDefaultValue demoStore 0 1).2
      (applyDefaultValue demoStore 0 1).1) "a" = .null ∧
    Obj.lookup (Heap.read (applyDefaultValue demoStore 0 1).2
      (applyDefaultValue demoStore 0 1).1) "b" = .bool false ∧
    Obj.lookup (Heap.read (applyDefaultValue demoStore 0 1).2
      (applyDefaultValue demoStore 0 1).1) "c" = .num 0 ∧
    Obj.lookup (Heap.read (applyDefaultValue demoStore 0 1).2
      (applyDefaultValue demoStore 0 1).1) "d" = .str "" ∧
    Obj.lookup (Heap.read (applyDefaultValue demoStore 0 1).2
      (applyDefaultValue demoStore 0 1).1) "e" = .num 5 ∧
    Heap.read (applyDefaultValue demoStore 0 1).2 0 = Heap.read demoStore 0 :=
  have t := applyDefaultValue_spec demoStore 0 1 (by decide) (by decide) (by decide)
  ⟨by decide, (t.2.2.2 "a" (by decide)).trans (by decide),
    (t.2.2.2 "b" (by decide)).trans (by decide),
    (t.2.2.2 "c" (by decide)).trans (by decide),
    (t.2.2.2 "d" (by decide)).trans (by decide),
    (t.2.2.2 "e" (by decide)).trans (by decide),
    t.2.2.1 0 (by decide)⟩

/-- The record `applyDefaults o d` holds, for every key of a well-formed `d`,
the value of `o` unless that is `undefined`, and then the value of `d`. -/
theorem applyDefaults_lookup (o d : Obj) (hwf : Obj.WF d) (k : String)
    (hk : k ∈ Obj.keys d) :
    Obj.lookup (applyDefaults o d) k =
      if Obj.lookup o k = .undefined then Obj.lookup d k else Obj.lookup o k := by
  have h := applyDefaultValue_loop 0 2 (by decide) d hwf ([o, d] ++ [[]]) (by simp)
  have := h.2.2.1 k hk
  simpa [applyDefaults, applyDefaultValue, Heap.alloc, Heap.read] using this

/-- The record `applyDefaults o d` has no property besides the keys of `d`. -/
theorem applyDefaults_lookup_other (o d : Obj) (hwf : Obj.WF d) (k : String)
    (hk : k ∉ Obj.keys d) :
    Obj.lookup (applyDefaults o d) k = .undefined := by
  have h := applyDefaultValue_loop 0 2 (by decide) d hwf ([o, d] ++ [[]]) (by simp)
  have := h.2.2.2 k hk
  simpa [applyDefaults, applyDefaultValue, Heap.alloc, Heap.read, Obj.lookup] using this

theorem statDefaults_throwIfNoEntry (options : Obj) :
    Obj.lookup (applyDefaults options statDefaults) "throwIfNoEntry" =
      if Obj.lookup options "throwIfNoEntry" = .undefined then .bool true
      else Obj.lookup options "throwIfNoEntry" := by
  rw [applyDefaults_lookup options statDefaults (by decide) "throwIfNoEntry" (by decide)]
  rfl

/-! ## The stat calls -/

/-- C5. When `binding.statSync` fails with code `"NOENT"` on a valid path,
`statSync` raises an error with code `"ENOENT"` if it is called with the
default options or with `throwIfNoEntry: true`, and returns `undefined`
without raising if it is called with `throwIfNoEntry: false`. -/
theorem statSync_missing_path {σ : Type} (getValidatedPath : String → Except JSError String)
    (bStatSync : String → Prim σ RawStat) (path valid : String) (err : JSError) (s s1 : σ)
    (hvalid : getValidatedPath path = .ok valid)
    (hfail : bStatSync valid s = (.error err, s1))
    (hcode : err.code = .str "NOENT") :
    statSync getValidatedPath bStatSync path statDefaults s =
      (.error { message := "no such file or directory", code := .str "ENOENT" }, s1) ∧
    (∀ options : Obj, Obj.lookup options "throwIfNoEntry" = .bool true →
      statSync getValidatedPath bStatSync path options s =
        (.error { message := "no such file or directory", code := .str "ENOENT" }, s1)) ∧
    (∀ options : Obj, Obj.lookup options "throwIfNoEntry" = .bool false →
      statSync getValidatedPath bStatSync path options s = (.ok .undefined, s1)) := by
  refine ⟨?_, ?_, ?_⟩
  · simp only [statSync, hvalid, tryStat, hfail, statDefaults_throwIfNoEntry]
    simp [statDefaults, Obj.lookup]
  · intro options hopt
    simp only [statSync, hvalid, tryStat, hfail, statDefaults_throwIfNoEntry, hopt]
    simp
  · intro options hopt
    simp only [statSync, hvalid, tryStat, hfail, statDefaults_throwIfNoEntry, hopt, hcode]
    simp

/-- C5 at a binding that reports every path as missing. -/
theorem statSync_missing_path_witness :
    statSync acceptPath (failingStat nativeNoEnt) "non-exist.file" statDefaults () =
      (.error { message := "no such file or directory", code := .str "ENOENT" }, ()) ∧
    statSync acceptPath (failingStat nativeNoEnt) "non-exist.file"
      [("throwIfNoEntry", .bool true)] () =
      (.error { message := "no such file or directory", code := .str "ENOENT" }, ()) ∧
    statSync acceptPath (failingStat nativeNoEnt) "non-exist.file"
      [("throwIfNoEntry", .bool false)] () = (.ok .undefined, ()) :=
  have t := statSync_missing_path acceptPath (failingStat nativeNoEnt) "non-exist.file"
    "non-exist.file" nativeNoEnt () () rfl rfl rfl
  ⟨t.1, t.2.1 [("throwIfNoEntry", .bool true)] (by decide),
    t.2.2 [("throwIfNoEntry", .bool false)] (by decide)⟩

/-- C6, the failing case. `binding.statSync` fails with message
`"Permission denied"` and code `"ACCES"`; `statSync` raises an error with
message `"no such file or directory"` and code `"ENOENT"`: neither the native
message nor the native code reaches the caller. -/
theorem statSync_hides_native_error :
    statSync acceptPath (failingStat nativeAcces) "README.md" statDefaults () =
      (.error { message := "no such file or directory", code := .str "ENOENT" }, ()) ∧
    nativeAcces.message ≠ "no such file or directory" ∧
    (.str "ENOENT" : JSVal) ≠ nativeAcces.code ∧
    (.str "ENOENT" : JSVal) ≠ .str ("E" ++ nativeAcces.code.toText) :=
  ⟨rfl, by decide, by decide, by decide⟩

/-- The sibling `lstatSync` passes a native failure through: for a failure
whose code is not `"NOENT"` it raises, whatever the options, an error with the
native message and the native code prefixed with `"E"`. -/
theorem lstatSync_passes_native_error {σ : Type}
    (getValidatedPath : String → Except JSError String)
    (bLstatSync : String → Prim σ RawStat) (path valid : String) (options : Obj)
    (err : JSError) (s s1 : σ)
    (hvalid : getValidatedPath path = .ok valid)
    (hfail : bLstatSync valid s = (.error err, s1))
    (hcode : err.code ≠ .str "NOENT") :
    lstatSync getValidatedPath bLstatSync path options s =
      (.error { message := err.message, code := .str ("E" ++ err.code.toText) }, s1) := by
  simp [lstatSync, hvalid, tryStat, hfail, hcode]

/-- The sibling `fstatSync` passes a native failure through in the same way. -/
theorem fstatSync_passes_native_error {σ : Type}
    (validateInteger : Int → Except JSError Unit)
    (bFstatSync : Int → Prim σ RawStat) (fd : Int) (options : Obj)
    (err : JSError) (s s1 : σ)
    (hvalid : validateInteger fd = .ok ())
    (hfail : bFstatSync fd s = (.error err, s1))
    (hcode : err.code ≠ .str "NOENT") :
    fstatSync validateInteger bFstatSync fd options s =
      (.error { message := err.message, code := .str ("E" ++ err.code.toText) }, s1) := by
  simp [fstatSync, hvalid, tryStat, hfail, hcode]

/-- For every failure of `binding.statSync`, whatever its code and message,
`statSync` either returns `undefined` or raises the fixed error
`"no such file or directory"` with code `"ENOENT"`. -/
theorem statSync_failure_is_enoent {σ : Type}
    (getValidatedPath : String → Except JSError String)
    (bStatSync : String → Prim σ RawStat) (path valid : String) (options : Obj)
    (err : JSError) (s s1 : σ)
    (hvalid : getValidatedPath path = .ok valid)
    (hfail : bStatSync valid s = (.error err, s1))
    (hcode : err.code ≠ .str "NOENT") :
    statSync getValidatedPath bStatSync path options s =
      (.error { message := "no such file or directory", code := .str "ENOENT" }, s1) := by
  simp [statSync, hvalid, tryStat, hfail, hcode]

/-! ## Metadata snapshots -/

theorem RawNum.eq_num_of_isInt (x : RawNum) (h : x.isInt = true) : ∃ n : Int, x = .num n := by
  cases x with
  | undefined => simp [RawNum.isInt] at h
  | null => simp [RawNum.isInt] at h
  | num n => exact ⟨n, rfl⟩

theorem sameInteger_num (n : Int) : sameInteger (.num n) (.big n) := ⟨n, rfl, rfl⟩

theorem orZero_num (n : Int) : orZero (.num n) = .num n := by
  by_cases h : n = 0 <;> simp [orZero, h]

theorem orZeroBig_big (n : Int) : orZeroBig (.big n) = .big n := by
  by_cases h : n = 0 <;> simp [orZeroBig, h]

/-- The constructor of `BigIntStats` returns when the three raw timestamps are
numbers, and then every field is the one the constructor's statement names. -/
theorem BigIntStats.new_of_times (r : RawStat) (a m c : Int)
    (ha : r.atime = .num a) (hm : r.mtime = .num m) (hc : r.birthtime = .num c) :
    BigIntStats.new r = .ok
      { dev := toBigInt r.dev
        ino := toBigInt r.ino
        mode := toBigInt r.mode
        nlink := toBigInt r.nlink
        uid := toBigInt r.uid
        gid := toBigInt r.gid
        rdev := toBigInt r.rdev
        size := orZeroBig (toBigInt r.size)
        blksize := toBigInt r.blksize
        blocks := toBigInt r.blocks
        mtime := newDate (.num m)
        atime := newDate (.num a)
        birthtime := newDate (.num c)
        mtimeMs := .big m
        atimeMs := .big a
        birthtimeMs := .big c
        mtimeNs := .big (m * 1000000)
        atimeNs := .big (a * 1000000)
        birthtimeNs := .big (c * 1000000)
        ctime := newDate (.num m)
        ctimeMs := .big m
        ctimeNs := .big (m * 1000000)
        origin := r } := by
  simp only [BigIntStats.new, ha, hm, hc, toBigInt, mulMillion]
  rfl

/-- C7, the failing case. On a raw stat in which only `mtime` is absent,
`new Stats` returns, but `new BigIntStats` throws a `TypeError` (the product
`toBigInt(origin.mtime) * 1000000n` is `null * 1000000n`), so no
`BigIntStats` with null-valued fields is produced; the same happens when
`atime` is `null`. -/
theorem bigIntStats_throws_on_absent_mtime :
    BigIntStats.new rawNoMtime = .error typeErrorMixBigInt ∧
    BigIntStats.new { rawRegular with atime := .null } = .error typeErrorMixBigInt ∧
    (Stats.new rawNoMtime).mtimeMs = .undefined ∧
    (Stats.new rawNoMtime).mtime = ⟨none⟩ :=
  ⟨rfl, rfl, rfl, rfl⟩

/-- The constructor of `BigIntStats` throws exactly when one of the raw
`mtime`, `atime`, `birthtime` is not a number. -/
theorem BigIntStats.new_throws_iff (r : RawStat) :
    BigIntStats.new r = .error typeErrorMixBigInt ↔
      (r.mtime.isInt = false ∨ r.atime.isInt = false ∨ r.birthtime.isInt = false) := by
  obtain ⟨dev, ino, mode, nlink, uid, gid, rdev, size, blksize, blocks, atime, mtime,
    birthtime, f1, f2, f3, f4, f5, f6⟩ := r
  cases mtime <;> cases atime <;> cases birthtime <;>
    simp [BigIntStats.new, toBigInt, mulMillion, RawNum.isInt, bind, Except.bind, pure,
      Except.pure]

/-- C8. For a raw stat whose numeric fields are all integers, `new
BigIntStats` returns, each of the seven type predicates gives the same value
on the `Stats` and on the `BigIntStats`, `isFIFO()` is `false` on both, every
numeric field and every millisecond timestamp of the `BigIntStats` is the
integer of the same `Stats` field, the four dates coincide, and when the raw
stat is flagged as a regular file only, `isFile()` is `true` and the other six
predicates are `false` on both. -/
theorem stats_bigIntStats_consistent (r : RawStat) (hint : r.integerFields) :
    ∃ b : BigIntStats, BigIntStats.new r = .ok b ∧
      (b.isFile = (Stats.new r).isFile ∧ b.isDirectory = (Stats.new r).isDirectory ∧
        b.isSymbolicLink = (Stats.new r).isSymbolicLink ∧
        b.isBlockDevice = (Stats.new r).isBlockDevice ∧
        b.isFIFO = (Stats.new r).isFIFO ∧
        b.isCharacterDevice = (Stats.new r).isCharacterDevice ∧
        b.isSocket = (Stats.new r).isSocket) ∧
      ((Stats.new r).isFIFO = .bool false ∧ b.isFIFO = .bool false) ∧
      (sameInteger (Stats.new r).dev b.dev ∧ sameInteger (Stats.new r).ino b.ino ∧
        sameInteger (Stats.new r).mode b.mode ∧ sameInteger (Stats.new r).nlink b.nlink ∧
        sameInteger (Stats.new r).uid b.uid ∧ sameInteger (Stats.new r).gid b.gid ∧
        sameInteger (Stats.new r).rdev b.rdev ∧ sameInteger (Stats.new r).size b.size ∧
        sameInteger (Stats.new r).blksize b.blksize ∧
        sameInteger (Stats.new r).blocks b.blocks) ∧
      (sameInteger (Stats.new r).atimeMs b.atimeMs ∧
        sameInteger (Stats.new r).mtimeMs b.mtimeMs ∧
        sameInteger (Stats.new r).birthtimeMs b.birthtimeMs ∧
        sameInteger (Stats.new r).ctimeMs b.ctimeMs) ∧
      (b.atime = (Stats.new r).atime ∧ b.mtime = (Stats.new r).mtime ∧
        b.birthtime = (Stats.new r).birthtime ∧ b.ctime = (Stats.new r).ctime) ∧
      (r.regularFileOnly →
        ((Stats.new r).isFile = .bool true ∧ (Stats.new r).isDirectory = .bool false ∧
          (Stats.new r).isSymbolicLink = .bool false ∧
          (Stats.new r).isBlockDevice = .bool false ∧
          (Stats.new r).isFIFO = .bool false ∧
          (Stats.new r).isCharacterDevice = .bool false ∧
          (Stats.new r).isSocket = .bool false) ∧
        (b.isFile = .bool true ∧ b.isDirectory = .bool false ∧
          b.isSymbolicLink = .bool false ∧ b.isBlockDevice = .bool false ∧
          b.isFIFO = .bool false ∧ b.isCharacterDevice = .bool false ∧
          b.isSocket = .bool false)) := by
  obtain ⟨h1, h2, h3, h4, h5, h6, h7, h8, h9, h10, h11, h12, h13⟩ := hint
  obtain ⟨dev, hdev⟩ := RawNum.eq_num_of_isInt _ h1
  obtain ⟨ino, hino⟩ := RawNum.eq_num_of_isInt _ h2
  obtain ⟨mode, hmode⟩ := RawNum.eq_num_of_isInt _ h3
  obtain ⟨nlink, hnlink⟩ := RawNum.eq_num_of_isInt _ h4
  obtain ⟨uid, huid⟩ := RawNum.eq_num_of_isInt _ h5
  obtain ⟨gid, hgid⟩ := RawNum.eq_num_of_isInt _ h6
  obtain ⟨rdev, hrdev⟩ := RawNum.eq_num_of_isInt _ h7
  obtain ⟨size, hsize⟩ := RawNum.eq_num_of_isInt _ h8
  obtain ⟨blksize, hblksize⟩ := RawNum.eq_num_of_isInt _ h9
  obtain ⟨blocks, hblocks⟩ := RawNum.eq_num_of_isInt _ h10
  obtain ⟨a, ha⟩ := RawNum.eq_num_of_isInt _ h11
  obtain ⟨m, hm⟩ := RawNum.eq_num_of_isInt _ h12
  obtain ⟨c, hc⟩ := RawNum.eq_num_of_isInt _ h13
  refine ⟨_, BigIntStats.new_of_times r a m c ha hm hc, ?_, ?_, ?_, ?_, ?_, ?_⟩
  · exact ⟨rfl, rfl, rfl, rfl, rfl, rfl, rfl⟩
  · exact ⟨rfl, rfl⟩
  · simp only [Stats.new, hdev, hino, hmode, hnlink, huid, hgid, hrdev, hsize, hblksize,
      hblocks, toBigInt, orZero_num, orZeroBig_big]
    exact ⟨sameInteger_num _, sameInteger_num _, sameInteger_num _, sameInteger_num _,
      sameInteger_num _, sameInteger_num _, sameInteger_num _, sameInteger_num _,
      sameInteger_num _, sameInteger_num _⟩
  · simp only [Stats.new, ha, hm, hc]
    exact ⟨sameInteger_num _, sameInteger_num _, sameInteger_num _, sameInteger_num _⟩
  · simp [Stats.new, ha, hm, hc]
  · intro hreg
    obtain ⟨g1, g2, g3, g4, g5, g6⟩ := hreg
    exact ⟨⟨g1, g2, g3, g4, rfl, g5, g6⟩, ⟨g1, g2, g3, g4, rfl, g5, g6⟩⟩

/-- C8 at the raw stat of a regular file. -/
theorem stats_bigIntStats_consistent_witness :
    rawRegular.integerFields ∧ rawRegular.regularFileOnly ∧
    ∃ b : BigIntStats, BigIntStats.new rawRegular = .ok b ∧
      b.isFile = .bool true ∧ (Stats.new rawRegular).isFile = .bool true ∧
      b.isSocket = .bool false ∧ (Stats.new rawRegular).isSocket = .bool false ∧
      sameInteger (Stats.new rawRegular).size b.size ∧
      sameInteger (Stats.new rawRegular).mtimeMs b.mtimeMs :=
  have ⟨b, hb, _, _, hnum, hms, _, hreg⟩ :=
    stats_bigIntStats_consistent rawRegular (by decide)
  have hr := hreg (by decide)
  ⟨by decide, by decide, b, hb, hr.2.1, hr.1.1, hr.2.2.2.2.2.2.2, hr.1.2.2.2.2.2.2,
    hnum.2.2.2.2.2.2.2.1, hms.2.1⟩

/-- C9. For a raw stat whose `atime`, `mtime` and `birthtime` are integers,
`new BigIntStats` returns and its nanosecond fields are the millisecond
fields times 1000000 as integers: `atimeNs = atimeMs * 1000000`,
`mtimeNs = mtimeMs * 1000000`, `birthtimeNs = birthtimeMs * 1000000` and
`ctimeNs = ctimeMs * 1000000`. -/
theorem bigIntStats_nanoseconds (r : RawStat) (a m c : Int)
    (ha : r.atime = .num a) (hm : r.mtime = .num m) (hc : r.birthtime = .num c) :
    ∃ b : BigIntStats, BigIntStats.new r = .ok b ∧
      (b.atimeMs = .big a ∧ b.atimeNs = .big (a * 1000000)) ∧
      (b.mtimeMs = .big m ∧ b.mtimeNs = .big (m * 1000000)) ∧
      (b.birthtimeMs = .big c ∧ b.birthtimeNs = .big (c * 1000000)) ∧
      (b.ctimeMs = .big m ∧ b.ctimeNs = .big (m * 1000000)) :=
  ⟨_, BigIntStats.new_of_times r a m c ha hm hc, ⟨rfl, rfl⟩, ⟨rfl, rfl⟩, ⟨rfl, rfl⟩,
    ⟨rfl, rfl⟩⟩

/-- C9 at the raw stat of a regular file, and at timestamps beyond 2^64. -/
theorem bigIntStats_nanoseconds_witness :
    (∃ b : BigIntStats, BigIntStats.new rawRegular = .ok b ∧
      b.atimeNs = .big 1700000000123000000 ∧ b.mtimeNs = .big 1700000000456000000 ∧
      b.birthtimeNs = .big 1600000000789000000 ∧ b.ctimeNs = .big 1700000000456000000) ∧
    (∃ b : BigIntStats,
      BigIntStats.new { rawRegular with atime := .num (-1), mtime := .num (2 ^ 70) } = .ok b ∧
      b.atimeNs = .big (-1000000) ∧ b.mtimeNs = .big (2 ^ 70 * 1000000)) :=
  have ⟨b, hb, h1, h2, h3, h4⟩ := bigIntStats_nanoseconds rawRegular 1700000000123
    1700000000456 1600000000789 rfl rfl rfl
  have ⟨b2, hb2, k1, k2, _, _⟩ := bigIntStats_nanoseconds
    { rawRegular with atime := .num (-1), mtime := .num (2 ^ 70) } (-1) (2 ^ 70)
    1600000000789 rfl rfl rfl
  ⟨⟨b, hb, h1.2.trans (by norm_num), h2.2.trans (by norm_num), h3.2.trans (by norm_num),
    h4.2.trans (by norm_num)⟩, ⟨b2, hb2, k1.2.trans (by norm_num), k2.2⟩⟩

/-! ## `rmSync` and `unlinkSync` -/

/-- The bound on the turns of the loop of `rmSync` is never what ends it: with
a numeric `maxRetries = n` and at least `n - i` turns allowed from counter
value `i`, one more allowed turn changes nothing. -/
theorem rmSyncLoop_fuel {σ : Type} (bRmSync : String → JSVal → JSVal → Prim σ Unit)
    (path : String) (options : Obj) (n : Int)
    (hn : (Obj.lookup options "maxRetries").toNumber = some n) (fuel : Nat) (i : Int) (s : σ)
    (hfuel : n - i ≤ fuel) :
    rmSyncLoop bRmSync path options (fuel + 1) i s =
      rmSyncLoop bRmSync path options fuel i s := by
  induction fuel generalizing i s with
  | zero =>
    have hlt : ¬ i < n := by omega
    simp [rmSyncLoop, jsLt, hn, hlt]
  | succ k ih =>
    rw [rmSyncLoop]
    conv_rhs => rw [rmSyncLoop]
    by_cases hlt : jsLt i (Obj.lookup options "maxRetries") = true
    · simp only [hlt, if_true]
      rcases hcall : bRmSync path (Obj.lookup options "recursive")
        (Obj.lookup options "force") s with ⟨r, s1⟩
      cases r with
      | ok _ => rfl
      | error err =>
        simp only []
        by_cases hp : jsIsPred i (Obj.lookup options "maxRetries") = true
        · simp [hp]
        · simp only [hp]
          rw [ih (i + 1) s1 (by push_cast at hfuel ⊢; omega)]
    · simp [hlt]

/-- With the default options `rmSync` returns normally without calling
`binding.rmSync` at all, for every binding and every host state: the loop
`for (let i = 0; i < 0; i++)` has no turn. -/
theorem rmSync_default_skips_binding {σ : Type}
    (getValidatedPath : String → Except JSError String)
    (bRmSync : String → JSVal → JSVal → Prim σ Unit) (path valid : String) (s : σ)
    (hvalid : getValidatedPath path = .ok valid) :
    rmSync getValidatedPath bRmSync path rmDefaults s = (.ok (), s) := by
  have h : turnsBelow (Obj.lookup (applyDefaults rmDefaults rmDefaults) "maxRetries") = 0 := by
    decide
  simp [rmSync, hvalid, h, rmSyncLoop]

/-- C2, the failing case. With `maxRetries: 2` and a `binding.rmSync` that
fails twice and would succeed on the third call, `rmSync` raises the error of
the second call after two calls; the third call is never made. -/
theorem rmSync_two_retries_raises :
    rmSync acceptPath scriptedRm "a" [("maxRetries", .num 2)]
        { script := [some "busy 1", some "busy 2", none], calls := [] } =
      (.error (mkError "busy 2"), { script := [none], calls := ["a", "a"] }) :=
  rfl

/-- C3, the failing case. With `maxRetries: 0` and a `binding.rmSync` that
fails on every call, `rmSync` returns normally and raises nothing: the binding
is not called. -/
theorem rmSync_zero_retries_raises_nothing :
    rmSync acceptPath scriptedRm "a" [("maxRetries", .num 0)]
        { script := [some "busy 1", some "busy 2"], calls := [] } =
      (.ok (), { script := [some "busy 1", some "busy 2"], calls := [] }) :=
  rfl

/-- C4, the failing case. `rmSync(path)` and `unlinkSync(path)` with default
options make no call of `binding.rmSync` (the call log stays empty), whether
the call would have removed the entry or failed. -/
theorem rmSync_default_makes_no_call :
    rmSync acceptPath scriptedRm "a" rmDefaults { script := [none], calls := [] } =
      (.ok (), { script := [none], calls := [] }) ∧
    unlinkSync acceptPath scriptedRm "a" { script := [none], calls := [] } =
      (.ok (), { script := [none], calls := [] }) ∧
    rmSync acceptPath scriptedRm "a" rmDefaults { script := [some "busy"], calls := [] } =
      (.ok (), { script := [some "busy"], calls := [] }) ∧
    unlinkSync acceptPath scriptedRm "a" { script := [some "busy"], calls := [] } =
      (.ok (), { script := [some "busy"], calls := [] }) :=
  ⟨rfl, rfl, rfl, rfl⟩

theorem rmDefaults_maxRetries (options : Obj) (n : Int)
    (hn : Obj.lookup options "maxRetries" = .num n) :
    Obj.lookup (applyDefaults options rmDefaults) "maxRetries" = .num n := by
  rw [applyDefaults_lookup options rmDefaults (by decide) "maxRetries" (by decide), hn]
  simp

/-- The loop of `rmSync` on the scripted binding when the calls that are left
all fail: it raises the message of the last of them. -/
theorem rmSyncLoop_all_fail (path : String) (options : Obj) (n : Int)
    (hn : Obj.lookup options "maxRetries" = .num n) (m : String) (rest : List (Option String))
    (msgs : List String) (i : Int) (calls : List String)
    (hi : i + msgs.length + 1 = n) :
    rmSyncLoop scriptedRm path options (msgs.length + 1) i
        { script := (msgs ++ [m]).map some ++ rest, calls := calls } =
      (.error (mkError m),
        { script := rest, calls := calls ++ List.replicate (msgs.length + 1) path }) := by
  induction msgs generalizing i calls with
  | nil =>
    have h1 : i < n := by simp at hi; omega
    have h2 : i = n - 1 := by simp at hi; omega
    simp [rmSyncLoop, jsLt, jsIsPred, hn, JSVal.toNumber, h1, scriptedRm]
    exact h2
  | cons m0 ms ih =>
    have h1 : i < n := by simp at hi; omega
    have h2 : ¬ i = n - 1 := by simp at hi; omega
    have h3 : (i + 1) + ms.length + 1 = n := by simp at hi; omega
    rw [List.length_cons, rmSyncLoop]
    simp only [jsLt, jsIsPred, hn, JSVal.toNumber, h1, h2, decide_True, decide_False,
      if_true, scriptedRm, List.cons_append, List.map_cons]
    simp only [Bool.false_eq_true, if_false]
    rw [ih (i + 1) (calls ++ [path]) h3]
    simp [List.replicate_succ, List.append_assoc]

/-- The loop of `rmSync` on the scripted binding when fewer calls fail than
there are turns left: it returns normally after the first call that succeeds. -/
theorem rmSyncLoop_success (path : String) (options : Obj) (n : Int)
    (hn : Obj.lookup options "maxRetries" = .num n) (rest : List (Option String))
    (msgs : List String) (fuel : Nat) (i : Int) (calls : List String)
    (hi : i + msgs.length < n) (hfuel : msgs.length < fuel) :
    rmSyncLoop scriptedRm path options fuel i
        { script := msgs.map some ++ none :: rest, calls := calls } =
      (.ok (), { script := rest, calls := calls ++ List.replicate (msgs.length + 1) path }) := by
  induction msgs generalizing i calls fuel with
  | nil =>
    obtain ⟨f, rfl⟩ : ∃ f, fuel = f + 1 := ⟨fuel - 1, by simp at hfuel; omega⟩
    have h1 : i < n := by simpa using hi
    simp [rmSyncLoop, jsLt, hn, JSVal.toNumber, h1, scriptedRm]
  | cons m0 ms ih =>
    obtain ⟨f, rfl⟩ : ∃ f, fuel = f + 1 := ⟨fuel - 1, by simp at hfuel; omega⟩
    have h1 : i < n := by simp at hi; omega
    have h2 : ¬ i = n - 1 := by simp at hi; omega
    have h3 : (i + 1) + ms.length < n := by simp at hi; omega
    have h4 : ms.length < f := by simp at hfuel; omega
    rw [rmSyncLoop]
    simp only [jsLt, jsIsPred, hn, JSVal.toNumber, h1, h2, decide_True, decide_False,
      if_true, scriptedRm, List.cons_append, List.map_cons]
    simp only [Bool.false_eq_true, if_false]
    rw [ih f (i + 1) (calls ++ [path]) h3 h4]
    simp [List.replicate_succ, List.append_assoc]

/-- What `rmSync` does for `maxRetries = n ≥ 1` when the first `n` calls of the
binding fail: it makes exactly `n` calls and raises the message of the last. -/
theorem rmSync_all_fail (path : String) (options : Obj) (m : String)
    (rest : List (Option String)) (msgs : List String) (calls : List String)
    (hn : Obj.lookup options "maxRetries" = .num (msgs.length + 1)) :
    rmSync acceptPath scriptedRm path options
        { script := (msgs ++ [m]).map some ++ rest, calls := calls } =
      (.error (mkError m),
        { script := rest, calls := calls ++ List.replicate (msgs.length + 1) path }) := by
  have h := rmDefaults_maxRetries options _ hn
  have ht : turnsBelow (Obj.lookup (applyDefaults options rmDefaults) "maxRetries") =
      msgs.length + 1 := by
    rw [h]; simp [turnsBelow, JSVal.toNumber]
  simp only [rmSync, acceptPath, ht]
  exact rmSyncLoop_all_fail path _ _ h m rest msgs 0 calls (by simp)

/-- What `rmSync` does for `maxRetries = n` when fewer than `n` calls of the
binding fail before one succeeds: it returns normally after that call. -/
theorem rmSync_success_within (path : String) (options : Obj) (n : Nat)
    (rest : List (Option String)) (msgs : List String) (calls : List String)
    (hn : Obj.lookup options "maxRetries" = .num n) (hlt : msgs.length < n) :
    rmSync acceptPath scriptedRm path options
        { script := msgs.map some ++ none :: rest, calls := calls } =
      (.ok (), { script := rest, calls := calls ++ List.replicate (msgs.length + 1) path }) := by
  have h := rmDefaults_maxRetries options _ hn
  have ht : turnsBelow (Obj.lookup (applyDefaults options rmDefaults) "maxRetries") = n := by
    rw [h]; simp [turnsBelow, JSVal.toNumber]
  simp only [rmSync, acceptPath, ht]
  exact rmSyncLoop_success path _ _ h rest msgs n 0 calls (by simpa using hlt) hlt

/-! ## Directory cursor -/

/-- C1, the failing case. The binding delivers a first page that holds only
`"."` and `".."` with `fin = false`, then a page with the file `"a"` and
`fin = true`. The first `readSync` throws a `TypeError`, so does every later
one, the binding is called once only (with cookie 0), and `"a"` is never
returned. -/
theorem readSync_throws_after_dot_page :
    Dir.readSyncTimes scriptedReaddir 3 demoDir dotPageFirst =
      ([.error typeErrorReadUndefined, .error typeErrorReadUndefined,
        .error typeErrorReadUndefined],
       { fd := 3, path := "d", dataBuf := [], idx := 3, fin := false, cookie := 1 },
       { pages := [{ res := [⟨"a", 4⟩], fin := true, cookie := 2 }], calls := [(3, 0)] }) :=
  rfl

/-- When both pages hold a file the cursor works: three reads return `"a"`,
`"b"` and `null`, and the second call of the binding gets the cookie of the
first page. -/
theorem readSync_two_full_pages :
    Dir.readSyncTimes scriptedReaddir 3 demoDir twoFullPages =
      ([.ok (some { filetype := 4, name := "a" }), .ok (some { filetype := 3, name := "b" }),
        .ok none],
       { fd := 3, path := "d", dataBuf := [⟨"a", 4⟩, ⟨"b", 3⟩], idx := 2, fin := true,
         cookie := 2 },
       { pages := [], calls := [(3, 0), (3, 1)] }) :=
  rfl

/-- A read from a cursor whose buffer still holds an entry at the read index
returns that entry, advances the index and does not call the binding. -/
theorem Dir.readSync_buffered {σ : Type} (f : Int → Nat → Prim σ Page) (d : Dir) (s : σ)
    (e : RawEntry) (he : d.dataBuf.get? d.idx = some e) :
    Dir.readSync f d s = (.ok (some (Dirent.new e)), { d with idx := d.idx + 1 }, s) := by
  have hlt : d.idx < d.dataBuf.length := by
    rcases List.get?_eq_some.mp he with ⟨h, _⟩
    exact h
  have hne : d.idx ≠ d.dataBuf.length := Nat.ne_of_lt hlt
  have hb : (d.idx == d.dataBuf.length) = false := by simp [hne]
  have hnext : d.hasNext = true := by simp [Dir.hasNext, hb]
  simp only [Dir.readSync, Dir.fetch, hne, false_and, if_false, hnext, he]

/-- A read from a drained cursor whose finished flag is set returns `null`
and does not call the binding. -/
theorem Dir.readSync_finished {σ : Type} (f : Int → Nat → Prim σ Page) (d : Dir) (s : σ)
    (hidx : d.idx = d.dataBuf.length) (hfin : d.fin = true) :
    Dir.readSync f d s = (.ok none, d, s) := by
  have hnext : d.hasNext = false := by simp [Dir.hasNext, hidx, hfin]
  simp only [Dir.readSync, Dir.fetch, hfin, Bool.true_eq_false, and_false, if_false, hnext]

theorem Dir.outcomes_succ {σ : Type} (f : Int → Nat → Prim σ Page) (n : Nat) (d : Dir)
    (s : σ) :
    Dir.outcomes f (n + 1) d s =
      (Dir.readSync f d s).1 ::
        Dir.outcomes f n (Dir.readSync f d s).2.1 (Dir.readSync f d s).2.2 := rfl

/-- Reads from a cursor that has `k` buffered entries left return these `k`
entries in order without calling the binding. -/
theorem Dir.outcomes_drain {σ : Type} (f : Int → Nat → Prim σ Page) (k n : Nat) (d : Dir)
    (s : σ) (hk : d.idx + k = d.dataBuf.length) :
    Dir.outcomes f (k + n) d s =
      (d.dataBuf.drop d.idx).map (fun e => .ok (some (Dirent.new e))) ++
        Dir.outcomes f n { d with idx := d.dataBuf.length } s := by
  induction k generalizing d with
  | zero =>
    have hidx : d.idx = d.dataBuf.length := by simpa using hk
    have hd : ({ d with idx := d.dataBuf.length } : Dir) = d := by
      cases d; simp_all
    rw [hd, hidx]
    simp
  | succ k ih =>
    have hlt : d.idx < d.dataBuf.length := by omega
    have he : d.dataBuf.get? d.idx = some (d.dataBuf.get ⟨d.idx, hlt⟩) :=
      List.get?_eq_get hlt
    have hstep := Dir.readSync_buffered f d s _ he
    have harith : k + 1 + n = (k + n) + 1 := by omega
    rw [harith, Dir.outcomes_succ, hstep]
    simp only []
    rw [ih { d with idx := d.idx + 1 } (by simp; omega)]
    have hdrop : d.dataBuf.drop d.idx =
        d.dataBuf.get ⟨d.idx, hlt⟩ :: d.dataBuf.drop (d.idx + 1) :=
      List.drop_eq_getElem_cons hlt
    rw [hdrop]
    simp only [List.map_cons, List.cons_append]

/-- A read that has to refill, from a binding whose next page either holds an
entry other than `"."` and `".."` or is the last one, is a read from the
refilled cursor. -/
theorem Dir.readSync_refill (d : Dir) (p : Page) (rest : List Page) (calls : List (Int × Nat))
    (hidx : d.idx = d.dataBuf.length) (hfin : d.fin = false)
    (hp : p.res.filter notDot ≠ [] ∨ p.fin = true) :
    Dir.readSync scriptedReaddir d { pages := p :: rest, calls := calls } =
      Dir.readSync scriptedReaddir
        { d with dataBuf := d.dataBuf ++ p.res.filter notDot, fin := p.fin, cookie := p.cookie }
        { pages := rest, calls := calls ++ [(d.fd, d.cookie)] } := by
  have hcond : ¬ (d.idx = (d.dataBuf ++ p.res.filter notDot).length ∧ p.fin = false) := by
    rintro ⟨h1, h2⟩
    rcases hp with h | h
    · have : (p.res.filter notDot).length = 0 := by
        rw [List.length_append] at h1; omega
      exact h (List.length_eq_zero.mp this)
    · rw [h] at h2; exact Bool.noConfusion h2
  simp only [Dir.readSync, Dir.fetch, hidx, hfin, and_self, if_true, scriptedReaddir]
  rw [if_neg (by simpa [hidx] using hcond)]

/-- What the cursor does on a well-paged listing, from any drained cursor
whose finished flag is unset: the reads return the entries of the pages, in
order, without `"."` and `".."`, and then `null`. -/
theorem Dir.outcomes_wellPaged (pages : List Page) (hw : wellPaged pages) (d : Dir)
    (calls : List (Int × Nat)) (hidx : d.idx = d.dataBuf.length) (hfin : d.fin = false) :
    Dir.outcomes scriptedReaddir ((listing pages).length + 1) d
        { pages := pages, calls := calls } =
      (listing pages).map (fun e => .ok (some e)) ++ [.ok none] := by
  induction pages generalizing d calls with
  | nil => exact absurd hw (by simp [wellPaged])
  | cons p rest ih =>
    have hp : p.res.filter notDot ≠ [] ∨ p.fin = true := by
      cases rest with
      | nil => exact Or.inr (by simpa [wellPaged] using hw)
      | cons q rest2 => exact Or.inl (by simp only [wellPaged] at hw; exact hw.2.1)
    have hrefill := Dir.readSync_refill d p rest calls hidx hfin hp
    have hstart : Dir.outcomes scriptedReaddir ((listing (p :: rest)).length + 1) d
          { pages := p :: rest, calls := calls } =
        Dir.outcomes scriptedReaddir ((listing (p :: rest)).length + 1)
          { d with dataBuf := d.dataBuf ++ p.res.filter notDot, fin := p.fin,
                   cookie := p.cookie }
          { pages := rest, calls := calls ++ [(d.fd, d.cookie)] } := by
      rw [Dir.outcomes_succ, Dir.outcomes_succ, hrefill]
    rw [hstart]
    have hlen : (listing (p :: rest)).length + 1 =
        (p.res.filter notDot).length + ((listing rest).length + 1) := by
      simp [listing]; omega
    rw [hlen, Dir.outcomes_drain scriptedReaddir (p.res.filter notDot).length _ _ _
      (by simp [hidx])]
    have hdrop : (d.dataBuf ++ p.res.filter notDot).drop d.idx = p.res.filter notDot := by
      rw [hidx]; simp
    simp only [hdrop]
    cases rest with
    | nil =>
      have hpfin : p.fin = true := by simpa [wellPaged] using hw
      have hend := Dir.readSync_finished scriptedReaddir
        { d with dataBuf := d.dataBuf ++ p.res.filter notDot, fin := p.fin,
                 cookie := p.cookie, idx := (d.dataBuf ++ p.res.filter notDot).length }
        { pages := [], calls := calls ++ [(d.fd, d.cookie)] } rfl hpfin
      simp only [listing, List.length_nil, Nat.zero_add, List.append_nil]
      rw [Dir.outcomes_succ, hend]
      simp [Dir.outcomes, Dir.readSyncTimes, List.map_map, Function.comp]
    | cons q rest2 =>
      have hw2 : wellPaged (q :: rest2) := by simp only [wellPaged] at hw; exact hw.2.2
      have hpfin : p.fin = false := by simp only [wellPaged] at hw; exact hw.1
      rw [ih hw2 _ _ rfl hpfin]
      simp [listing, List.map_map, Function.comp]

/-- What `Dir.readSync` does on a well-paged listing (every page but the last
has `fin = false` and holds an entry other than `"."` and `".."`, the last has
`fin = true`): from a new cursor, repeated reads never throw and return the
entries of the pages in order without `"."` and `".."`, each as a `Dirent`
with the same name and filetype, and then `null`. -/
theorem Dir.readSync_wellPaged (fd : Int) (path : String) (pages : List Page)
    (hw : wellPaged pages) :
    Dir.outcomes scriptedReaddir ((listing pages).length + 1) (Dir.new fd path)
        { pages := pages, calls := [] } =
      (listing pages).map (fun e => .ok (some e)) ++ [.ok none] :=
  Dir.outcomes_wellPaged pages hw (Dir.new fd path) [] rfl rfl

/-! ## Option defaulting and unlisted keys -/

/-- C11, the counterexample. The caller object of `demoStore` has the key
`"z"` with value 9 and the default record has no key `"z"`; the record
`applyDefaultValue` returns does not hold the caller's value under `"z"`. -/
theorem applyDefaultValue_drops_unlisted_key :
    "z" ∈ Obj.keys (Heap.read demoStore 0) ∧ "z" ∉ Obj.keys (Heap.read demoStore 1) ∧
    ¬ (Obj.lookup (Heap.read (applyDefaultValue demoStore 0 1).2
        (applyDefaultValue demoStore 0 1).1) "z" = Obj.lookup (Heap.read demoStore 0) "z") := by
  decide

/-- C11 as amended. For every caller object `o` and default record `d`, a key
`k` that is not a key of `d` is not a property of the record
`applyDefaultValue(o, d)` returns, whatever `o` holds under `k`: reading it
gives `undefined`. -/
theorem applyDefaultValue_unlisted_key (h : Heap) (o d : Nat) (ho : o < h.length)
    (hwf : Obj.WF (Heap.read h d)) (k : String) (hk : k ∉ Obj.keys (Heap.read h d)) :
    Obj.lookup (Heap.read (applyDefaultValue h o d).2 (applyDefaultValue h o d).1) k =
      .undefined := by
  by_cases hd : d < h.length
  · have hdr : Heap.read (h ++ [[]]) d = Heap.read h d := Heap.read_append_lt h [] d hd
    obtain ⟨_, _, _, i4⟩ := applyDefaultValue_loop o h.length (Nat.ne_of_lt ho)
      (Heap.read h d) hwf (h ++ [[]]) (by simp)
    simp only [applyDefaultValue, Heap.alloc, hdr]
    rw [i4 k hk, Heap.read_append_length]
    rfl
  · have hdr : Heap.read (h ++ [[]]) d = [] := by
      simp only [Heap.read, List.getD_eq_getElem?_getD]
      rcases Nat.lt_or_ge d (h.length + 1) with hlt | hge
      · have : d = h.length := by omega
        subst this
        simp
      · rw [List.getElem?_eq_none (by simpa using hge)]
        rfl
    simp only [applyDefaultValue, Heap.alloc, hdr, List.foldl_nil, Heap.read_append_length]
    rfl

/-- C11 as amended, at `demoStore`: the unlisted key `"z"` reads `undefined`
in the returned record. -/
theorem applyDefaultValue_unlisted_key_witness :
    Obj.WF (Heap.read demoStore 1) ∧ "z" ∉ Obj.keys (Heap.read demoStore 1) ∧
    Obj.lookup (Heap.read (applyDefaultValue demoStore 0 1).2
      (applyDefaultValue demoStore 0 1).1) "z" = .undefined :=
  ⟨by decide, by decide,
    applyDefaultValue_unlisted_key demoStore 0 1 (by decide) (by decide) "z" (by decide)⟩

/-! ## `accessSync` -/

theorem toInt32_zero : toInt32 0 = 0 := by decide

theorem bitAndNat_zero (k a : Nat) : bitAndNat k a 0 = 0 := by
  induction k generalizing a with
  | zero => rfl
  | succ k ih => simp [bitAndNat, ih]

theorem jsBitAnd_zero (a : Int) : jsBitAnd a 0 = 0 := by
  have h : bitAndNat 32 (a % 4294967296).toNat 0 = 0 := bitAndNat_zero _ _
  simp [jsBitAnd, h, toInt32_zero]

/-- With the options `{ throwIfNoEntry: true }` the value `statSync` returns
is a `Stats`. -/
theorem statSync_throwing_returns_stats {σ : Type}
    (getValidatedPath : String → Except JSError String)
    (bStatSync : String → Prim σ RawStat) (path : String) (s s1 : σ) (r : StatResult)
    (hr : statSync getValidatedPath bStatSync path [("throwIfNoEntry", .bool true)] s =
      (.ok r, s1)) :
    ∃ st : Stats, r = .stats st := by
  have hopt : Obj.lookup (applyDefaults [("throwIfNoEntry", .bool true)] statDefaults)
      "throwIfNoEntry" = .bool true := by
    rw [statDefaults_throwIfNoEntry]
    simp [Obj.lookup]
  have hbig : Obj.lookup (applyDefaults [("throwIfNoEntry", .bool true)] statDefaults)
      "bigint" = .bool false := by
    rw [applyDefaults_lookup _ statDefaults (by decide) "bigint" (by decide)]
    simp [Obj.lookup, statDefaults]
  unfold statSync at hr
  cases hv : getValidatedPath path with
  | error e => simp [hv] at hr
  | ok valid =>
    simp only [hv, tryStat] at hr
    rcases hcall : bStatSync valid s with ⟨res, s2⟩
    rw [hcall] at hr
    cases res with
    | error err =>
      simp only [hopt] at hr
      simp at hr
    | ok raw =>
      simp only [makeStats, hbig] at hr
      simp at hr
      exact ⟨Stats.new raw, hr.1.symm⟩

theorem bitsPresent_iff (a m : Int) : bitsPresent a m = true ↔ jsBitAnd a m = m := by
  simp [bitsPresent]

/-- The body of `accessSync` once the path and the mode are validated. -/
theorem accessSync_validated {σ : Type} (h : Host σ) (path valid : String) (mode : JSVal)
    (m : Int) (s : σ) (hvalid : h.getValidatedPath path = .ok valid)
    (hmode : h.getValidMode (if mode = .undefined then .num h.F_OK else mode) = .ok m) :
    accessSync h path mode s =
      (accessCheck h valid m
          (statSync h.getValidatedPath h.statSync valid [("throwIfNoEntry", .bool true)] s).1,
        (statSync h.getValidatedPath h.statSync valid [("throwIfNoEntry", .bool true)] s).2) := by
  unfold accessSync
  rw [hvalid]
  simp only []
  rw [hmode]

/-- On a `Stats` the check of `accessSync` returns exactly when the bits of
the mode are present, and raises its one error otherwise. -/
theorem accessCheck_stats {σ : Type} (h : Host σ) (path : String) (m : Int) (st : Stats) :
    (accessCheck h path m (.ok (.stats st)) = .ok () ↔ jsBitAnd st.mode.toInt m = m) ∧
    (accessCheck h path m (.ok (.stats st)) = .ok () ∨
      accessCheck h path m (.ok (.stats st)) = .error (accessError h path)) := by
  rw [← bitsPresent_iff]
  cases hb : bitsPresent st.mode.toInt m with
  | true =>
    have hc : accessCheck h path m (.ok (.stats st)) = .ok () := by
      simp only [accessCheck, modeAllows, hb]
    rw [hc]
    exact ⟨by simp, Or.inl rfl⟩
  | false =>
    have hc : accessCheck h path m (.ok (.stats st)) = .error (accessError h path) := by
      simp only [accessCheck, modeAllows, hb]
    rw [hc]
    refine ⟨?_, Or.inr rfl⟩
    constructor
    · intro hcon; cases hcon
    · intro hcon; cases hcon

/-- C12. For a valid path and a valid access mode `m`, `accessSync(path, m)`
returns normally exactly when `statSync` on the path returns a snapshot whose
`mode` satisfies `(mode & m) === m`; with `m = 0` (the default `F_OK`) that is
whenever `statSync` returns. In every other case it raises the error with
code `"ENOENT"`, syscall `"access"`, the path and errno `UV_ENOENT`; no error
with another code, such as `"EACCES"`, leaves the call. -/
theorem accessSync_spec {σ : Type} (h : Host σ) (path valid : String) (mode : JSVal) (m : Int)
    (s : σ) (hvalid : h.getValidatedPath path = .ok valid)
    (hmode : h.getValidMode (if mode = .undefined then .num h.F_OK else mode) = .ok m) :
    ((accessSync h path mode s).1 = .ok () ↔
      ∃ st : Stats,
        (statSync h.getValidatedPath h.statSync valid [("throwIfNoEntry", .bool true)] s).1 =
          .ok (.stats st) ∧ jsBitAnd st.mode.toInt m = m) ∧
    (m = 0 →
      ((accessSync h path mode s).1 = .ok () ↔
        ∃ r : StatResult,
          (statSync h.getValidatedPath h.statSync valid [("throwIfNoEntry", .bool true)] s).1 =
            .ok r)) ∧
    ((accessSync h path mode s).1 = .ok () ∨
      (accessSync h path mode s).1 = .error (accessError h valid)) ∧
    ((accessError h valid).code = .str "ENOENT" ∧ (accessError h valid).syscall = .str "access" ∧
      (accessError h valid).path = .str valid ∧
      (accessError h valid).errno = .num h.UV_ENOENT) := by
  rw [accessSync_validated h path valid mode m s hvalid hmode]
  rcases hr : statSync h.getValidatedPath h.statSync valid [("throwIfNoEntry", .bool true)] s
    with ⟨res, s1⟩
  cases res with
  | error e =>
    refine ⟨?_, ?_, Or.inr rfl, ⟨rfl, rfl, rfl, rfl⟩⟩
    · constructor
      · intro hc; cases hc
      · rintro ⟨st, h1, _⟩; cases h1
    · intro _
      constructor
      · intro hc; cases hc
      · rintro ⟨r, h1⟩; cases h1
  | ok r =>
    obtain ⟨st, rfl⟩ := statSync_throwing_returns_stats _ _ _ _ _ _ hr
    obtain ⟨hiff, hor⟩ := accessCheck_stats h valid m st
    dsimp only
    refine ⟨?_, ?_, hor, ⟨rfl, rfl, rfl, rfl⟩⟩
    · constructor
      · intro hc
        exact ⟨st, rfl, hiff.mp hc⟩
      · rintro ⟨st2, h1, h2⟩
        have hst : st = st2 := by
          simp only [Except.ok.injEq, StatResult.stats.injEq] at h1
          exact h1
        subst hst
        exact hiff.mpr h2
    · intro hm
      subst hm
      constructor
      · intro _
        exact ⟨_, rfl⟩
      · intro _
        exact hiff.mpr (jsBitAnd_zero _)

/-! ## `mkdirSync` -/

/-- The outcome of `mkdirSync` when its arguments are valid and
`binding.mkdirSync` raises `err`: the error of the `catch` block. -/
theorem mkdirSync_of_failure {σ : Type} (h : Host σ) (path valid : String)
    (options : OptionsArg) (err : JSError) (s s2 : σ)
    (hvalid : h.getValidatedPath path = .ok valid)
    (hbool : h.validateBoolean
      (Obj.lookup (applyDefaults (mkdirOptions h options) mkdirDefaults) "recursive") = .ok ())
    (hfail : h.mkdirSync valid
      (Obj.lookup (applyDefaults (mkdirOptions h options) mkdirDefaults) "recursive")
      (Obj.lookup (applyDefaults (mkdirOptions h options) mkdirDefaults) "mode")
      (mkdirProbe h (splitSlash valid) "" s).2.2 = (.error err, s2)) :
    mkdirSync h path options s = (.error (mkdirError valid err), s2) := by
  unfold mkdirSync
  rw [hvalid]
  simp only []
  rw [hbool]
  simp only []
  rw [hfail]

/-- C14. When `binding.mkdirSync` fails with native code 20, `mkdirSync`
raises an error with code `"EEXIST"`, the path and syscall `"mkdir"`; when it
fails with native code 54 (a code that `== 54`), it raises an error with code
`"ENOTDIR"`, the path and syscall `"mkdir"`; for every other native failure it
raises an error with the native message and the native code unchanged. -/
theorem mkdirSync_error_codes {σ : Type} (h : Host σ) (path valid : String)
    (options : OptionsArg) (err : JSError) (s s2 : σ)
    (hvalid : h.getValidatedPath path = .ok valid)
    (hbool : h.validateBoolean
      (Obj.lookup (applyDefaults (mkdirOptions h options) mkdirDefaults) "recursive") = .ok ())
    (hfail : h.mkdirSync valid
      (Obj.lookup (applyDefaults (mkdirOptions h options) mkdirDefaults) "recursive")
      (Obj.lookup (applyDefaults (mkdirOptions h options) mkdirDefaults) "mode")
      (mkdirProbe h (splitSlash valid) "" s).2.2 = (.error err, s2)) :
    (err.code = .num 20 →
      mkdirSync h path options s =
        (.error { message := "EEXIST: file already exists, mkdir", code := .str "EEXIST",
                  path := .str valid, syscall := .str "mkdir" }, s2)) ∧
    (err.code = .num 54 →
      mkdirSync h path options s =
        (.error { message := "ENOTDIR: not a directory, mkdir", code := .str "ENOTDIR",
                  path := .str valid, syscall := .str "mkdir" }, s2)) ∧
    (err.code ≠ .num 20 → jsLooseEqNum err.code 54 = true →
      mkdirSync h path options s =
        (.error { message := "ENOTDIR: not a directory, mkdir", code := .str "ENOTDIR",
                  path := .str valid, syscall := .str "mkdir" }, s2)) ∧
    (err.code ≠ .num 20 → jsLooseEqNum err.code 54 = false →
      mkdirSync h path options s =
        (.error { message := err.message, code := err.code }, s2)) := by
  rw [mkdirSync_of_failure h path valid options err s s2 hvalid hbool hfail]
  refine ⟨?_, ?_, ?_, ?_⟩
  · intro hc
    simp [mkdirError, hc]
  · intro hc
    simp [mkdirError, hc, jsLooseEqNum, JSVal.toNumber]
  · intro h20 h54
    simp [mkdirError, h20, h54]
  · intro h20 h54
    simp [mkdirError, h20, h54]

/-! ## `copyFileSync` -/

/-- An error of the call of `binding.copyFileSync` reaches the caller as
`new Error(err.message)`, which has no `code`. -/
theorem copyFileCall_code {σ : Type} (h : Host σ) (src dest : String) (s : σ) (e : JSError)
    (he : (copyFileCall h src dest s).1 = .error e) : e.code = .undefined := by
  unfold copyFileCall at he
  rcases hcall : h.copyFileSync src dest s with ⟨r, s1⟩
  rw [hcall] at he
  cases r with
  | ok _ => cases he
  | error err =>
    simp only [Except.error.injEq] at he
    rw [← he]
    rfl

/-- For a mode in `0 .. 7` the test `mode & (COPYFILE_EXCL === COPYFILE_EXCL)`
of `copyFileSync` is non-zero exactly when the bit `COPYFILE_EXCL = 1` is set
in the mode. -/
theorem exclusive_test (mode : Int) (h0 : 0 ≤ mode) (h7 : mode ≤ 7) :
    jsBitAnd mode 1 ≠ 0 ↔ jsBitAnd mode 1 = 1 := by
  interval_cases mode <;> decide

/-- C15. For valid `src` and `dest`, a mode in `0 .. 7` and
`COPYFILE_EXCL = 1`: when the `COPYFILE_EXCL` bit is set in the mode and the
destination exists, `copyFileSync` raises the error with code `"EEXIST"` and
the host state is the one `existsSync` left, so `binding.copyFileSync` was not
invoked; in every other case the outcome is that of one call of
`binding.copyFileSync(src, dest)`, whose errors carry no code; hence the
`"EEXIST"` error is raised if and only if the bit is set and the destination
exists. -/
theorem copyFileSync_exclusive {σ : Type} (h : Host σ) (src dest vsrc vdest : String)
    (mode : Int) (s : σ)
    (hsrc : h.getValidatedPath src = .ok vsrc) (hdest : h.getValidatedPath dest = .ok vdest)
    (hmode : h.validateIntegerIn (.num mode) 0 7 = .ok ())
    (h0 : 0 ≤ mode) (h7 : mode ≤ 7) (hexcl : h.COPYFILE_EXCL = 1) :
    (jsBitAnd mode h.COPYFILE_EXCL = h.COPYFILE_EXCL → (existsSync h vdest s).1 = true →
      copyFileSync h src dest mode s =
        (.error (copyExistsError h vsrc vdest), (existsSync h vdest s).2)) ∧
    (jsBitAnd mode h.COPYFILE_EXCL = h.COPYFILE_EXCL → (existsSync h vdest s).1 = false →
      copyFileSync h src dest mode s = copyFileCall h vsrc vdest (existsSync h vdest s).2) ∧
    (jsBitAnd mode h.COPYFILE_EXCL ≠ h.COPYFILE_EXCL →
      copyFileSync h src dest mode s = copyFileCall h vsrc vdest s) ∧
    ((copyFileSync h src dest mode s).1 = .error (copyExistsError h vsrc vdest) ↔
      (jsBitAnd mode h.COPYFILE_EXCL = h.COPYFILE_EXCL ∧ (existsSync h vdest s).1 = true)) := by
  rw [hexcl]
  have hbody : copyFileSync h src dest mode s =
      if jsBitAnd mode 1 ≠ 0 then
        match existsSync h vdest s with
        | (true, s1) => (.error (copyExistsError h vsrc vdest), s1)
        | (false, s1) => copyFileCall h vsrc vdest s1
      else copyFileCall h vsrc vdest s := by
    unfold copyFileSync
    rw [hsrc]
    simp only []
    rw [hdest]
    simp only []
    rw [hmode]
    simp only [if_true]
  have hcode : (copyExistsError h vsrc vdest).code ≠ .undefined := by
    simp [copyExistsError]
  have hno : ∀ s1 : σ,
      (copyFileCall h vsrc vdest s1).1 ≠ .error (copyExistsError h vsrc vdest) :=
    fun s1 he => hcode (copyFileCall_code h vsrc vdest s1 _ he)
  rw [hbody]
  by_cases hbit : jsBitAnd mode 1 = 1
  · have hne : jsBitAnd mode 1 ≠ 0 := (exclusive_test mode h0 h7).mpr hbit
    rw [if_pos hne]
    rcases hex : existsSync h vdest s with ⟨b, s1⟩
    cases b with
    | true =>
      dsimp only
      refine ⟨fun _ _ => rfl, ?_, fun hn => absurd hbit hn, ?_⟩
      · intro _ hb
        exact absurd hb (by simp)
      · exact ⟨fun _ => ⟨hbit, rfl⟩, fun _ => rfl⟩
    | false =>
      dsimp only
      refine ⟨?_, fun _ _ => rfl, fun hn => absurd hbit hn, ?_⟩
      · intro _ hb
        exact absurd hb (by simp)
      · constructor
        · intro he
          exact absurd he (hno s1)
        · rintro ⟨_, hb⟩
          exact absurd hb (by simp)
  · have hne : ¬ jsBitAnd mode 1 ≠ 0 := fun hn => hbit ((exclusive_test mode h0 h7).mp hn)
    rw [if_neg hne]
    refine ⟨fun hb => absurd hb hbit, fun hb => absurd hb hbit, fun _ => rfl, ?_⟩
    constructor
    · intro he
      exact absurd he (hno s)
    · rintro ⟨hb, _⟩
      exact absurd hb hbit

/-! ## Concrete runs on the in-memory host -/

/-- C12 on the in-memory host: `accessSync("README.md")` with the default mode
returns, and the call on a missing path raises the `ENOENT` error. -/
theorem accessSync_spec_witness :
    (accessSync memHost "README.md" .undefined memStart).1 = .ok () ∧
    (accessSync memHost "missing" .undefined memStart).1 =
      .error (accessError memHost "missing") :=
  have t := accessSync_spec memHost "README.md" "README.md" .undefined 0 memStart rfl rfl
  have u := accessSync_spec memHost "missing" "missing" .undefined 0 memStart rfl rfl
  ⟨(t.2.1 rfl).mpr ⟨_, rfl⟩,
    u.2.2.1.resolve_left (fun hc => by
      have hx := (u.2.1 rfl).mp hc
      obtain ⟨r, hr⟩ := hx
      exact nomatch hr)⟩

/-- C13, the failing case. `mkdirSync("/a/b", { recursive: true })` on a file
system in which neither `"/a"` nor the relative `"a"` exists returns the
relative path `"a"`, not `"/a"`: the loop probes `"."` and `"a"`, because
`pathJoin("", "")` is `"."` and `pathJoin(".", "a")` is `"a"`. When the
relative directories `"a"` and `"a/b"` exist it returns `undefined`, although
`"/a"` and `"/a/b"` did not exist before the call. -/
theorem mkdirSync_absolute_path_probes_relative :
    (mkdirSync memHost "/a/b" (.obj [("recursive", .bool true)]) memStart).1 =
      .ok (.str "a") ∧
    (mkdirSync memHost "/a/b" (.obj [("recursive", .bool true)]) memStart).2.log =
      [.stat ".", .stat "a", .mkdir "/a/b"] ∧
    memLookup memWithRelative "/a" = .error memNoEnt ∧
    (mkdirSync memHost "/a/b" (.obj [("recursive", .bool true)]) memWithRelative).1 =
      .ok .undefined :=
  ⟨rfl, rfl, rfl, rfl⟩

/-- For a relative path `mkdirSync` returns the shortest prefix that did not
exist: `"tmp"` exists, `"tmp/x"` does not. -/
theorem mkdirSync_relative_path :
    (mkdirSync memHost "tmp/x/y" (.obj [("recursive", .bool true)]) memStart).1 =
      .ok (.str "tmp/x") ∧
    (mkdirSync memHost "./tmp" (.obj [("recursive", .bool true)])
      { memStart with dirs := ["."] }).1 = .ok (.str "tmp") :=
  ⟨rfl, rfl⟩

/-- C14 on the in-memory host: `mkdirSync("tmp")` on an existing directory,
where the binding fails with native code 20, raises `EEXIST`. -/
theorem mkdirSync_error_codes_witness :
    (mkdirSync memHost "tmp" .undefined memStart).1 =
      .error { message := "EEXIST: file already exists, mkdir", code := .str "EEXIST",
               path := .str "tmp", syscall := .str "mkdir" } :=
  have t := mkdirSync_error_codes memHost "tmp" "tmp" .undefined memExists memStart
    (memMkdir "tmp" (.bool false) (.num 511)
      (mkdirProbe memHost (splitSlash "tmp") "" memStart).2.2).2 rfl rfl rfl
  congrArg Prod.fst (t.1 rfl)

/-- C15 on the in-memory host: with mode 1 and an existing destination
`copyFileSync` raises `EEXIST` and makes no call of `binding.copyFileSync`;
with mode 0 it makes one. -/
theorem copyFileSync_exclusive_witness :
    copyFileSync memHost "README.md" "README.md" 1 memStart =
      (.error (copyExistsError memHost "README.md" "README.md"),
        { memStart with log := [.stat "README.md"] }) ∧
    (copyFileSync memHost "README.md" "copy" 0 memStart).2.log =
      [.copyFile "README.md" "copy"] :=
  have t := copyFileSync_exclusive memHost "README.md" "README.md" "README.md" "README.md" 1
    memStart rfl rfl rfl (by decide) (by decide) rfl
  have u := copyFileSync_exclusive memHost "README.md" "copy" "README.md" "copy" 0
    memStart rfl rfl rfl (by decide) (by decide) rfl
  ⟨t.1 (by decide) rfl, (congrArg (fun r => r.2.log) (u.2.2.1 (by decide))).trans rfl⟩

/-! ## `writeFileSync`, `readFileSync`, `appendFileSync` -/

/-- C16, the failing case. The `Buffer` `viewAtOne` shows the bytes `[1, 2]`
at offset 1 of the backing store `[9, 1, 2]`. `writeFileSync("f", viewAtOne)`
returns, and `readFileSync("f")` then returns the bytes `[9, 1]`:
`writeSync` writes `buffer.buffer.slice(0, 2)`, the first two bytes of the
backing store, not the bytes the view shows. -/
theorem writeFileSync_ignores_byteOffset :
    viewAtOne.bytes = [1, 2] ∧
    (writeFileSync memHost (.path "f") (.bytes viewAtOne) .undefined memStart).1 = .ok () ∧
    (readFileSync memHost (.path "f") .undefined
      (writeFileSync memHost (.path "f") (.bytes viewAtOne) .undefined memStart).2).1 =
      .ok (.bytes (Buffer.ofBytes [9, 1])) ∧
    (Buffer.ofBytes [9, 1]).bytes ≠ viewAtOne.bytes :=
  ⟨rfl, rfl, rfl, by decide⟩

/-- For a `Buffer` at offset 0 of its backing store the round trip returns
the bytes written: here the three bytes `[7, 0, 255]` and the empty sequence. -/
theorem writeFileSync_readFileSync_whole_buffer :
    (readFileSync memHost (.path "f") .undefined
      (writeFileSync memHost (.path "f") (.bytes (Buffer.ofBytes [7, 0, 255])) .undefined
        memStart).2).1 = .ok (.bytes (Buffer.ofBytes [7, 0, 255])) ∧
    (readFileSync memHost (.path "f") .undefined
      (writeFileSync memHost (.path "f") (.bytes (Buffer.ofBytes [])) .undefined
        memStart).2).1 = .ok (.bytes (Buffer.ofBytes [])) :=
  ⟨rfl, rfl⟩

/-- C17, the failing case. When `fstatSync` or `readSync` on the descriptor
that `readFileSync` opened fails, or `writeSync` on the descriptor that
`writeFileSync` or `appendFileSync` opened fails, the call raises and
`binding.fcloseSync` is never called: the log of the binding ends with the
failing call and the descriptor 3 stays open. -/
theorem file_calls_leak_descriptor_on_failure :
    (readFileSync hostFailingFstat (.path "README.md") .undefined memStart).1 =
      .error { message := "I/O error", code := .str "EIO" } ∧
    (readFileSync hostFailingFstat (.path "README.md") .undefined memStart).2.log =
      [.openFile "README.md" 0, .fstat 3] ∧
    (readFileSync hostFailingFstat (.path "README.md") .undefined memStart).2.opened =
      [(3, "README.md", 0)] ∧
    (readFileSync hostFailingRead (.path "README.md") .undefined memStart).2.log =
      [.openFile "README.md" 0, .fstat 3, .read 3 (-1) 3] ∧
    (writeFileSync hostFailingWrite (.path "f") (.bytes (Buffer.ofBytes [1])) .undefined
      memStart).1 = .error referenceErrorCallback ∧
    (writeFileSync hostFailingWrite (.path "f") (.bytes (Buffer.ofBytes [1])) .undefined
      memStart).2.log = [.openFile "f" 1, .write 3 0 [1]] ∧
    (appendFileSync hostFailingWrite (.path "f") (.bytes (Buffer.ofBytes [1])) .undefined
      memStart).2.log = [.openFile "f" 2, .write 3 0 [1]] :=
  ⟨rfl, rfl, rfl, rfl, rfl, rfl, rfl⟩

/-- When every call of the binding succeeds, each of the three file calls
closes the descriptor it opened once, as its last call of the binding. -/
theorem file_calls_close_on_success :
    (readFileSync memHost (.path "README.md") .undefined memStart).2.log =
      [.openFile "README.md" 0, .fstat 3, .read 3 (-1) 3, .close 3] ∧
    (writeFileSync memHost (.path "f") (.bytes (Buffer.ofBytes [1])) .undefined
      memStart).2.log = [.openFile "f" 1, .write 3 0 [1], .close 3] ∧
    (appendFileSync memHost (.path "f") (.bytes (Buffer.ofBytes [1])) .undefined
      memStart).2.log = [.openFile "f" 2, .write 3 0 [1], .close 3] :=
  ⟨rfl, rfl, rfl⟩

/-- C18, the failing case. `writeFileSync(3, data)` with the open descriptor 3
does not write through the descriptor: it hands the number to
`getValidatedPath`, whose error it raises, and the binding is not called. -/
theorem writeFileSync_descriptor_is_not_used :
    writeFileSync memHost (.fd 3) (.bytes (Buffer.ofBytes [1])) .undefined memOpened =
      (.error memInvalidArg, memOpened) :=
  rfl

/-- With a path validator that lets a number through as a path,
`writeFileSync(3, data)` opens that path and writes through the new
descriptor 4, not through the descriptor 3. -/
theorem writeFileSync_descriptor_opens_a_path :
    (writeFileSync { memHost with getValidatedPathOfNumber := fun _ => .ok "3" } (.fd 3)
      (.bytes (Buffer.ofBytes [1])) .undefined memOpened).2.log =
      [.openFile "3" 1, .write 4 0 [1], .close 4] :=
  rfl

/-- With a descriptor `readFileSync` never calls `openSync` nor `closeSync`:
the call is the same on every host that differs in these two primitives only. -/
theorem readFileSync_descriptor_no_open_no_close {σ : Type} (h : Host σ) (fd : Int)
    (option : OptionsArg) (s : σ) (o : String → Int → JSVal → Prim σ Int)
    (c : Int → Prim σ Unit) :
    readFileSync { h with openSync := o, fcloseSync := c } (.fd fd) option s =
      readFileSync h (.fd fd) option s :=
  rfl

/-- With a descriptor `appendFileSync` never calls `openSync` nor `closeSync`. -/
theorem appendFileSync_descriptor_no_open_no_close {σ : Type} (h : Host σ) (fd : Int)
    (data : FileData) (options : OptionsArg) (s : σ) (o : String → Int → JSVal → Prim σ Int)
    (c : Int → Prim σ Unit) :
    appendFileSync { h with openSync := o, fcloseSync := c } (.fd fd) data options s =
      appendFileSync h (.fd fd) data options s :=
  rfl

/-- With the open descriptor 3, `readFileSync(3)` and `appendFileSync(3, data)`
read and write through it and leave it open. -/
theorem read_append_through_descriptor :
    (readFileSync memHost (.fd 3) .undefined memOpened).1 =
      .ok (.bytes (Buffer.ofBytes [104, 105, 10])) ∧
    (readFileSync memHost (.fd 3) .undefined memOpened).2.log = [.fstat 3, .read 3 (-1) 3] ∧
    (appendFileSync memHost (.fd 3) (.bytes (Buffer.ofBytes [1])) .undefined memOpened).2.log =
      [.write 3 0 [1]] ∧
    (appendFileSync memHost (.fd 3) (.bytes (Buffer.ofBytes [1])) .undefined
      memOpened).2.opened = [(3, "README.md", 0)] :=
  ⟨rfl, rfl, rfl, rfl⟩

/-! ## The position argument of `readSync`, `writeSync`, `readvSync`, `writevSync` -/

/-- C19, the failing case. On the in-memory host with the descriptor 3 open.
With the position left out or `null`, `binding.freadSync` receives position 0
from `readvSync`, and `binding.fwriteSync` receives position 0 from
`writeSync` in its options-object shape and in its string shape: not the
sentinel -1. In its positional shape with a numeric offset,
`writeSync(3, buf, 0, 1, 2)` reaches the binding with position 0 and with both
bytes of the buffer: the position 2 and the length 1 of the caller are
overwritten. `readSync` does pass -1 for a position left out and 0 for the
position 0. -/
theorem position_not_passed_on :
    (readvSync memHost 3 [Buffer.ofBytes [0, 0]] .undefined memOpened).2.2.log =
      [.read 3 0 2] ∧
    (writeSync memHost 3
      (.options (Buffer.ofBytes [5, 6]) { offset := .undefined, length := .undefined,
                                          position := .undefined }) memOpened).2.log =
      [.write 3 0 [5, 6]] ∧
    (writeSync memHost 3
      (.options (Buffer.ofBytes [5, 6]) { offset := .undefined, length := .undefined,
                                          position := .null }) memOpened).2.log =
      [.write 3 0 [5, 6]] ∧
    (writeSync memHost 3 (.string "x" .undefined .undefined) memOpened).2.log =
      [.write 3 0 [120]] ∧
    (writeSync memHost 3 (.positional (Buffer.ofBytes [5, 6]) (.num 0) (.num 1) (.num 2))
      memOpened).2.log = [.write 3 0 [5, 6]] ∧
    (readSync memHost 3 (Buffer.ofBytes [0, 0, 0]) (.positional (.num 0) (.num 3) .undefined)
      memOpened).2.2.log = [.read 3 (-1) 3] ∧
    (readSync memHost 3 (Buffer.ofBytes [0, 0, 0]) (.positional (.num 0) (.num 3) (.num 0))
      memOpened).2.2.log = [.read 3 0 3] :=
  ⟨rfl, rfl, rfl, rfl, rfl, rfl, rfl⟩

/-- In its positional shape with a numeric offset `writeSync` overwrites the
caller's `position` with 0: position 2 reaches the binding as 0. -/
theorem writeSync_positional_drops_position :
    (writeSync memHost 3 (.positional (Buffer.ofBytes [5, 6]) (.num 0) (.num 2) (.num 2))
      memOpened).2.log = [.write 3 0 [5, 6]] :=
  rfl

/-- The host state after `readSync` is the one `binding.freadSync` leaves when
it is called once with the position and the length `readSync` computed. -/
theorem readSync_state {σ : Type} (h : Host σ)
    (hv : ∀ n : Int, h.validateInteger (.num n) = .ok ()) (fd : Int) (buffer : Buffer)
    (args : ReadArgs) (s : σ) :
    (readSync h fd buffer args s).2.2 =
      (h.freadSync fd (readSyncResolve buffer args).2.2 (readSyncResolve buffer args).2.1 s).2 := by
  unfold readSync
  rw [hv, hv]
  simp only []
  rcases h.freadSync fd (readSyncResolve buffer args).2.2 (readSyncResolve buffer args).2.1 s
    with ⟨r, s1⟩
  cases r with
  | error e => rfl
  | ok data =>
    simp only []
    cases buffer.fill data (readSyncResolve buffer args).1
      ((readSyncResolve buffer args).1 + data.length) <;> rfl

/-- The host state after `writeSync` is the one `binding.fwriteSync` leaves
when it is called once with the position and the bytes `writeSync` computed. -/
theorem writeSync_state {σ : Type} (h : Host σ)
    (hv : ∀ n : Int, h.validateInteger (.num n) = .ok ()) (fd : Int) (args : WriteArgs)
    (buffer : Buffer) (offset length position : Int) (s : σ)
    (hr : writeSyncResolve h args = .ok (buffer, offset, length, position)) :
    (writeSync h fd args s).2 =
      (h.fwriteSync fd position (sliceBytes buffer.buffer offset (offset + length)) s).2 := by
  unfold writeSync
  rw [hr]
  simp only []
  rw [hv, hv, hv]
  simp only []
  rcases h.fwriteSync fd position (sliceBytes buffer.buffer offset (offset + length)) s
    with ⟨r, s1⟩
  cases r <;> rfl

/-- The host state after `readvSync` is the one `binding.freadSync` leaves
when it is called once with the position read as a number. -/
theorem readvSync_state {σ : Type} (h : Host σ)
    (hv : ∀ n : Int, h.validateInteger (.num n) = .ok ()) (fd : Int) (buffers : List Buffer)
    (position : RawNum) (hp : position ≠ .null) (s : σ) :
    (readvSync h fd buffers position s).2.2 =
      (h.freadSync fd position.toInt (totalLength buffers) s).2 := by
  have hvp : h.validateInteger (if position = .undefined then .num 0 else position) = .ok () := by
    cases position with
    | undefined => simpa using hv 0
    | null => exact absurd rfl hp
    | num p => simpa using hv p
  unfold readvSync
  rw [hv, hvp]
  simp only []
  rcases h.freadSync fd position.toInt (totalLength buffers) s with ⟨r, s1⟩
  cases r with
  | error e => rfl
  | ok data =>
    simp only []
    cases fillBuffers data buffers 0 <;> rfl

/-- The host state after `writevSync`, when the `Blob` is made and its method
`arrayBuffer()` returns the promise `pending`, is the one `binding.fwriteSync`
leaves when it is called once with the position read as a number and with
that promise. -/
theorem writevSync_state {σ : Type} (h : Host σ) (g : BlobHost σ)
    (hv : ∀ n : Int, h.validateInteger (.num n) = .ok ()) (fd : Int) (buffers : List Buffer)
    (position : RawNum) (hp : position ≠ .null) (s : σ) (blob : Blob) (pending : PendingBytes)
    (hb : g.newBlob buffers = .ok blob) (ha : g.arrayBuffer blob = .ok pending) :
    (writevSync h g fd buffers position s).2 =
      (g.fwriteSyncPending fd position.toInt pending s).2 := by
  have hvp : h.validateInteger (if position = .undefined then .num 0 else position) = .ok () := by
    cases position with
    | undefined => simpa using hv 0
    | null => exact absurd rfl hp
    | num p => simpa using hv p
  unfold writevSync
  rw [hvp, hb]
  simp only []
  rw [ha]
  simp only []
  rcases g.fwriteSyncPending fd position.toInt pending s with ⟨r, s1⟩
  cases r <;> rfl

/-- Where no global `Blob` exists, `writevSync` raises what `new Blob` throws
and the binding is not called. -/
theorem writevSync_without_blob {σ : Type} (h : Host σ) (g : BlobHost σ)
    (hv : ∀ n : Int, h.validateInteger (.num n) = .ok ()) (fd : Int) (buffers : List Buffer)
    (p : Int) (s : σ) (e : JSError) (hb : g.newBlob buffers = .error e) :
    writevSync h g fd buffers (.num p) s = (.error e, s) := by
  unfold writevSync
  simp only [RawNum.num.injEq, reduceCtorEq, if_false, hv, hb]

/-- The position that reaches the binding. On a host whose `validateInteger`
accepts the integers, whatever the binding does, the host state after each
call is the state the binding leaves when it is called once with the position
stated here. `readSync`, in the options-object shape and in the positional
shape with a numeric offset: -1 when the position is `null` or left out, and
`p` for an integer position `p` (0 included). `writeSync` in the
options-object shape, `readvSync` and `writevSync` (when the `Blob` is made):
0 when the position is left out, and `p` for an integer position `p`
(0 included). -/
theorem position_reaching_binding {σ : Type} (h : Host σ)
    (hv : ∀ n : Int, h.validateInteger (.num n) = .ok ()) (fd : Int) (s : σ) :
    (∀ (buffer : Buffer) (offset length : RawNum),
      (∃ len : Int, (readSync h fd buffer (.options ⟨offset, length, .null⟩) s).2.2 =
        (h.freadSync fd (-1) len s).2) ∧
      (∃ len : Int, (readSync h fd buffer (.options ⟨offset, length, .undefined⟩) s).2.2 =
        (h.freadSync fd (-1) len s).2) ∧
      (∀ p : Int, ∃ len : Int,
        (readSync h fd buffer (.options ⟨offset, length, .num p⟩) s).2.2 =
          (h.freadSync fd p len s).2)) ∧
    (∀ (buffer : Buffer) (offset : Int) (length : RawNum),
      (∃ len : Int, (readSync h fd buffer (.positional (.num offset) length .null) s).2.2 =
        (h.freadSync fd (-1) len s).2) ∧
      (∃ len : Int, (readSync h fd buffer (.positional (.num offset) length .undefined) s).2.2 =
        (h.freadSync fd (-1) len s).2) ∧
      (∀ p : Int, ∃ len : Int,
        (readSync h fd buffer (.positional (.num offset) length (.num p)) s).2.2 =
          (h.freadSync fd p len s).2)) ∧
    (∀ (buffer : Buffer) (offset length : RawNum),
      (∃ bytes : List Nat,
        (writeSync h fd (.options buffer ⟨offset, length, .undefined⟩) s).2 =
          (h.fwriteSync fd 0 bytes s).2) ∧
      (∀ p : Int, ∃ bytes : List Nat,
        (writeSync h fd (.options buffer ⟨offset, length, .num p⟩) s).2 =
          (h.fwriteSync fd p bytes s).2)) ∧
    (∀ buffers : List Buffer,
      (readvSync h fd buffers .undefined s).2.2 =
        (h.freadSync fd 0 (totalLength buffers) s).2 ∧
      (∀ p : Int, (readvSync h fd buffers (.num p) s).2.2 =
        (h.freadSync fd p (totalLength buffers) s).2)) ∧
    (∀ (g : BlobHost σ) (buffers : List Buffer) (blob : Blob) (pending : PendingBytes),
      g.newBlob buffers = .ok blob → g.arrayBuffer blob = .ok pending →
      (writevSync h g fd buffers .undefined s).2 = (g.fwriteSyncPending fd 0 pending s).2 ∧
      (∀ p : Int, (writevSync h g fd buffers (.num p) s).2 =
        (g.fwriteSyncPending fd p pending s).2)) := by
  refine ⟨?_, ?_, ?_, ?_, ?_⟩
  · intro buffer offset length
    exact ⟨⟨_, readSync_state h hv fd buffer _ s⟩, ⟨_, readSync_state h hv fd buffer _ s⟩,
      fun p => ⟨_, readSync_state h hv fd buffer _ s⟩⟩
  · intro buffer offset length
    exact ⟨⟨_, readSync_state h hv fd buffer _ s⟩, ⟨_, readSync_state h hv fd buffer _ s⟩,
      fun p => ⟨_, readSync_state h hv fd buffer _ s⟩⟩
  · intro buffer offset length
    refine ⟨⟨_, writeSync_state h hv fd _ buffer _ _ 0 s rfl⟩, fun p => ?_⟩
    refine ⟨_, writeSync_state h hv fd _ buffer (offset.orElse 0)
      (length.orElse ((buffer.byteLength : Int) - offset.orElse 0)) p s ?_⟩
    by_cases hp : p = 0
    · subst hp
      simp [writeSyncResolve, RawNum.orElse]
    · simp [writeSyncResolve, RawNum.orElse, hp]
  · intro buffers
    exact ⟨readvSync_state h hv fd buffers .undefined (by simp) s,
      fun p => readvSync_state h hv fd buffers (.num p) (by simp) s⟩
  · intro g buffers blob pending hb ha
    exact ⟨writevSync_state h g hv fd buffers .undefined (by simp) s blob pending hb ha,
      fun p => writevSync_state h g hv fd buffers (.num p) (by simp) s blob pending hb ha⟩

/-- On the in-memory host with the descriptor 3 open, `readSync` with the
position left out reaches the binding with position -1, and with position 0
with position 0. -/
theorem position_reaching_binding_witness :
    (∀ n : Int, memHost.validateInteger (.num n) = .ok ()) ∧
    (∃ len : Int,
      (readSync memHost 3 (Buffer.ofBytes [0, 0, 0])
        (.options ⟨.undefined, .undefined, .undefined⟩) memOpened).2.2 =
        (memRead 3 (-1) len memOpened).2) ∧
    (∃ len : Int,
      (readSync memHost 3 (Buffer.ofBytes [0, 0, 0])
        (.options ⟨.undefined, .undefined, .num 0⟩) memOpened).2.2 =
        (memRead 3 0 len memOpened).2) :=
  have t := position_reaching_binding memHost (fun _ => rfl) 3 memOpened
  ⟨fun _ => rfl, (t.1 (Buffer.ofBytes [0, 0, 0]) .undefined .undefined).2.1,
    (t.1 (Buffer.ofBytes [0, 0, 0]) .undefined .undefined).2.2 0⟩

/-! ## The protocol between `Dir` and `binding.freaddirSync` -/

theorem followsProtocol_append (fd : Int) (c c1 : Nat) (trace : List DirCall)
    (r : Option Page) (hp : followsProtocol fd c trace)
    (hc : cursorAfter c trace = (c1, false)) :
    followsProtocol fd c (trace ++ [(fd, c1, r)]) := by
  induction trace generalizing c with
  | nil =>
    simp only [cursorAfter, Prod.mk.injEq] at hc
    cases r <;> simp [followsProtocol, hc.1]
  | cons e rest ih =>
    obtain ⟨fd0, c0, r0⟩ := e
    cases r0 with
    | none =>
      simp only [followsProtocol] at hp
      simp only [cursorAfter] at hc
      simp only [List.cons_append, followsProtocol]
      exact ⟨hp.1, hp.2.1, ih c hp.2.2 hc⟩
    | some p =>
      simp only [followsProtocol] at hp
      simp only [cursorAfter] at hc
      by_cases hfin : p.fin = true
      · simp [hfin] at hc
      · simp only [hfin, if_false] at hp hc
        simp only [List.cons_append, followsProtocol, hfin, if_false]
        exact ⟨hp.1, hp.2.1, ih p.cookie hp.2.2 hc⟩

theorem cursorAfter_append_none (c c1 : Nat) (trace : List DirCall) (fd : Int) (c2 : Nat)
    (hc : cursorAfter c trace = (c1, false)) :
    cursorAfter c (trace ++ [(fd, c2, none)]) = (c1, false) := by
  induction trace generalizing c with
  | nil => simpa [cursorAfter] using hc
  | cons e rest ih =>
    obtain ⟨fd0, c0, r0⟩ := e
    cases r0 with
    | none =>
      simp only [cursorAfter] at hc
      simp only [List.cons_append, cursorAfter]
      exact ih c hc
    | some p =>
      simp only [cursorAfter] at hc
      by_cases hfin : p.fin = true
      · simp [hfin] at hc
      · simp only [hfin, if_false] at hc
        simp only [List.cons_append, cursorAfter, hfin, if_false]
        exact ih p.cookie hc

theorem cursorAfter_append_some (c c1 : Nat) (trace : List DirCall) (fd : Int) (c2 : Nat)
    (p : Page) (hc : cursorAfter c trace = (c1, false)) :
    cursorAfter c (trace ++ [(fd, c2, some p)]) = (p.cookie, p.fin) := by
  induction trace generalizing c with
  | nil =>
    by_cases hfin : p.fin = true
    · simp [cursorAfter, hfin]
    · have hf : p.fin = false := by simpa using hfin
      simp [cursorAfter, hf]
  | cons e rest ih =>
    obtain ⟨fd0, c0, r0⟩ := e
    cases r0 with
    | none =>
      simp only [cursorAfter] at hc
      simp only [List.cons_append, cursorAfter]
      exact ih c hc
    | some q =>
      simp only [cursorAfter] at hc
      by_cases hfin : q.fin = true
      · simp [hfin] at hc
      · simp only [hfin, if_false] at hc
        simp only [List.cons_append, cursorAfter, hfin, if_false]
        exact ih q.cookie hc

/-- A `#fetch` that does not have to refill does not invoke the binding. -/
theorem Dir.fetch_no_refill {σ : Type} (f : Int → Nat → Prim σ Page) (d : Dir) (s : σ)
    (hc : ¬ (d.idx = d.dataBuf.length ∧ d.fin = false)) :
    Dir.fetch f d s = (.ok d.hasNext, d, s) := by
  unfold Dir.fetch
  rw [if_neg hc]

/-- A `#fetch` that has to refill invokes the traced binding once, with the
descriptor and the cookie of the cursor. -/
theorem Dir.fetch_refill_traced {σ : Type} (f : Int → Nat → Prim σ Page) (d : Dir) (s : σ)
    (trace : List DirCall) (hc : d.idx = d.dataBuf.length ∧ d.fin = false) :
    Dir.fetch (traced f) d (s, trace) =
      match f d.fd d.cookie s with
      | (.ok data, s1) =>
        (.ok ({ d with dataBuf := d.dataBuf ++ data.res.filter notDot, fin := data.fin,
                       cookie := data.cookie } : Dir).hasNext,
          { d with dataBuf := d.dataBuf ++ data.res.filter notDot, fin := data.fin,
                   cookie := data.cookie },
          (s1, trace ++ [(d.fd, d.cookie, some data)]))
      | (.error err, s1) =>
        (.error { message := err.message, code := err.code }, d,
          (s1, trace ++ [(d.fd, d.cookie, none)])) := by
  unfold Dir.fetch
  rw [if_pos hc]
  unfold traced
  rcases f d.fd d.cookie s with ⟨r, s1⟩
  cases r <;> rfl

/-- After `#fetch`, `readSync` leaves the host state alone, and it leaves the
cursor alone or advances its read index by one, the latter only when `#fetch`
returned `true`. -/
theorem Dir.readSync_after_fetch {σ : Type} (f : Int → Nat → Prim σ Page) (d : Dir) (s : σ) :
    (Dir.readSync f d s).2.2 = (Dir.fetch f d s).2.2 ∧
    ((Dir.readSync f d s).2.1 = (Dir.fetch f d s).2.1 ∨
      ((Dir.fetch f d s).1 = .ok true ∧
        (Dir.readSync f d s).2.1 =
          { (Dir.fetch f d s).2.1 with idx := (Dir.fetch f d s).2.1.idx + 1 })) := by
  unfold Dir.readSync
  rcases Dir.fetch f d s with ⟨r, d1, s1⟩
  cases r with
  | error e => exact ⟨rfl, Or.inl rfl⟩
  | ok b =>
    cases b with
    | false => exact ⟨rfl, Or.inl rfl⟩
    | true =>
      cases hget : d1.dataBuf.get? d1.idx with
      | none => simp only [hget]; exact ⟨trivial, Or.inr ⟨trivial, trivial⟩⟩
      | some e => simp only [hget]; exact ⟨trivial, Or.inr ⟨trivial, trivial⟩⟩

/-- Advancing the read index after `#fetch` returned `true` keeps the cursor
consistent with the trace. -/
theorem Dir.Consistent_advance (d : Dir) (trace : List DirCall) (hcons : d.Consistent trace)
    (hnext : d.hasNext = true) : ({ d with idx := d.idx + 1 } : Dir).Consistent trace := by
  obtain ⟨h1, h2, h3⟩ := hcons
  refine ⟨h1, h2, ?_⟩
  intro hfin
  have hfin2 : d.fin = true := hfin
  have hle := h3 hfin2
  have hne : d.idx ≠ d.dataBuf.length := by
    intro heq
    simp [Dir.hasNext, heq, hfin2] at hnext
  show d.idx + 1 ≤ d.dataBuf.length
  omega

/-- One `readSync` on the traced binding keeps the cursor consistent with
the trace and keeps its descriptor. -/
theorem Dir.readSync_consistent {σ : Type} (f : Int → Nat → Prim σ Page) (d : Dir) (s : σ)
    (trace : List DirCall) (hcons : d.Consistent trace) :
    (Dir.readSync (traced f) d (s, trace)).2.1.Consistent
      (Dir.readSync (traced f) d (s, trace)).2.2.2 ∧
    (Dir.readSync (traced f) d (s, trace)).2.1.fd = d.fd := by
  obtain ⟨hstate, hdir⟩ := Dir.readSync_after_fetch (traced f) d (s, trace)
  have hfetch : (Dir.fetch (traced f) d (s, trace)).2.1.Consistent
        (Dir.fetch (traced f) d (s, trace)).2.2.2 ∧
      (Dir.fetch (traced f) d (s, trace)).2.1.fd = d.fd ∧
      ((Dir.fetch (traced f) d (s, trace)).1 = .ok true →
        (Dir.fetch (traced f) d (s, trace)).2.1.hasNext = true) := by
    by_cases hc : d.idx = d.dataBuf.length ∧ d.fin = false
    · rw [Dir.fetch_refill_traced f d s trace hc]
      obtain ⟨h1, h2, _⟩ := hcons
      have h2f : cursorAfter 0 trace = (d.cookie, false) := by rw [h2, hc.2]
      rcases f d.fd d.cookie s with ⟨r, s1⟩
      cases r with
      | error e =>
        refine ⟨⟨followsProtocol_append d.fd 0 d.cookie trace none h1 h2f, ?_, ?_⟩, rfl, ?_⟩
        · show cursorAfter 0 (trace ++ [(d.fd, d.cookie, none)]) = (d.cookie, d.fin)
          rw [cursorAfter_append_none 0 d.cookie trace d.fd d.cookie h2f, hc.2]
        · intro hfin
          rw [hc.2] at hfin
          exact absurd hfin (by simp)
        · intro hcon
          cases hcon
      | ok p =>
        refine ⟨⟨followsProtocol_append d.fd 0 d.cookie trace (some p) h1 h2f, ?_, ?_⟩, rfl, ?_⟩
        · exact cursorAfter_append_some 0 d.cookie trace d.fd d.cookie p h2f
        · intro _
          show d.idx ≤ (d.dataBuf ++ p.res.filter notDot).length
          rw [List.length_append, hc.1]
          omega
        · intro hcon
          simp only [Except.ok.injEq] at hcon
          exact hcon
    · rw [Dir.fetch_no_refill (traced f) d (s, trace) hc]
      refine ⟨hcons, rfl, ?_⟩
      intro hcon
      simp only [Except.ok.injEq] at hcon
      exact hcon
  obtain ⟨hf1, hf2, hf3⟩ := hfetch
  rw [hstate]
  rcases hdir with hsame | ⟨htrue, hadv⟩
  · rw [hsame]
    exact ⟨hf1, hf2⟩
  · rw [hadv]
    exact ⟨Dir.Consistent_advance _ _ hf1 (hf3 htrue), hf2⟩

/-- Every number of successive calls of `readSync` on the traced binding keeps
the cursor consistent with the trace and keeps its descriptor. -/
theorem Dir.readSyncTimes_consistent {σ : Type} (f : Int → Nat → Prim σ Page) (n : Nat)
    (d : Dir) (s : σ) (trace : List DirCall) (hcons : d.Consistent trace) :
    (Dir.readSyncTimes (traced f) n d (s, trace)).2.1.Consistent
      (Dir.readSyncTimes (traced f) n d (s, trace)).2.2.2 ∧
    (Dir.readSyncTimes (traced f) n d (s, trace)).2.1.fd = d.fd := by
  induction n generalizing d s trace with
  | zero => exact ⟨hcons, rfl⟩
  | succ n ih =>
    obtain ⟨h1, h2⟩ := Dir.readSync_consistent f d s trace hcons
    have hstep : Dir.readSyncTimes (traced f) (n + 1) d (s, trace) =
        ((Dir.readSync (traced f) d (s, trace)).1 ::
            (Dir.readSyncTimes (traced f) n (Dir.readSync (traced f) d (s, trace)).2.1
              ((Dir.readSync (traced f) d (s, trace)).2.2.1,
                (Dir.readSync (traced f) d (s, trace)).2.2.2)).1,
          (Dir.readSyncTimes (traced f) n (Dir.readSync (traced f) d (s, trace)).2.1
              ((Dir.readSync (traced f) d (s, trace)).2.2.1,
                (Dir.readSync (traced f) d (s, trace)).2.2.2)).2) := rfl
    rw [hstep]
    obtain ⟨i1, i2⟩ := ih (Dir.readSync (traced f) d (s, trace)).2.1
      (Dir.readSync (traced f) d (s, trace)).2.2.1
      (Dir.readSync (traced f) d (s, trace)).2.2.2 h1
    exact ⟨i1, i2.trans h2⟩

/-- Reads from a finished, drained cursor return `null` and change nothing. -/
theorem Dir.outcomes_finished {σ : Type} (f : Int → Nat → Prim σ Page) (m : Nat) (d : Dir)
    (s : σ) (hidx : d.idx = d.dataBuf.length) (hfin : d.fin = true) :
    Dir.readSyncTimes f m d s = (List.replicate m (.ok none), d, s) := by
  induction m with
  | zero => rfl
  | succ m ih =>
    have hstep : Dir.readSyncTimes f (m + 1) d s =
        ((Dir.readSync f d s).1 ::
            (Dir.readSyncTimes f m (Dir.readSync f d s).2.1 (Dir.readSync f d s).2.2).1,
          (Dir.readSyncTimes f m (Dir.readSync f d s).2.1 (Dir.readSync f d s).2.2).2) := rfl
    rw [hstep, Dir.readSync_finished f d s hidx hfin]
    simp only [ih]
    rfl

/-- Reads from a cursor that has `k` buffered entries left return these `k`
entries in order and leave the host state alone; the reads after them start
from the drained cursor. -/
theorem Dir.readSyncTimes_drain {σ : Type} (f : Int → Nat → Prim σ Page) (k m : Nat) (d : Dir)
    (s : σ) (hk : d.idx + k = d.dataBuf.length) :
    Dir.readSyncTimes f (k + m) d s =
      ((d.dataBuf.drop d.idx).map (fun e => .ok (some (Dirent.new e))) ++
          (Dir.readSyncTimes f m { d with idx := d.dataBuf.length } s).1,
        (Dir.readSyncTimes f m { d with idx := d.dataBuf.length } s).2) := by
  induction k generalizing d with
  | zero =>
    have hidx : d.idx = d.dataBuf.length := by simpa using hk
    have hd : ({ d with idx := d.dataBuf.length } : Dir) = d := by
      cases d; simp_all
    rw [hd, hidx]
    simp
  | succ k ih =>
    have hlt : d.idx < d.dataBuf.length := by omega
    have he : d.dataBuf.get? d.idx = some (d.dataBuf.get ⟨d.idx, hlt⟩) :=
      List.get?_eq_get hlt
    have hread := Dir.readSync_buffered f d s _ he
    have harith : k + 1 + m = (k + m) + 1 := by omega
    have hstep : Dir.readSyncTimes f ((k + m) + 1) d s =
        ((Dir.readSync f d s).1 ::
            (Dir.readSyncTimes f (k + m) (Dir.readSync f d s).2.1 (Dir.readSync f d s).2.2).1,
          (Dir.readSyncTimes f (k + m) (Dir.readSync f d s).2.1 (Dir.readSync f d s).2.2).2) :=
      rfl
    rw [harith, hstep, hread]
    simp only []
    rw [ih { d with idx := d.idx + 1 } (by simp; omega)]
    have hdrop : d.dataBuf.drop d.idx =
        d.dataBuf.get ⟨d.idx, hlt⟩ :: d.dataBuf.drop (d.idx + 1) :=
      List.drop_eq_getElem_cons hlt
    rw [hdrop]
    simp only [List.map_cons, List.cons_append]

/-- C20. In every sequence of `readSync` calls on one cursor, whatever the
binding does: (1) a `readSync` on a cursor whose read index differs from the
buffer length or whose finished flag is set does not invoke
`binding.freaddirSync`, and a `readSync` on a cursor whose read index equals
the buffer length and whose finished flag is unset invokes it once, with the
descriptor and the cookie of the cursor; (2) the invocations made by any
number of reads on a new cursor follow the cookie protocol: the first passes
cookie 0, each later one passes the cookie the last returned page carried,
and an invocation that returned a page with `fin = true` is the last one;
the cursor then is finished with its read index inside its buffer; (3) a
finished cursor returns the entries left in its buffer and after them `null`
on every read, without invoking the binding. -/
theorem dir_cursor_protocol {σ : Type} (f : Int → Nat → Prim σ Page) :
    (∀ (d : Dir) (s : σ) (trace : List DirCall),
      (¬ (d.idx = d.dataBuf.length ∧ d.fin = false) →
        (Dir.readSync (traced f) d (s, trace)).2.2 = (s, trace)) ∧
      ((d.idx = d.dataBuf.length ∧ d.fin = false) →
        ∃ r : Option Page,
          (Dir.readSync (traced f) d (s, trace)).2.2.2 = trace ++ [(d.fd, d.cookie, r)])) ∧
    (∀ (n : Nat) (fd : Int) (path : String) (s : σ),
      followsProtocol fd 0 (Dir.readSyncTimes (traced f) n (Dir.new fd path) (s, [])).2.2.2 ∧
      cursorAfter 0 (Dir.readSyncTimes (traced f) n (Dir.new fd path) (s, [])).2.2.2 =
        ((Dir.readSyncTimes (traced f) n (Dir.new fd path) (s, [])).2.1.cookie,
          (Dir.readSyncTimes (traced f) n (Dir.new fd path) (s, [])).2.1.fin) ∧
      ((Dir.readSyncTimes (traced f) n (Dir.new fd path) (s, [])).2.1.fin = true →
        (Dir.readSyncTimes (traced f) n (Dir.new fd path) (s, [])).2.1.idx ≤
          (Dir.readSyncTimes (traced f) n (Dir.new fd path) (s, [])).2.1.dataBuf.length)) ∧
    (∀ (d : Dir) (st : σ × List DirCall) (k m : Nat),
      d.fin = true → d.idx + k = d.dataBuf.length →
        Dir.readSyncTimes (traced f) (k + m) d st =
          ((d.dataBuf.drop d.idx).map (fun e => .ok (some (Dirent.new e))) ++
              List.replicate m (.ok none),
            { d with idx := d.dataBuf.length }, st)) := by
  refine ⟨?_, ?_, ?_⟩
  · intro d s trace
    obtain ⟨hstate, _⟩ := Dir.readSync_after_fetch (traced f) d (s, trace)
    constructor
    · intro hc
      rw [hstate, Dir.fetch_no_refill (traced f) d (s, trace) hc]
    · intro hc
      rw [hstate, Dir.fetch_refill_traced f d s trace hc]
      rcases f d.fd d.cookie s with ⟨r, s1⟩
      cases r with
      | error e => exact ⟨none, rfl⟩
      | ok p => exact ⟨some p, rfl⟩
  · intro n fd path s
    have hnew : (Dir.new fd path).Consistent [] :=
      ⟨trivial, rfl, fun hfin => absurd hfin (by simp [Dir.new])⟩
    obtain ⟨⟨h1, h2, h3⟩, hfd⟩ :=
      Dir.readSyncTimes_consistent f n (Dir.new fd path) s [] hnew
    have hfd2 : (Dir.readSyncTimes (traced f) n (Dir.new fd path) (s, [])).2.1.fd = fd := hfd
    rw [hfd2] at h1
    exact ⟨h1, h2, h3⟩
  · intro d st k m hfin hk
    rw [Dir.readSyncTimes_drain (traced f) k m d st hk,
      Dir.outcomes_finished (traced f) m { d with idx := d.dataBuf.length } st rfl hfin]

/-- C20 on the two-page listing `twoFullPages`: four reads invoke the binding
twice, with cookie 0 and then with the cookie 1 of the first page; the last
two reads make no invocation, and the fourth returns `null`. -/
theorem dir_cursor_protocol_witness :
    (Dir.readSyncTimes (traced scriptedReaddir) 4 demoDir (twoFullPages, [])).2.2.2 =
      [(3, 0, some { res := [⟨".", 3⟩, ⟨"..", 3⟩, ⟨"a", 4⟩], fin := false, cookie := 1 }),
       (3, 1, some { res := [⟨"b", 3⟩], fin := true, cookie := 2 })] ∧
    followsProtocol 3 0
      (Dir.readSyncTimes (traced scriptedReaddir) 4 demoDir (twoFullPages, [])).2.2.2 ∧
    Dir.readSyncTimes (traced scriptedReaddir) (0 + 2)
        { fd := 3, path := "d", dataBuf := [⟨"a", 4⟩], idx := 1, fin := true, cookie := 2 }
        (twoFullPages, []) =
      ([.ok none, .ok none],
        { fd := 3, path := "d", dataBuf := [⟨"a", 4⟩], idx := 1, fin := true, cookie := 2 },
        (twoFullPages, [])) :=
  have t := dir_cursor_protocol scriptedReaddir
  ⟨rfl, (t.2.1 4 3 "d" twoFullPages).1,
    t.2.2 { fd := 3, path := "d", dataBuf := [⟨"a", 4⟩], idx := 1, fin := true, cookie := 2 }
      (twoFullPages, []) 0 2 rfl rfl⟩

/-! ## The type predicates of `Dirent` -/

/-- C30. For a `Dirent` whose filetype is one of the eight values 0..7:
exactly one of `isFile`, `isDirectory`, `isSymbolicLink`, `isBlockDevice`,
`isCharacterDevice`, `isSocket` is true when the filetype is 1..7, and none is
true when it is 0; `isSocket` is true exactly for the datagram-socket and the
stream-socket types; `isFIFO` is false. -/
theorem dirent_predicates (d : Dirent) (h : d.filetype ≤ 7) :
    (1 ≤ d.filetype → d.kinds.count true = 1) ∧
    (d.filetype = 0 → d.kinds.count true = 0) ∧
    (d.isSocket = true ↔
      d.filetype = FILETYPE_SOCKET_DGRAM ∨ d.filetype = FILETYPE_SOCKET_STREAM) ∧
    d.isFIFO = false := by
  obtain ⟨ft, name⟩ := d
  simp only at h
  interval_cases ft <;>
    simp [Dirent.kinds, Dirent.isFile, Dirent.isDirectory, Dirent.isSymbolicLink,
      Dirent.isBlockDevice, Dirent.isCharacterDevice, Dirent.isSocket, Dirent.isFIFO,
      FILETYPE_REGULAR_FILE, FILETYPE_DIRECTORY, FILETYPE_SYMBOLIC_LINK, FILETYPE_BLOCK_DEVICE,
      FILETYPE_CHARACTER_DEVICE, FILETYPE_SOCKET_DGRAM, FILETYPE_SOCKET_STREAM]

/-- C30 on a stream socket and on an entry of unknown type: the first is a
socket and nothing else, the second is nothing. -/
theorem dirent_predicates_witness :
    (Dirent.new { name := "s", filetype := 6 }).kinds.count true = 1 ∧
    (Dirent.new { name := "s", filetype := 6 }).isSocket = true ∧
    (Dirent.new { name := "u", filetype := 0 }).kinds.count true = 0 ∧
    (Dirent.new { name := "u", filetype := 0 }).isFIFO = false :=
  have t := dirent_predicates (Dirent.new { name := "s", filetype := 6 }) (by decide)
  have u := dirent_predicates (Dirent.new { name := "u", filetype := 0 }) (by decide)
  ⟨t.1 (by decide), t.2.2.1.mpr (Or.inr rfl), u.2.1 rfl, u.2.2.2⟩

/-- The predicate `isFIFO` is false for every entry, whatever its filetype. -/
theorem Dirent.isFIFO_false (d : Dirent) : d.isFIFO = false := rfl

/-! ## The callback-style stat calls -/

/-- For a path that the validator accepts and leaves as it is once accepted,
`stat` throws nothing at call time and its scheduled function invokes the
callback with what `statSync` returns or throws for the same arguments. -/
theorem stat_delivers_statSync {σ : Type} (h : Host σ) (path valid : String)
    (options : OptionsOrCallback) (s : σ) (hp : h.getValidatedPath path = .ok valid)
    (hv : h.getValidatedPath valid = .ok valid) :
    ∃ k : Scheduled σ StatResult, stat h path options = .ok k ∧
      k s = deliver (statSync h.getValidatedPath h.statSync path options.statRecord s) := by
  refine ⟨_, by simp only [stat, hp]; rfl, ?_⟩
  cases options with
  | callback => simp only [statSync, hp, hv, OptionsOrCallback.statRecord]; rfl
  | undefined => simp only [statSync, hp, hv, OptionsOrCallback.statRecord]
  | obj o => simp only [statSync, hp, hv, OptionsOrCallback.statRecord]

/-- The same for `lstat` and `lstatSync`. -/
theorem lstat_delivers_lstatSync {σ : Type} (h : FsHost σ) (path valid : String)
    (options : OptionsOrCallback) (s : σ) (hp : h.getValidatedPath path = .ok valid)
    (hv : h.getValidatedPath valid = .ok valid) :
    ∃ k : Scheduled σ StatResult, lstat h path options = .ok k ∧
      k s = deliver (lstatSync h.getValidatedPath h.lstatSync path options.statRecord s) := by
  refine ⟨_, by simp only [lstat, hp]; rfl, ?_⟩
  cases options with
  | callback => simp only [lstatSync, hp, hv, OptionsOrCallback.statRecord]; rfl
  | undefined => simp only [lstatSync, hp, hv, OptionsOrCallback.statRecord]
  | obj o => simp only [lstatSync, hp, hv, OptionsOrCallback.statRecord]

/-- The callback of `fstat` never gets a snapshot: it gets `undefined` or an
error. -/
theorem fstat_delivers_no_snapshot {σ : Type} (h : Host σ) (fd : Int)
    (options : OptionsOrCallback) (s : σ) :
    ∃ k : Scheduled σ StatResult, fstat h fd options = .ok k ∧
      ((k s).1 = .value .undefined ∨ ∃ e : JSError, (k s).1 = .error e) := by
  refine ⟨_, rfl, ?_⟩
  dsimp only
  rcases fstatSync (fun n => h.validateInteger (.num n)) h.fstatSync fd _ s with ⟨r, s1⟩
  cases r with
  | ok v => exact Or.inl rfl
  | error e => exact Or.inr ⟨e, rfl⟩

/-- C25, the failing case. On the in-memory host with the descriptor 3 open on
a file of three bytes, `fstatSync(3)` returns the snapshot of the file, and
the callback of `fstat(3, callback)` is invoked with `(null)`: its second
argument is `undefined`, not the snapshot. `stat("README.md", callback)`
delivers the snapshot that `statSync("README.md")` returns. -/
theorem fstat_callback_gets_no_snapshot :
    (fstatSync (fun n => memHost.validateInteger (.num n)) memHost.fstatSync 3 statDefaults
      memOpened).1 = .ok (.stats (Stats.new (rawOfFile 3))) ∧
    (fstat memHost 3 .callback).map (fun k => (k memOpened).1) = .ok (.value .undefined) ∧
    (fstat memHost 3 (.obj [("bigint", .bool false)])).map (fun k => (k memOpened).1) =
      .ok (.value .undefined) ∧
    (statSync memHost.getValidatedPath memHost.statSync "README.md" statDefaults memStart).1 =
      .ok (.stats (Stats.new (rawOfFile 3))) ∧
    (stat memHost "README.md" .callback).map (fun k => (k memStart).1) =
      .ok (.value (.stats (Stats.new (rawOfFile 3)))) :=
  ⟨rfl, rfl, rfl, rfl, rfl⟩

/-! ## Path validation of the callback-style calls -/

/-- The calls `stat` and `lstat` raise the error of the path validator at call
time: nothing is scheduled. -/
theorem stat_validates_at_call_time {σ : Type} (h : FsHost σ) (path : String) (e : JSError)
    (options : OptionsOrCallback) (hbad : h.getValidatedPath path = .error e) :
    stat h.toHost path options = .error e ∧ lstat h path options = .error e := by
  simp only [stat, lstat, hbad, and_self]

/-- The call `open` raises the error of the path validator at call time. -/
theorem fsOpen_validates_at_call_time {σ : Type} (h : Host σ) (path : String) (e : JSError)
    (flag mode : JSVal) (hbad : h.getValidatedPath path = .error e) :
    fsOpen h path flag mode = .error e := by
  simp only [fsOpen, hbad]

/-- C23, the failing case. When the path validator rejects the first path
with the error `e`, the calls `rename`, `symlink` and `rm` raise nothing at
call time: each schedules its function, and that function, when it runs,
leaves the host state as it is and invokes the callback with `e`. -/
theorem rename_symlink_rm_validate_when_run {σ : Type} (h : FsHost σ) (bad other : String)
    (e : JSError) (s : σ) (hbad : h.getValidatedPath bad = .error e) :
    (∃ k : Scheduled σ Unit, rename h bad other = .ok k ∧ k s = (.error e, s)) ∧
    (∃ k : Scheduled σ Unit, symlink h bad other = .ok k ∧ k s = (.error e, s)) ∧
    (∀ options : OptionsOrCallback,
      ∃ k : Scheduled σ Unit, rm h bad options = .ok k ∧ k s = (.error e, s)) := by
  refine ⟨⟨_, rfl, ?_⟩, ⟨_, rfl, ?_⟩, fun options => ⟨_, rfl, ?_⟩⟩
  · simp only [renameSync, hbad, deliver]
  · simp only [symlinkSync, hbad, deliver]
  · simp only [rmSync, hbad, deliver]

/-- C23 on the in-memory host whose path validator rejects a null byte: for
the path `"a\0b"`, `rename` schedules its function, which hands the validation
error to the callback, where `stat` raises it at call time. -/
theorem rename_symlink_rm_validate_when_run_witness :
    strictHost.getValidatedPath pathWithNull = .error memInvalidValue ∧
    (∃ k : Scheduled MemFs Unit, rename strictHost pathWithNull "b" = .ok k ∧
      k memStart = (.error memInvalidValue, memStart)) ∧
    stat strictHost.toHost pathWithNull .callback = .error memInvalidValue :=
  ⟨rfl,
    (rename_symlink_rm_validate_when_run strictHost pathWithNull "b" memInvalidValue memStart
      rfl).1,
    rfl⟩

/-! ## `promises.open` -/

/-- The promise of `promises.open` is never resolved with a handle that holds
a descriptor: a handle it resolves with holds `undefined`. -/
theorem promisesOpen_resolves_without_descriptor {σ : Type} (h : Host σ) (path : String)
    (flag mode : JSVal) (s : σ) (fh : FileHandle)
    (hr : (promisesOpen h path flag mode s).1 = .resolved fh) : fh.fd = .undefined := by
  unfold promisesOpen at hr
  cases hopen : fsOpen h path flag mode with
  | error e => rw [hopen] at hr; cases hr
  | ok k =>
    rw [hopen] at hr
    dsimp only at hr
    rcases hk : k s with ⟨r, s1⟩
    rw [hk] at hr
    cases r with
    | value v => cases hr
    | error e =>
      dsimp only at hr
      cases hr
      rfl

/-- Whenever `fs.open` hands a descriptor to its callback, the promise of
`promises.open` is rejected with `null`; whenever it hands an error, the
promise is resolved. -/
theorem promisesOpen_of_delivery {σ : Type} (h : Host σ) (path : String) (flag mode : JSVal)
    (s s1 : σ) (k : Scheduled σ Int) (hk : fsOpen h path flag mode = .ok k) :
    (∀ fd : Int, k s = (.value fd, s1) →
      promisesOpen h path flag mode s = (.rejected none, s1)) ∧
    (∀ e : JSError, k s = (.error e, s1) →
      promisesOpen h path flag mode s = (.resolved { fd := .undefined, path := path }, s1)) := by
  constructor
  · intro fd hd
    simp only [promisesOpen, hk, hd]
  · intro e hd
    simp only [promisesOpen, hk, hd]

/-- C22, the failing case. On the in-memory host, `promises.open("README.md")`
opens the file under descriptor 3, which `fs.open` hands to its callback, and
the promise is rejected with `null`; `promises.open("missing")`, where the
open fails, resolves with a handle whose `fd` is `undefined`. -/
theorem promisesOpen_settles_inverted :
    (fsOpen memHost "README.md" .undefined .undefined).map (fun k => (k memStart).1) =
      .ok (.value 3) ∧
    promisesOpen memHost "README.md" .undefined .undefined memStart =
      (.rejected none,
        { memStart with opened := [(3, "README.md", 0)], nextFd := 4,
                        log := [.openFile "README.md" 0] }) ∧
    (fsOpen memHost "missing" .undefined .undefined).map (fun k => (k memStart).1) =
      .ok (.error { message := "No such file or directory", code := .str "ENOENT" }) ∧
    promisesOpen memHost "missing" .undefined .undefined memStart =
      (.resolved { fd := .undefined, path := "missing" },
        { memStart with log := [.openFile "missing" 0] }) :=
  ⟨rfl, rfl, rfl, rfl⟩

/-! ## `realpathSync` and `readlinkSync` -/

/-- C21. For a path that the validator accepts as `valid` and an encoding that
is accepted, when `lstatSync(valid, { throwIfNoEntry: false })` returns a
snapshot: (1) if the snapshot is not a symbolic link, `realpathSync` returns
`normalize(valid)` in the host state `lstatSync` left, and it returns the same
whatever `binding.realpathSync` is, so the binding is not called; (2) if it is
a symbolic link, `realpathSync` returns `normalize(res)` when
`binding.realpathSync(valid)` returns `res`, and raises `new Error(message)`
with the message of the native error when the binding fails; (3) the value is
`Buffer.from(res, "utf8")` for the encoding `"buffer"` and the text `res` for
`"utf8"`. -/
theorem realpathSync_spec {σ : Type} (h : FsHost σ) (path valid : String) (options : OptionsArg)
    (s s1 : σ) (st : Stats) (hp : h.getValidatedPath path = .ok valid)
    (he : h.validateEncoding (realpathEncoding options) = .ok ())
    (hl : lstatSync h.getValidatedPath h.lstatSync valid [("throwIfNoEntry", .bool false)] s =
      (.ok (.stats st), s1)) :
    (st.isSymbolicLink.truthy = false →
      realpathSync h path options s =
        (.ok (realpathResult h (realpathEncoding options) (h.normalize valid)), s1) ∧
      ∀ f : String → Prim σ String,
        realpathSync { h with realpathSync := f } path options s =
          realpathSync h path options s) ∧
    (st.isSymbolicLink.truthy = true →
      (∀ (res : String) (s2 : σ), h.realpathSync valid s1 = (.ok res, s2) →
        realpathSync h path options s =
          (.ok (realpathResult h (realpathEncoding options) (h.normalize res)), s2)) ∧
      (∀ (err : JSError) (s2 : σ), h.realpathSync valid s1 = (.error err, s2) →
        realpathSync h path options s = (.error (mkError err.message), s2) ∧
          (mkError err.message).message = err.message)) ∧
    (∀ res : String,
      realpathResult h (.str "buffer") res = .bytes (h.bufferFrom res (.str "utf8")) ∧
      realpathResult h (.str "utf8") res = .text res) := by
  refine ⟨fun hs => ⟨?_, fun f => ?_⟩, fun hs => ⟨fun res s2 hb => ?_, fun err s2 hb => ⟨?_, rfl⟩⟩,
    fun res => ⟨rfl, rfl⟩⟩
  · simp [realpathSync, hp, he, hl, StatResult.isSymbolicLink, hs]
  · simp [realpathSync, hp, he, hl, StatResult.isSymbolicLink, hs, realpathResult]
  · simp [realpathSync, hp, he, hl, StatResult.isSymbolicLink, hs, hb]
  · simp [realpathSync, hp, he, hl, StatResult.isSymbolicLink, hs, hb]

/-- C21 on the in-memory host: `"README.md"` is a regular file and is returned
normalized after the one call of `lstatSync`; `"latest"` is a symbolic link to
`"README.md"` and is resolved by the binding, here into a buffer. -/
theorem realpathSync_spec_witness :
    realpathSync memFsHost "README.md" .undefined memStart =
      (.ok (.text "README.md"), { memStart with log := [.stat "README.md"] }) ∧
    realpathSync memFsHost "latest" (.str "buffer") memStart =
      (.ok (.bytes (Buffer.ofBytes [82, 69, 65, 68, 77, 69, 46, 109, 100])),
        { memStart with log := [.stat "latest"] }) :=
  ⟨((realpathSync_spec memFsHost "README.md" "README.md" .undefined memStart
      { memStart with log := [.stat "README.md"] } (Stats.new (rawOfFile 3)) rfl rfl rfl).1
        rfl).1,
    ((realpathSync_spec memFsHost "latest" "latest" (.str "buffer") memStart
      { memStart with log := [.stat "latest"] } (Stats.new rawOfLink) rfl rfl rfl).2.1
        rfl).1 "README.md" { memStart with log := [.stat "latest"] } rfl⟩

/-- C24, the failing case. When the binding fails with any error `err`, both
`readlinkSync` and `writeSync` raise the `ReferenceError` for the undeclared
name `callback`, which has no code: neither the message nor the code of `err`
reaches the caller. -/
theorem sync_catch_calls_undeclared_callback {σ : Type} (h : FsHost σ) (g : Host σ)
    (err : JSError) :
    (∀ (path valid : String) (option : OptionsArg) (s s1 : σ),
      h.getValidatedPath path = .ok valid →
      h.validateEncoding (Obj.lookup
        (applyDefaults (readlinkOptionRecord option) [("encoding", .str "utf8")]) "encoding") =
        .ok () →
      h.readlinkSync valid s = (.error err, s1) →
      readlinkSync h path option s = (.error referenceErrorCallback, s1)) ∧
    (∀ (fd : Int) (args : WriteArgs) (buffer : Buffer) (offset length position : Int) (s s1 : σ),
      writeSyncResolve g args = .ok (buffer, offset, length, position) →
      g.validateInteger (.num offset) = .ok () →
      g.validateInteger (.num position) = .ok () →
      g.validateInteger (.num length) = .ok () →
      g.fwriteSync fd position (sliceBytes buffer.buffer offset (offset + length)) s =
        (.error err, s1) →
      writeSync g fd args s = (.error referenceErrorCallback, s1)) ∧
    referenceErrorCallback.name = "ReferenceError" ∧
    referenceErrorCallback.code = .undefined := by
  refine ⟨fun path valid option s s1 hp he hb => ?_,
    fun fd args buffer offset length position s s1 hr ho hpos hlen hb => ?_, rfl, rfl⟩
  · simp only [readlinkSync, hp, he, hb]
  · simp only [writeSync, hr, ho, hpos, hlen, hb]

/-- C24 on the in-memory host: `readlinkSync("README.md")`, where the binding
fails with `"Invalid argument"` and code `"INVAL"`, and `writeSync(3, "x")`,
where it fails with `"I/O error"` and code `"IO"`, both raise the
`ReferenceError`. -/
theorem sync_catch_calls_undeclared_callback_witness :
    memFsHost.readlinkSync "README.md" memStart = (.error memInvalid, memStart) ∧
    readlinkSync memFsHost "README.md" .undefined memStart =
      (.error referenceErrorCallback, memStart) ∧
    writeSync hostFailingWrite 3 (.string "x" .undefined .undefined) memOpened =
      (.error referenceErrorCallback, { memOpened with log := [.write 3 0 [120]] }) :=
  ⟨rfl,
    (sync_catch_calls_undeclared_callback memFsHost hostFailingWrite memInvalid).1
      "README.md" "README.md" .undefined memStart memStart rfl rfl rfl,
    (sync_catch_calls_undeclared_callback memFsHost hostFailingWrite memIoError).2.1
      3 (.string "x" .undefined .undefined) (Buffer.ofBytes [120]) 0 1 0 memOpened
      { memOpened with log := [.write 3 0 [120]] } rfl rfl rfl rfl rfl⟩

/-! ## `Dir.read` -/

/-- On a cursor at the end of a finished listing, `read(callback)` invokes the
callback twice, with `(null, null)` and then with a `TypeError`, and moves the
read index past the buffer; the promise form resolves with `null` and leaves
the cursor as it is. The binding is not called. -/
theorem Dir.read_at_end {σ : Type} (f : Int → Nat → Prim σ Page) (d : Dir) (s : σ)
    (hi : d.idx = d.dataBuf.length) (hf : d.fin = true) :
    Dir.read f d s =
      ([.value none, .error typeErrorReadUndefined], { d with idx := d.idx + 1 }, s) ∧
    Dir.readPromise f d s = (.resolved none, d, s) := by
  have hfetch : Dir.fetch f d s = (.ok false, d, s) := by
    simp [Dir.fetch, Dir.hasNext, hi, hf]
  have hget : d.dataBuf.get? d.idx = none := by
    rw [hi]; exact List.get?_eq_none.mpr (le_refl _)
  constructor
  · simp only [Dir.read, hfetch, hget]
    rfl
  · simp only [Dir.readPromise, hfetch]

/-- C26, the failing case. On the cursor `drainedDir`, which is at the end of
its finished listing, `read(callback)` invokes the callback twice: with
`(null, null)` and then with a `TypeError`; the promise form resolves with
`null`, as `readSync` returns `null`. The callback form leaves the read index
past the buffer, and the next `read(callback)` delivers the `TypeError` alone. -/
theorem dir_read_callback_twice_at_end :
    Dir.read memFsHost.freaddirSync drainedDir memStart =
      ([.value none, .error typeErrorReadUndefined], { drainedDir with idx := 2 }, memStart) ∧
    Dir.readPromise memFsHost.freaddirSync drainedDir memStart =
      (.resolved none, drainedDir, memStart) ∧
    Dir.readSync memFsHost.freaddirSync drainedDir memStart = (.ok none, drainedDir, memStart) ∧
    Dir.read memFsHost.freaddirSync { drainedDir with idx := 2 } memStart =
      ([.error typeErrorReadUndefined], { drainedDir with idx := 3 }, memStart) :=
  ⟨rfl, rfl, rfl, rfl⟩

/-! ## `readdirSync` -/

/-- The function `readdirSync` never calls `binding.fcloseSync`: it does the
same on every host that differs in that primitive only. -/
theorem readdirSync_never_closes {σ : Type} (h : FsHost σ) (f : Int → Prim σ Unit)
    (path : String) (options : OptionsArg) (fuel : Nat) (s : σ) :
    readdirSync { h with fcloseSync := f } path options fuel s =
      readdirSync h path options fuel s :=
  rfl

/-- C27, the failing case. On the in-memory host, `readdirSync("tmp", {})`
returns the names `"a"` and `"b"` after one call of `binding.openSync`, and no
call of `binding.fcloseSync` is in the log: the descriptor 3 it opened is
still open when it returns. With no options, `readdirSync("tmp")` throws a
`TypeError` before it opens anything. -/
theorem readdirSync_leaves_descriptor_open :
    readdirSync memFsHost "tmp" (.obj []) 5 memWithEntries =
      some (.ok [.name "a", .name "b"],
        { memWithEntries with opened := [(3, "tmp", 0)], nextFd := 4,
                              log := [.openFile "tmp" 0] }) ∧
    readdirSync memFsHost "tmp" .undefined 5 memWithEntries =
      some (.error typeErrorReadUndefined, memWithEntries) :=
  ⟨rfl, rfl⟩

/-! ## The callback-style `read` against `readSync` -/

/-- On every host whose `validateInteger` accepts the integers, for a
descriptor that `fstatSync` reports as a regular file, and for position 0:
the host state after the callback-style `read` is the one `binding.freadSync`
leaves when it is called with position -1 after the `fstatSync` of `fread`,
and the host state after `readSync` is the one it leaves when it is called
with position 0. -/
theorem read_position_zero_requests_current {σ : Type} (h : FsHost σ)
    (hv : ∀ n : Int, h.validateInteger (.num n) = .ok ()) (fd : Int) (buffer : Buffer)
    (offset length : Int) (s s1 : σ) (st : Stats)
    (hf : fstatSync (fun n => h.validateInteger (.num n)) h.fstatSync fd statDefaults s =
      (.ok (.stats st), s1))
    (hfile : st.isFile.truthy = true) :
    (read h fd (.positional buffer (.num offset) (.num length) (.num 0)) s).2 =
      (h.freadSync fd (-1) length s1).2 ∧
    (readSync h.toHost fd buffer (.positional (.num offset) (.num length) (.num 0)) s).2.2 =
      (h.freadSync fd 0 (RawNum.orElse (.num length) ((buffer.byteLength : Int) - offset)) s).2 := by
  constructor
  · have hres : readResolve (.positional buffer (.num offset) (.num length) (.num 0)) =
        .ok (buffer, .num offset, .num length, -1) := rfl
    have hfread : fread h fd (-1) length s =
        (.ok (h.freadSync fd (-1) length s1).1, (h.freadSync fd (-1) length s1).2) := by
      simp only [fread, hf, StatResult.isFile, hfile, if_true]
    simp only [read, hres, hv, RawNum.toInt, hfread]
    rcases h.freadSync fd (-1) length s1 with ⟨r, s2⟩
    cases r with
    | error e => rfl
    | ok data =>
      simp only []
      cases buffer.fill data offset data.length <;> rfl
  · exact readSync_state h.toHost hv fd buffer (.positional (.num offset) (.num length) (.num 0)) s

/-- C28, the failing case. On the in-memory host, with the descriptor 3 open
on the file of bytes `[104, 105, 10]` and standing at position 1, and for a
buffer of four zero bytes, offset 1, length 2 and position 0: `readSync` asks
the binding for position 0 and leaves `[0, 104, 105, 0]`; the callback-style
`read` asks for position -1, so it reads from position 1 and moves the
descriptor, and it fills up to index 2 only, leaving `[0, 105, 0, 0]`, while
it delivers the byte count 2. -/
theorem read_callback_differs_from_readSync :
    readSync memFsHost.toHost 3 (Buffer.ofBytes [0, 0, 0, 0])
        (.positional (.num 1) (.num 2) (.num 0)) memSeeked =
      (.ok 2, { buffer := [0, 104, 105, 0], byteOffset := 0, byteLength := 4 },
        { memSeeked with log := [.read 3 0 2] }) ∧
    read memFsHost 3 (.positional (Buffer.ofBytes [0, 0, 0, 0]) (.num 1) (.num 2) (.num 0))
        memSeeked =
      (.ok (.value (2, { buffer := [0, 105, 0, 0], byteOffset := 0, byteLength := 4 })),
        { memSeeked with opened := [(3, "README.md", 3)],
                         log := [.fstat 3, .read 3 (-1) 2] }) :=
  ⟨rfl, rfl⟩

/-! ## The methods of `FileHandle` -/

/-- The method `FileHandle.readFile` does the same whatever descriptor the
handle holds. -/
theorem FileHandle.readFile_ignores_descriptor {σ : Type} (h : FsHost σ) (fd1 fd2 : RawNum)
    (path : String) (options : OptionsArg) (s : σ) :
    FileHandle.readFile h { fd := fd1, path := path } options s =
      FileHandle.readFile h { fd := fd2, path := path } options s :=
  rfl

/-- The methods `read`, `write`, `readv`, `writev`, `stat`, `sync`,
`dataSync`, `truncate`, `utimes` and `appendFile` pass the descriptor of the
handle as the first argument of their call. -/
theorem FileHandle.firstArgument_descriptor (fh : FileHandle) :
    ∀ m ∈ [HandleMethod.read, .write, .readv, .writev, .stat, .sync, .dataSync, .truncate,
        .utimes, .appendFile],
      fh.firstArgument m = .descriptor fh.fd := by
  intro m hm
  simp only [List.mem_cons, List.mem_singleton, List.not_mem_nil, or_false] at hm
  rcases hm with h | h | h | h | h | h | h | h | h | h <;> subst h <;> rfl

/-- C29, the failing case. For the handle made from the descriptor 3 and the
path `"README.md"`, `readFile` and `writeFile` pass the path, not the
descriptor, to `fs.readFile` and `fs.writeFile`. On the in-memory host with
the descriptor 3 open, `handle.readFile()` opens `"README.md"` again under
descriptor 4, reads and closes that one; descriptor 3 reaches no primitive. -/
theorem fileHandle_readFile_opens_path :
    readmeHandle.firstArgument .readFile = .path "README.md" ∧
    readmeHandle.firstArgument .writeFile = .path "README.md" ∧
    FileHandle.readFile memFsHost readmeHandle .undefined memOpened =
      (some (.resolved (.bytes { buffer := [104, 105, 10], byteOffset := 0, byteLength := 3 })),
        { memOpened with nextFd := 5,
                         log := [.openFile "README.md" 0, .fstat 4, .fstat 4, .read 4 (-1) 3,
                                 .close 4] }) :=
  ⟨rfl, rfl, rfl⟩

end NodeFs
